import Mathlib

/-! AdminMobile: toggle semantics and the approval workflow

A shallow embedding of the request handlers of `backend/server.js` (the primary
backend: blogs, reviews, watchlists) and of `backend-2/server.js` (the approval
backend: access requests, login, approve, reject).

Conventions of the embedding.

* A Mongo collection is a `List` of documents in natural (insertion) order.
  `findById` and `findOne` return the first matching document, `save` on a loaded
  document rewrites the first document carrying its `_id`, `save` on a new
  document appends it.
* An `ObjectId` is a natural number.  A handler that takes an `ObjectId` is the
  handler for a path id that casts to it; the routes whose behaviour at every
  path id is stated take the text of the id and the cast (`...Request`), and a
  refused cast is the CastError of Mongoose, answered by the `catch` block.
* Documents hold the fields of their schema.  The version key `__v`, which
  Mongoose keeps on every document and raises on array saves, is not part of
  them: two documents compared here are compared on their schema fields.
* A handler is a function from the store and the request data to the response and
  the next store.  The store is reliable: the `catch` branches (HTTP 500) of the
  handlers are reached only where the handler body itself throws.
* `bcryptjs` and `jsonwebtoken` are collaborators: hashing is a parameter
  (`Hasher`), a signed token is represented by the claims it carries and
  `jwt.verify` is a parameter of the token gate.
* The movie provider (`axios.get`) and the `$regex` blog query are parameters
  giving the outcome of the call, `none` when it throws.
* Request bodies hold strings (or miss the key); where a handler tests the
  truthiness of a value of any JSON type, the value is a `JsValue`.
* `Frontend` holds `getRecommendedMovies` of the web client and `AdminPanel` the
  login handler of the admin panel, each as a function of the values it reads.
-/

set_option autoImplicit false

namespace AdminMobile

/-- A Mongo `ObjectId` (well-formed). -/
abbrev ObjectId := Nat

/-! ## JavaScript array primitives used by the handlers -/

section JsArray

variable {α : Type}

/-- JavaScript `Array.prototype.indexOf(x)`: the first index holding `x`, or `-1`. -/
def indexOf [DecidableEq α] : List α → α → Int
  | [], _ => -1
  | y :: ys, x =>
    if y = x then 0
    else
      let i := indexOf ys x
      if i > -1 then i + 1 else -1

/-- JavaScript `Array.prototype.splice(start, deleteCount)` with no inserted items: the
array that remains. -/
def splice (xs : List α) (start deleteCount : Nat) : List α :=
  xs.take start ++ xs.drop (start + deleteCount)

/-- JavaScript `Array.prototype.push(x)`: the array after the call. -/
def push (xs : List α) (x : α) : List α :=
  xs ++ [x]

/-- Closed form of the `indexOf` / `splice` / `push` block of the toggle handlers
(`toggle_block_eq`): drop the first occurrence of `x` if there is one, else
append `x`. -/
def toggled [DecidableEq α] (xs : List α) (x : α) : List α :=
  if x ∈ xs then xs.erase x else xs ++ [x]

end JsArray

/-! ## Collections -/

/-- Documents of a collection: each has an `_id`. -/
class Doc (α : Type) where
  /-- The `_id` of a document. -/
  _id : α → ObjectId

section Collection

variable {α : Type} [Doc α]

/-- Mongoose `Model.findById(id)`: the first document with this `_id`, or `null`. -/
def findById (docs : List α) (id : ObjectId) : Option α :=
  docs.find? (fun d => Doc._id d == id)

/-- Mongoose `doc.save()` for a document loaded from the collection: the first stored
document with the same `_id` is replaced by `doc`. -/
def save : List α → α → List α
  | [], _ => []
  | d :: ds, doc => if Doc._id d = Doc._id doc then doc :: ds else d :: save ds doc

/-- Mongoose `doc.save()` for a document made with `new Model(...)`: it is inserted. -/
def saveNew (docs : List α) (doc : α) : List α :=
  docs ++ [doc]

/-- Mongoose `Model.findByIdAndUpdate(id, update, { new: true })`: the first document with
this `_id` is updated in place; the updated document (or `null`) is returned. -/
def findByIdAndUpdate (docs : List α) (id : ObjectId) (update : α → α) :
    Option α × List α :=
  match findById docs id with
  | none => (none, docs)
  | some d => (some (update d), save docs (update d))

/-- Mongoose `Model.findByIdAndDelete(id)`: the first document with this `_id` is removed
and returned (or `null`). -/
def findByIdAndDelete : List α → ObjectId → Option α × List α
  | [], _ => (none, [])
  | d :: ds, id =>
    if Doc._id d = id then (some d, ds)
    else
      let r := findByIdAndDelete ds id
      (r.1, d :: r.2)

end Collection

/-- The `_id` index of a Mongo collection: no two documents share an `_id`. -/
def UniqueIds {α : Type} [Doc α] (docs : List α) : Prop :=
  (docs.map Doc._id).Nodup

instance {α : Type} [Doc α] (docs : List α) : Decidable (UniqueIds docs) := by
  unfold UniqueIds
  exact inferInstance

/-! ## JavaScript values and strings -/

/-- A JSON value of a request body, as far as a handler looks at it (numbers are
integers here). -/
inductive JsValue where
  | undefined
  | null
  | bool (b : Bool)
  | number (n : Int)
  | string (s : String)
  deriving DecidableEq, Repr

/-- JavaScript truthiness: `!v` is the negation of this. -/
def JsValue.truthy : JsValue → Bool
  | .undefined => false
  | .null => false
  | .bool b => b
  | .number n => n != 0
  | .string s => s != ""

/-- The value of `s.replace(pat, rep)` for string arguments, on the characters:
the first occurrence of `pat` is replaced. -/
def replaceFirst (pat rep : List Char) : List Char → List Char
  | [] => if pat = [] then rep else []
  | c :: cs =>
    if pat.isPrefixOf (c :: cs) then rep ++ (c :: cs).drop pat.length
    else c :: replaceFirst pat rep cs

/-- JavaScript `String.prototype.replace(pat, rep)` with a string pattern. -/
def jsReplace (s pat rep : String) : String :=
  ⟨replaceFirst pat.data rep.data s.data⟩

/-- The characters `String.prototype.trim` strips: ECMAScript WhiteSpace and
LineTerminator code points. -/
def isJsWhitespace (c : Char) : Bool :=
  let n := c.toNat
  n == 0x09 || n == 0x0A || n == 0x0B || n == 0x0C || n == 0x0D || n == 0x20 || n == 0xA0 ||
    n == 0x1680 || (0x2000 ≤ n && n ≤ 0x200A) || n == 0x2028 || n == 0x2029 || n == 0x202F ||
    n == 0x205F || n == 0x3000 || n == 0xFEFF

/-- The value of `trim` on the characters. -/
def trimChars (cs : List Char) : List Char :=
  ((cs.dropWhile isJsWhitespace).reverse.dropWhile isJsWhitespace).reverse

/-- JavaScript `String.prototype.trim()`. -/
def jsTrim (s : String) : String :=
  ⟨trimChars s.data⟩

/-- The value of `split(sep)` for a one-character separator, on the characters. -/
def splitChars (sep : Char) : List Char → List (List Char)
  | [] => [[]]
  | c :: cs =>
    if c = sep then [] :: splitChars sep cs
    else
      match splitChars sep cs with
      | [] => [[c]]
      | piece :: pieces => (c :: piece) :: pieces

/-- JavaScript `String.prototype.split(",")`. -/
def jsSplitComma (s : String) : List String :=
  (splitChars ',' s.data).map String.mk

/-- JavaScript `String.prototype.includes(t)`, on the characters. -/
def includesChars (s t : List Char) : Bool :=
  s.tails.any (fun rest => t.isPrefixOf rest)

/-- JavaScript `s.includes(t)`. -/
def jsIncludes (s t : String) : Bool :=
  includesChars s.data t.data

/-- JavaScript truthiness of a value that is a string or missing. -/
def truthyStr : Option String → Bool
  | none => false
  | some v => v != ""

/-! ## Express middleware -/

/-- What a middleware does with a request: it sends a response, or it calls
`next()` with `req.user` holding `user`. -/
inductive Gate (κ : Type) where
  | respond (status : Nat) (message : String)
  | next (user : κ)
  deriving DecidableEq, Repr

/-- The middleware `verifyToken`, the same text in `backend/server.js` and
`backend-2/server.js`.  `authorization` is `req.header("Authorization")`
(`none` when the header is absent); `jwtVerify` stands for
`jwt.verify(token, process.env.JWT_SECRET)`, `none` when it throws (malformed or
expired token, bad signature). -/
def verifyToken {κ : Type} (jwtVerify : String → Option κ) (authorization : Option String) :
    Gate κ :=
  let token := authorization.map (fun h => jsReplace h "Bearer " "")
  match token with
  | none => .respond 401 "Access denied. No token provided."
  | some t =>
    if t = "" then .respond 401 "Access denied. No token provided."
    else
      match jwtVerify t with
      | some decoded => .next decoded
      | none => .respond 400 "Invalid token."

/-- The response interceptor of the two browser clients
(`frontend/src/services/api.js`, `Admin/src/services/api.js`), whether it ends
the session: a failed response with status 401 is taken as "Token expired or
invalid", the stored token and user are removed and the browser is sent to
`/login`; a failure with any other status is only passed on. -/
def interceptorEndsSession (status : Nat) : Bool :=
  status == 401

/-! ## Primary backend (`backend/server.js`) -/

namespace Backend

/-- An entry of `blogSchema.comments`; Mongoose gives every subdocument an
`_id`. -/
structure Comment where
  _id : ObjectId
  user : ObjectId
  text : String
  createdAt : Nat
  deriving DecidableEq, Repr

/-- The fields of `userSchema`; `isAdmin` is `none` when `null` is stored. -/
structure User where
  _id : ObjectId
  username : String
  email : String
  password : String
  avatar : String
  bio : String
  watchlist : List String
  isAdmin : Option Bool
  createdAt : Nat
  deriving DecidableEq, Repr

/-- The fields of `blogSchema`. -/
structure Blog where
  _id : ObjectId
  title : String
  content : String
  author : ObjectId
  image : String
  tags : List String
  likes : List ObjectId
  comments : List Comment
  isApproved : Bool
  createdAt : Nat
  deriving DecidableEq, Repr

/-- The fields of `reviewSchema`. -/
structure Review where
  _id : ObjectId
  movieId : String
  movieTitle : String
  user : ObjectId
  rating : Nat
  content : String
  likes : List ObjectId
  isApproved : Bool
  createdAt : Nat
  deriving DecidableEq, Repr

instance : Doc User := ⟨User._id⟩
instance : Doc Blog := ⟨Blog._id⟩
instance : Doc Review := ⟨Review._id⟩

/-- The three collections of the primary backend. -/
structure Store where
  users : List User
  blogs : List Blog
  reviews : List Review
  deriving DecidableEq, Repr

/-- A user document after `.select("-password")`. -/
structure UserView where
  _id : ObjectId
  username : String
  email : String
  avatar : String
  bio : String
  watchlist : List String
  isAdmin : Option Bool
  createdAt : Nat
  deriving DecidableEq, Repr

/-- The query projection `.select("-password")`. -/
def selectNoPassword (u : User) : UserView :=
  { _id := u._id, username := u.username, email := u.email, avatar := u.avatar, bio := u.bio,
    watchlist := u.watchlist, isAdmin := u.isAdmin, createdAt := u.createdAt }

/-- A movie object of the external provider, as far as the handlers read it; a
key the object lacks is `none`. -/
structure Movie where
  _id : String
  title : Option String
  genre : Option (List String)
  director : Option String
  cast : Option (List String)
  deriving DecidableEq, Repr

/-- The data a response carries next to its message. -/
inductive Payload where
  | none
  | likes (count : Nat)
  | watchlist (movies : List String)
  | user (user : Option UserView)
  | blog (blog : Blog)
  | review (review : Review)
  | search (movies : Option (List Movie)) (blogs : Option (List Blog))
  | profile (user : UserView) (blogs : List Blog) (reviews : List Review)
      (watchlistMovies : List Movie)
  | comment (comment : Option Comment)
  | blogs (blogs : List Blog)
  deriving DecidableEq, Repr

/-- An HTTP response: `res.status(status).json({ message, ... })`; the message is
empty when the body has no `message` key. -/
structure Response where
  status : Nat
  message : String
  payload : Payload
  deriving DecidableEq, Repr

/-- Handler of `PUT /api/blogs/:id/like` (after `verifyToken`) from the point
where `findById` has cast `req.params.id` to the ObjectId `id`; `userId` is
`req.user.userId`. -/
def putBlogLike (s : Store) (id userId : ObjectId) : Response × Store :=
  match findById s.blogs id with
  | none => (⟨404, "Blog not found", .none⟩, s)
  | some blog =>
    let likeIndex := indexOf blog.likes userId
    let blog :=
      if likeIndex > -1 then { blog with likes := splice blog.likes likeIndex.toNat 1 }
      else { blog with likes := push blog.likes userId }
    (⟨200, "Blog like updated", .likes blog.likes.length⟩,
      { s with blogs := save s.blogs blog })

/-- Handler of `PUT /api/reviews/:id/like` (after `verifyToken`) from the point
where `findById` has cast `req.params.id` to the ObjectId `id`. -/
def putReviewLike (s : Store) (id userId : ObjectId) : Response × Store :=
  match findById s.reviews id with
  | none => (⟨404, "Review not found", .none⟩, s)
  | some review =>
    let likeIndex := indexOf review.likes userId
    let review :=
      if likeIndex > -1 then { review with likes := splice review.likes likeIndex.toNat 1 }
      else { review with likes := push review.likes userId }
    (⟨200, "Review like updated", .likes review.likes.length⟩,
      { s with reviews := save s.reviews review })

/-- Handler of `PUT /api/users/watchlist/:movieId` (after `verifyToken`): `movieId` is
`req.params.movieId`, `userId` is `req.user.userId`. -/
def putWatchlist (s : Store) (movieId : String) (userId : ObjectId) : Response × Store :=
  match findById s.users userId with
  | none => (⟨404, "User not found", .none⟩, s)
  | some user =>
    let movieIndex := indexOf user.watchlist movieId
    let user :=
      if movieIndex > -1 then
        { user with watchlist := splice user.watchlist movieIndex.toNat 1 }
      else { user with watchlist := push user.watchlist movieId }
    (⟨200, "Watchlist updated", .watchlist user.watchlist⟩,
      { s with users := save s.users user })

/-- Handler of `PUT /api/blogs/:id/like` on the text of `req.params.id`:
`castObjectId` is the cast `Blog.findById` applies to it, `none` when it raises
CastError, which the `catch` block answers with 500. -/
def putBlogLikeRequest (castObjectId : String → Option ObjectId) (s : Store) (id : String)
    (userId : ObjectId) : Response × Store :=
  match castObjectId id with
  | none => (⟨500, "Server error", .none⟩, s)
  | some oid => putBlogLike s oid userId

/-- Handler of `PUT /api/reviews/:id/like` on the text of `req.params.id`:
`castObjectId` is the cast `Review.findById` applies to it, `none` when it
raises CastError, which the `catch` block answers with 500. -/
def putReviewLikeRequest (castObjectId : String → Option ObjectId) (s : Store) (id : String)
    (userId : ObjectId) : Response × Store :=
  match castObjectId id with
  | none => (⟨500, "Server error", .none⟩, s)
  | some oid => putReviewLike s oid userId

/-- The store after `n` consecutive calls of `PUT /api/blogs/:id/like` by the
same user on the same blog. -/
def putBlogLikeTimes (s : Store) (id userId : ObjectId) : Nat → Store
  | 0 => s
  | n + 1 => putBlogLikeTimes (putBlogLike s id userId).2 id userId n

/-! ### Gates and admin handlers -/

/-- The payload that register and login hand to `jwt.sign`, which `verifyToken`
decodes into `req.user`. -/
structure Claims where
  userId : ObjectId
  username : String
  email : String
  isAdmin : Bool
  deriving DecidableEq, Repr

/-- The middleware `verifyAdmin`: `req.user` is the payload `verifyToken`
decoded. -/
def verifyAdmin (user : Claims) : Gate Claims :=
  if !user.isAdmin then .respond 403 "Access denied. Admin required."
  else .next user

/-- An admin-only route `app.METHOD(path, verifyToken, verifyAdmin, handler)`:
Express runs the three in order and the first response sent ends the request. -/
def adminRoute (jwtVerify : String → Option Claims) (handler : Store → Response × Store)
    (authorization : Option String) (s : Store) : Response × Store :=
  match verifyToken jwtVerify authorization with
  | .respond status message => (⟨status, message, .none⟩, s)
  | .next user =>
    match verifyAdmin user with
    | .respond status message => (⟨status, message, .none⟩, s)
    | .next _ => handler s

/-- The cast Mongoose applies to a value written to a path of schema type
Boolean (`isAdmin: { type: Boolean }`): `true`, `"true"`, `1`, `"1"`, `"yes"`
become `true`; `false`, `"false"`, `0`, `"0"`, `"no"` become `false`; `null` and
`undefined` pass as they are (`some none`); any other string or number raises a
CastError (`none`). -/
def mongooseCastBoolean : JsValue → Option (Option Bool)
  | .bool b => some (some b)
  | .string v =>
    if v = "true" ∨ v = "1" ∨ v = "yes" then some (some true)
    else if v = "false" ∨ v = "0" ∨ v = "no" then some (some false)
    else none
  | .number n =>
    if n = 1 then some (some true) else if n = 0 then some (some false) else none
  | .null => some none
  | .undefined => some none

/-- Handler of `PUT /api/admin/users/:id/admin` (after `verifyToken`,
`verifyAdmin`): `id` is the ObjectId of `req.params.id`, `isAdmin` is
`req.body.isAdmin`, `cast` is the Mongoose cast of the update to the schema type
(`none` when it throws, `some none` for a value stored as `null`).
When `findById` returns `null`, reading `user.email` throws a TypeError, which
the `catch` block answers with 500; so does a cast that throws.  An `undefined`
value is dropped from the update by Mongoose: nothing is written and the user is
returned as stored. -/
def putAdminUsersAdmin (cast : JsValue → Option (Option Bool)) (s : Store) (id : ObjectId)
    (isAdmin : JsValue) : Response × Store :=
  match findById s.users id with
  | none => (⟨500, "Server error", .none⟩, s)
  | some user =>
    if user.email = "ayush.bhrg@gmail.com" ∧ (!isAdmin.truthy) = true then
      (⟨403, "Cannot remove admin rights from this user", .none⟩, s)
    else if isAdmin = .undefined then
      (⟨200, "User admin status updated", .user (some (selectNoPassword user))⟩, s)
    else
      match cast isAdmin with
      | none => (⟨500, "Server error", .none⟩, s)
      | some flag =>
        let r := findByIdAndUpdate s.users id (fun u => { u with isAdmin := flag })
        (⟨200, "User admin status updated", .user (r.1.map selectNoPassword)⟩,
          { s with users := r.2 })

/-! ### Creation handlers -/

/-- The body of `POST /api/blogs`: the four keys the handler destructures, each a
string or missing, and every other key of the body in `rest`. -/
structure BlogBody where
  title : Option String
  content : Option String
  tags : Option String
  imageUrl : Option String
  rest : List (String × JsValue)
  deriving DecidableEq, Repr

/-- Handler of `POST /api/blogs` (after `verifyToken`, `upload.single("image")`).
`file` is `req.file.path` when a file was uploaded, `newId` the `_id` drawn by
`new Blog`, `now` the value of `Date.now`.  The schema defaults fill the fields
the constructor object leaves out (`likes`, `comments`, `isApproved: true`,
`createdAt`).  `blog.save()` validates `required` on `title` and `content`: an
empty string fails and the `catch` block answers 500. -/
def postBlogs (s : Store) (user : Claims) (body : BlogBody) (file : Option String)
    (newId : ObjectId) (now : Nat) : Response × Store :=
  if !truthyStr body.title || !truthyStr body.content then
    (⟨400, "Title and content are required", .none⟩, s)
  else
    let title := body.title.getD ""
    let content := body.content.getD ""
    let finalImageUrl :=
      match file with
      | some path => path
      | none =>
        if truthyStr body.imageUrl && jsTrim (body.imageUrl.getD "") != "" then
          jsTrim (body.imageUrl.getD "")
        else ""
    let blog : Blog :=
      { _id := newId, title := jsTrim title, content := jsTrim content, author := user.userId,
        image := finalImageUrl,
        tags :=
          if truthyStr body.tags then
            ((jsSplitComma (body.tags.getD "")).map jsTrim).filter (fun tag => tag != "")
          else [],
        likes := [], comments := [], isApproved := true, createdAt := now }
    if blog.title = "" ∨ blog.content = "" then (⟨500, "Server error", .none⟩, s)
    else (⟨201, "Blog created successfully", .blog blog⟩, { s with blogs := saveNew s.blogs blog })

/-- The body of `POST /api/reviews`: the four keys the handler destructures (the
rating an integer or missing) and every other key of the body in `rest`. -/
structure ReviewBody where
  movieId : Option String
  movieTitle : Option String
  rating : Option Int
  content : Option String
  rest : List (String × JsValue)
  deriving DecidableEq, Repr

/-- Handler of `POST /api/reviews` (after `verifyToken`).  `review.save()`
validates `min: 1, max: 10` on `rating`: a value outside fails and the `catch`
block answers 500. -/
def postReviews (s : Store) (user : Claims) (body : ReviewBody) (newId : ObjectId) (now : Nat) :
    Response × Store :=
  if !truthyStr body.movieId || !truthyStr body.movieTitle || body.rating.getD 0 == 0
      || !truthyStr body.content then
    (⟨400, "All fields are required", .none⟩, s)
  else
    let movieId := body.movieId.getD ""
    let movieTitle := body.movieTitle.getD ""
    let rating := body.rating.getD 0
    let content := body.content.getD ""
    match s.reviews.find? (fun r => r.movieId == movieId && r.user == user.userId) with
    | some _ => (⟨400, "You have already reviewed this movie", .none⟩, s)
    | none =>
      let review : Review :=
        { _id := newId, movieId := movieId, movieTitle := movieTitle, user := user.userId,
          rating := rating.toNat, content := content, likes := [], isApproved := true,
          createdAt := now }
      if rating < 1 ∨ rating > 10 then (⟨500, "Server error", .none⟩, s)
      else
        (⟨201, "Review created successfully", .review review⟩,
          { s with reviews := saveNew s.reviews review })

/-! ### The review creation as two store operations

Between `await Review.findOne(...)` and `await review.save()` the handler holds
the outcome of its check and other requests may run; `reviewSchema` declares no
unique index on (movieId, user), so the save itself checks nothing about the
pair. -/

/-- The handler of `POST /api/reviews` up to its first store operation: the field
check and `Review.findOne({ movieId, user })`; `some response` when the handler
answers there, `none` when it goes on to create the review. -/
def reviewCheck (s : Store) (user : Claims) (body : ReviewBody) : Option Response :=
  if !truthyStr body.movieId || !truthyStr body.movieTitle || body.rating.getD 0 == 0
      || !truthyStr body.content then
    some ⟨400, "All fields are required", .none⟩
  else
    match s.reviews.find?
        (fun r => r.movieId == body.movieId.getD "" && r.user == user.userId) with
    | some _ => some ⟨400, "You have already reviewed this movie", .none⟩
    | none => none

/-- The handler of `POST /api/reviews` after a check that let it pass:
`new Review(...)` and `review.save()`, with the validation of `rating`. -/
def reviewSave (s : Store) (user : Claims) (body : ReviewBody) (newId : ObjectId) (now : Nat) :
    Response × Store :=
  let rating := body.rating.getD 0
  let review : Review :=
    { _id := newId, movieId := body.movieId.getD "", movieTitle := body.movieTitle.getD "",
      user := user.userId, rating := rating.toNat, content := body.content.getD "", likes := [],
      isApproved := true, createdAt := now }
  if rating < 1 ∨ rating > 10 then (⟨500, "Server error", .none⟩, s)
  else
    (⟨201, "Review created successfully", .review review⟩,
      { s with reviews := saveNew s.reviews review })

/-! ### Handlers that call the movie provider -/

/-- The filter callback of `GET /api/search` on one movie; `toLowerCase` is
`String.prototype.toLowerCase`. -/
def movieMatches (toLowerCase : String → String) (searchQuery : String) (movie : Movie) : Bool :=
  (movie.title.map (fun t => jsIncludes (toLowerCase t) (toLowerCase searchQuery))).getD false ||
  (movie.genre.map (fun gs =>
      gs.any (fun g => jsIncludes (toLowerCase g) (toLowerCase searchQuery)))).getD false ||
  (movie.director.map (fun d => jsIncludes (toLowerCase d) (toLowerCase searchQuery))).getD false ||
  (movie.cast.map (fun cs =>
      cs.any (fun c => jsIncludes (toLowerCase c) (toLowerCase searchQuery)))).getD false

/-- Handler of `GET /api/search`.  `q` and `type` are the query parameters,
`provider` is the outcome of `axios.get(process.env.MOVIE_API_URL)` reduced to
its movie list (`none` when the call or the reading of its data throws),
`findBlogs` is the `$regex` query on the blogs (`none` when it throws).  Each of
the two searches sits in its own `try` whose `catch` stores the empty list. -/
def getSearch (toLowerCase : String → String)
    (findBlogs : List Blog → String → Option (List Blog)) (provider : Option (List Movie))
    (s : Store) (q type : Option String) : Response :=
  if !truthyStr q || jsTrim (q.getD "") == "" then ⟨400, "Search query required", .none⟩
  else
    let searchQuery := jsTrim (q.getD "")
    let movies : Option (List Movie) :=
      if !truthyStr type || type == some "movies" then
        match provider with
        | some allMovies => some (allMovies.filter (movieMatches toLowerCase searchQuery))
        | none => some []
      else none
    let blogs : Option (List Blog) :=
      if !truthyStr type || type == some "blogs" then
        match findBlogs s.blogs searchQuery with
        | some found => some found
        | none => some []
      else none
    ⟨200, "", .search movies blogs⟩

/-- The query modifier `.sort({ createdAt: -1 })`: newest first. -/
def sortNewestFirst {α : Type} (createdAt : α → Nat) (docs : List α) : List α :=
  docs.insertionSort (fun a b => createdAt b ≤ createdAt a)

/-- Handler of `GET /api/users/profile/complete` (after `verifyToken`).
`provider` is as in `getSearch`; the provider is called only for a non-empty
watchlist, inside a `try` whose `catch` only logs, leaving `watchlistMovies`
empty. -/
def getUsersProfileComplete (provider : Option (List Movie)) (s : Store) (user : Claims) :
    Response :=
  match findById s.users user.userId with
  | none => ⟨404, "User not found", .none⟩
  | some doc =>
    let userBlogs := sortNewestFirst Blog.createdAt (s.blogs.filter (fun b => b.author == user.userId))
    let userReviews :=
      sortNewestFirst Review.createdAt (s.reviews.filter (fun r => r.user == user.userId))
    let watchlistMovies : List Movie :=
      if doc.watchlist.length > 0 then
        match provider with
        | some allMovies => allMovies.filter (fun movie => doc.watchlist.contains movie._id)
        | none => []
      else []
    ⟨200, "", .profile (selectNoPassword doc) userBlogs userReviews watchlistMovies⟩

/-! ### The like toggle as two store operations

Between `await Blog.findById(id)` and `await blog.save()` the handler holds the
document in memory and other requests may run.  Mongoose saves an array changed
by `push` as a `$push` of the new element and an array changed by `splice` as a
`$set` of the array held in memory.  Both raise the version key of the document.
A `$set` save is sent with the version the handler loaded and is refused
(VersionError, answered 500 by the `catch` block) when the stored version has
moved on; a `$push` save is sent without that condition and always goes
through. -/

/-- The change to `likes` that a toggle handler holds between load and save. -/
inductive ArrayChange (α : Type) where
  | pushed (x : α)
  | replaced (xs : List α)
  deriving DecidableEq, Repr

/-- The change the toggle block makes to the array it loaded. -/
def toggleChange {α : Type} [DecidableEq α] (loaded : List α) (x : α) : ArrayChange α :=
  let likeIndex := indexOf loaded x
  if likeIndex > -1 then .replaced (splice loaded likeIndex.toNat 1)
  else .pushed x

/-- The stored array after the change is saved. -/
def ArrayChange.applyTo {α : Type} : ArrayChange α → List α → List α
  | .pushed x, stored => stored ++ [x]
  | .replaced xs, _ => xs

/-- First store operation of `PUT /api/blogs/:id/like`: `Blog.findById(id)`. -/
def likeRead (s : Store) (id : ObjectId) : Option Blog :=
  findById s.blogs id

/-- Second store operation of `PUT /api/blogs/:id/like`: `blog.save()` by a
handler that had loaded `loaded`, the arrays of the stored blog not having been
saved by another request since the load. -/
def likeWrite (s : Store) (loaded : Blog) (userId : ObjectId) : Store :=
  { s with
    blogs :=
      (findByIdAndUpdate s.blogs loaded._id
        (fun b => { b with likes := (toggleChange loaded.likes userId).applyTo b.likes })).2 }

/-- The same `blog.save()` when another request has saved an array of the blog
since the load, so that the stored version is ahead of the loaded one: a pushed
element is still appended, a replaced array is refused and the store stays as it
is. -/
def likeWriteStale (s : Store) (loaded : Blog) (userId : ObjectId) : Store :=
  match toggleChange loaded.likes userId with
  | .pushed _ => likeWrite s loaded userId
  | .replaced _ => s

/-- Two like requests by the same user on the same blog, run one after the
other. -/
def likeTwiceInTurn (s : Store) (id userId : ObjectId) : Store :=
  match likeRead s id with
  | none => s
  | some first =>
    let s1 := likeWrite s first userId
    match likeRead s1 id with
    | none => s1
    | some second => likeWrite s1 second userId

/-- Two like requests by the same user on the same blog, interleaved: both load
the blog before either saves.  The first save changes `likes` and raises the
version, so the second save finds the stored version ahead of its own. -/
def likeTwiceInterleaved (s : Store) (id userId : ObjectId) : Store :=
  match likeRead s id, likeRead s id with
  | some first, some second => likeWriteStale (likeWrite s first userId) second userId
  | _, _ => s

/-! ### Comment handlers -/

/-- Handler of `POST /api/blogs/:id/comments` (after `verifyToken`) for a path id
that `findById` casts to the ObjectId `id`: `text` is `req.body.text` (a string
or missing), `newId` the `_id` Mongoose gives the new subdocument, `now` the
value of `Date.now` for its `createdAt`. -/
def postBlogComments (s : Store) (user : Claims) (id : ObjectId) (text : Option String)
    (newId : ObjectId) (now : Nat) : Response × Store :=
  if !truthyStr text then (⟨400, "Comment text is required", .none⟩, s)
  else
    match findById s.blogs id with
    | none => (⟨404, "Blog not found", .none⟩, s)
    | some blog =>
      let blog : Blog :=
        { blog with
          comments := push blog.comments ⟨newId, user.userId, text.getD "", now⟩ }
      (⟨201, "Comment added successfully", .comment blog.comments.getLast?⟩,
        { s with blogs := save s.blogs blog })

/-- Handler of `POST /api/blogs/:id/comments` on the text of `req.params.id`: the
text check comes first; then `castObjectId` is the cast `Blog.findById` applies
to the id, `none` when it raises CastError, which the `catch` block answers with
500. -/
def postBlogCommentsRequest (castObjectId : String → Option ObjectId) (s : Store) (user : Claims)
    (id : String) (text : Option String) (newId : ObjectId) (now : Nat) : Response × Store :=
  if !truthyStr text then (⟨400, "Comment text is required", .none⟩, s)
  else
    match castObjectId id with
    | none => (⟨500, "Server error", .none⟩, s)
    | some oid => postBlogComments s user oid text newId now

/-- Handler of `DELETE /api/admin/comments/:commentId` (after `verifyToken`,
`verifyAdmin`) for ids that Mongoose casts to the ObjectIds `commentId` and
`parentId`: `type` and `parentId` come from `req.body`.  The update
`$pull: { comments: { _id: commentId } }` removes the comments with that `_id`
from the parent found by `parentId`; `reviewSchema` has no `comments` path, so
on a review nothing is pulled.  The result of the update is not looked at. -/
def deleteAdminComments (s : Store) (commentId : ObjectId) (type : Option String)
    (parentId : ObjectId) : Response × Store :=
  if type = some "blog" then
    (⟨200, "Comment deleted successfully", .none⟩,
      { s with
        blogs :=
          (findByIdAndUpdate s.blogs parentId
            (fun b => { b with comments := b.comments.filter (fun c => c._id != commentId) })).2 })
  else if type = some "review" then
    (⟨200, "Comment deleted successfully", .none⟩,
      { s with reviews := (findByIdAndUpdate s.reviews parentId (fun r => r)).2 })
  else (⟨400, "Invalid comment type", .none⟩, s)

/-- Handler of `DELETE /api/admin/comments/:commentId` on the text of its ids
(`parentId` a string of the body): `castObjectId` is the cast Mongoose applies,
`none` when it raises CastError, which the `catch` block answers with 500.  For
a blog, `parentId` is cast for the query and `commentId` for the `$pull`
condition on `comments._id`; for a review only `parentId` is cast, the update
having no path of `reviewSchema`. -/
def deleteAdminCommentsRequest (castObjectId : String → Option ObjectId) (s : Store)
    (commentId : String) (type : Option String) (parentId : String) : Response × Store :=
  if type = some "blog" then
    match castObjectId parentId, castObjectId commentId with
    | some pid, some cid => deleteAdminComments s cid type pid
    | _, _ => (⟨500, "Server error", .none⟩, s)
  else if type = some "review" then
    match castObjectId parentId with
    | some pid =>
      (⟨200, "Comment deleted successfully", .none⟩,
        { s with reviews := (findByIdAndUpdate s.reviews pid (fun r => r)).2 })
    | none => (⟨500, "Server error", .none⟩, s)
  else (⟨400, "Invalid comment type", .none⟩, s)

/-! ### Blog listing and routing -/

/-- Handler of `GET /api/blogs`: `approved` is `req.query.approved`. -/
def getBlogs (s : Store) (approved : Option String) : Response :=
  let filter : Blog → Bool :=
    if approved = some "false" then fun b => b.isApproved == false
    else fun b => b.isApproved == true
  ⟨200, "", .blogs (sortNewestFirst Blog.createdAt (s.blogs.filter filter))⟩

/-- Handler of `GET /api/blogs/:id`: `id` is the text of `req.params.id` and
`castObjectId` the cast Mongoose applies to it in `findById`, `none` when it
raises CastError, which the `catch` block answers with 400. -/
def getBlogsById (castObjectId : String → Option ObjectId) (s : Store) (id : String) : Response :=
  match castObjectId id with
  | none => ⟨400, "Invalid blog ID", .none⟩
  | some oid =>
    match findById s.blogs oid with
    | none => ⟨404, "Blog not found", .none⟩
    | some blog =>
      if !blog.isApproved then ⟨404, "Blog not found", .none⟩
      else ⟨200, "", .blog blog⟩

/-- Handler of `GET /api/blogs/user` (after `verifyToken`). -/
def getBlogsUser (s : Store) (user : Claims) : Response :=
  ⟨200, "", .blogs (sortNewestFirst Blog.createdAt (s.blogs.filter (fun b => b.author == user.userId)))⟩

/-- The routes of `backend/server.js`, method and path, in the order of their
`app.METHOD(...)` calls. -/
def routeTable : List (String × String) :=
  [("POST", "/api/auth/register"), ("POST", "/api/auth/login"), ("GET", "/api/movies"),
   ("GET", "/api/movies/:id"), ("GET", "/api/blogs"), ("GET", "/api/blogs/:id"),
   ("POST", "/api/blogs"), ("PUT", "/api/blogs/:id/like"), ("POST", "/api/blogs/:id/comments"),
   ("GET", "/api/blogs/user"), ("GET", "/api/reviews"), ("POST", "/api/reviews"),
   ("PUT", "/api/reviews/:id/like"), ("GET", "/api/reviews/user"), ("GET", "/api/users/profile"),
   ("GET", "/api/users/profile/complete"), ("PUT", "/api/users/profile"),
   ("PUT", "/api/users/watchlist/:movieId"), ("GET", "/api/admin/stats"),
   ("GET", "/api/admin/users"), ("PUT", "/api/admin/users/:id/admin"),
   ("PUT", "/api/admin/blogs/:id/approve"), ("PUT", "/api/admin/reviews/:id/approve"),
   ("GET", "/api/admin/analytics"), ("POST", "/api/admin/create-admin"),
   ("GET", "/api/admin/comments"), ("DELETE", "/api/admin/comments/:commentId"),
   ("GET", "/api/search"), ("GET", "/api/admin/blogs"), ("PUT", "/api/admin/blogs/:id/approve"),
   ("DELETE", "/api/admin/blogs/:id"), ("GET", "/api/admin/reviews"),
   ("DELETE", "/api/admin/reviews/:id"), ("POST", "/api/admin/create-admin"),
   ("GET", "/api/health"), ("GET", "/api/users/count")]

/-- The pieces of a path between its slashes, the empty ones included:
`/api/blogs` has the pieces "", "api", "blogs". -/
def pathSegments (path : String) : List String :=
  (splitChars '/' path.data).map String.mk

/-- The pieces of a request path as a route pattern is matched against them:
routing is not strict, so one slash at the end of the path is left out. -/
def requestSegments (path : String) : List String :=
  let segs := pathSegments path
  if segs.length > 1 ∧ segs.getLast? = some "" then segs.dropLast else segs

/-- The lower-case form of a string, letters A to Z only. -/
def asciiLower (v : String) : String :=
  String.mk (v.data.map Char.toLower)

/-- A pattern segment `:name` takes any request segment that is not empty;
another one takes itself, letter case set aside (routing is not case
sensitive). -/
def segmentMatches (pattern segment : String) : Bool :=
  if pattern.data.head? == some ':' then segment != ""
  else asciiLower pattern == asciiLower segment

/-- Express path matching for the patterns of `routeTable`, with the default
options of the router: literal segments and `:name` parameters, the whole path,
one optional slash at the end. -/
def pathMatches (pattern path : String) : Bool :=
  (pathSegments pattern).length == (requestSegments path).length &&
    (List.zipWith segmentMatches (pathSegments pattern) (requestSegments path)).all (fun b => b)

/-- Express routing: the first declared route whose method and path match. -/
def firstMatch (routes : List (String × String)) (method path : String) :
    Option (String × String) :=
  routes.find? (fun r => r.1 == method && pathMatches r.2 path)

/-- The value Express puts in `req.params[name]` for a matching pattern (for a
segment without percent escapes, which Express would decode). -/
def routeParam (pattern path name : String) : Option String :=
  ((pathSegments pattern).zip (requestSegments path)).lookup (":" ++ name)

/-- A `GET` request as the router serves it through the three blog routes;
`none` for a path that goes to another route or to none. -/
def serveBlogsGet (castObjectId : String → Option ObjectId) (jwtVerify : String → Option Claims)
    (s : Store) (authorization approved : Option String) (path : String) : Option Response :=
  match firstMatch routeTable "GET" path with
  | none => none
  | some route =>
    if route.2 = "/api/blogs" then some (getBlogs s approved)
    else if route.2 = "/api/blogs/:id" then
      some (getBlogsById castObjectId s ((routeParam route.2 path "id").getD ""))
    else if route.2 = "/api/blogs/user" then
      match verifyToken jwtVerify authorization with
      | .respond status message => some ⟨status, message, .none⟩
      | .next user => some (getBlogsUser s user)
    else none

/-- The value of a hexadecimal digit. -/
def hexDigit (c : Char) : Option Nat :=
  if '0' ≤ c ∧ c ≤ '9' then some (c.toNat - '0'.toNat)
  else if 'a' ≤ c ∧ c ≤ 'f' then some (c.toNat - 'a'.toNat + 10)
  else if 'A' ≤ c ∧ c ≤ 'F' then some (c.toNat - 'A'.toNat + 10)
  else none

/-- A cast of a string to an ObjectId as `findById` applies it: 24 hexadecimal
digits are read as a number, any other string raises CastError (`none`).  (Older
drivers also take strings of exactly 12 characters; they are refused here.) -/
def hexObjectId (id : String) : Option ObjectId :=
  if id.data.length = 24 then
    id.data.foldl (fun acc c => acc.bind (fun n => (hexDigit c).map (fun d => 16 * n + d)))
      (some 0)
  else none

/-! ### Sequences of requests -/

/-- A request to one of the three toggle handlers. -/
inductive ToggleRequest where
  | blogLike (id userId : ObjectId)
  | reviewLike (id userId : ObjectId)
  | watchlist (movieId : String) (userId : ObjectId)
  deriving DecidableEq, Repr

/-- The store after a toggle request. -/
def applyToggle (s : Store) : ToggleRequest → Store
  | .blogLike id userId => (putBlogLike s id userId).2
  | .reviewLike id userId => (putReviewLike s id userId).2
  | .watchlist movieId userId => (putWatchlist s movieId userId).2

/-- The store after a sequence of toggle requests, served in order. -/
def applyToggles (s : Store) (requests : List ToggleRequest) : Store :=
  requests.foldl applyToggle s

/-- A `POST /api/reviews` request: caller, body, and the `_id` and time drawn
for the new document. -/
structure ReviewRequest where
  user : Claims
  body : ReviewBody
  newId : ObjectId
  now : Nat

/-- The store after a sequence of `POST /api/reviews` requests, served in
order. -/
def postReviewsAll (s : Store) (requests : List ReviewRequest) : Store :=
  requests.foldl (fun t r => (postReviews t r.user r.body r.newId r.now).2) s

/-- Two `POST /api/reviews` requests, overlapped: both run their check on the
store as it is before either saves; then each one that passed its check saves,
the first before the second. -/
def postReviewsOverlapped (s : Store) (first second : ReviewRequest) : Store :=
  let afterFirst :=
    match reviewCheck s first.user first.body with
    | some _ => s
    | none => (reviewSave s first.user first.body first.newId first.now).2
  match reviewCheck s second.user second.body with
  | some _ => afterFirst
  | none => (reviewSave afterFirst second.user second.body second.newId second.now).2

/-- The pairs (movieId, user) of the stored reviews, one per review. -/
def reviewPairs (s : Store) : List (String × ObjectId) :=
  s.reviews.map (fun r => (r.movieId, r.user))

/-- No likes list and no watchlist of the store holds an entry twice. -/
def DuplicateFree (s : Store) : Prop :=
  (∀ b ∈ s.blogs, b.likes.Nodup) ∧ (∀ r ∈ s.reviews, r.likes.Nodup) ∧
    (∀ u ∈ s.users, u.watchlist.Nodup)

/-! ### Concrete documents for evaluating the handlers -/

/-- A blog with the given `_id` and `likes`. -/
def sampleBlog (id : ObjectId) (likes : List ObjectId) : Blog :=
  { _id := id, title := "t", content := "c", author := 1, image := "", tags := [],
    likes := likes, comments := [], isApproved := true, createdAt := 0 }

/-- A review with the given `_id` and `likes`. -/
def sampleReview (id : ObjectId) (likes : List ObjectId) : Review :=
  { _id := id, movieId := "m1", movieTitle := "M", user := 1, rating := 5, content := "c",
    likes := likes, isApproved := true, createdAt := 0 }

/-- A user with the given `_id` and `watchlist`. -/
def sampleUser (id : ObjectId) (watchlist : List String) : User :=
  { _id := id, username := "u", email := "u@x.com", password := "h", avatar := "", bio := "",
    watchlist := watchlist, isAdmin := some false, createdAt := 0 }

/-- A store with one user, one blog and one review. -/
def sampleStore (watchlist : List String) (blogLikes reviewLikes : List ObjectId) : Store :=
  { users := [sampleUser 7 watchlist], blogs := [sampleBlog 1 blogLikes],
    reviews := [sampleReview 2 reviewLikes] }

/-- Claims of an admin caller and of a regular caller. -/
def adminClaims : Claims := ⟨1, "root", "root@x.com", true⟩

/-- Claims of the regular user 7. -/
def userClaims : Claims := ⟨7, "u", "u@x.com", false⟩

/-- A toy `jwt.verify` for concrete runs: two tokens verify, nothing else does. -/
def toyVerify (token : String) : Option Claims :=
  if token = "admin-token" then some adminClaims
  else if token = "user-token" then some userClaims
  else none

/-- The protected admin account, with id 9 and the admin flag set. -/
def protectedAdmin : User :=
  { _id := 9, username := "ayush", email := "ayush.bhrg@gmail.com", password := "h", avatar := "",
    bio := "", watchlist := [], isAdmin := some true, createdAt := 0 }

/-- A store holding the protected admin and the regular user 7. -/
def adminStore : Store :=
  { users := [protectedAdmin, sampleUser 7 ["m1"]], blogs := [], reviews := [] }

/-- A store whose blog 1 carries the comment 11 by user 7. -/
def commentedStore : Store :=
  { users := [sampleUser 7 []],
    blogs := [{ sampleBlog 1 [] with comments := [⟨11, 7, "first", 0⟩] }],
    reviews := [sampleReview 2 []] }

/-- A store with the approved blog 1 by user 1 and two blogs by user 7: blog 2,
approved, and blog 3, not approved. -/
def authoredStore : Store :=
  { users := [sampleUser 7 []],
    blogs := [sampleBlog 1 [], { sampleBlog 2 [] with author := 7 },
      { sampleBlog 3 [] with author := 7, isApproved := false }],
    reviews := [] }

/-- Two movies of the provider. -/
def sampleMovies : List Movie :=
  [⟨"m1", some "Heat", some ["Crime"], some "Mann", some ["Pacino"]⟩,
   ⟨"m2", some "Alien", some ["Horror"], some "Scott", some ["Weaver"]⟩]

end Backend

/-! ## Approval backend (`backend-2/server.js`) -/

namespace Backend2

/-- The fields of `userSchema`. -/
structure User where
  _id : ObjectId
  email : String
  password : String
  isAdmin : Bool
  isApproved : Bool
  requestDate : Nat
  deriving DecidableEq, Repr

instance : Doc User := ⟨User._id⟩

/-- The `User` collection. -/
structure Store where
  users : List User
  deriving DecidableEq, Repr

/-- The `bcryptjs` collaborator: `hash(password, rounds)` and
`compare(password, hash)`. -/
structure Hasher where
  hash : String → Nat → String
  compare : String → String → Bool

/-- The payload handed to `jwt.sign`; it stands for the signed token. -/
structure Claims where
  userId : ObjectId
  email : String
  isAdmin : Bool
  deriving DecidableEq, Repr

/-- The `user` object of a response body. -/
inductive UserView where
  /-- The object `{ email, isApproved }` of `POST /api/auth/request`. -/
  | requested (email : String) (isApproved : Bool)
  /-- The object `{ id, email, isAdmin }` of `POST /api/auth/login`. -/
  | loggedIn (id : ObjectId) (email : String) (isAdmin : Bool)
  /-- A stored document after `.select("-password")`. -/
  | record (_id : ObjectId) (email : String) (isAdmin isApproved : Bool) (requestDate : Nat)
  deriving DecidableEq, Repr

/-- An HTTP response: `res.status(status).json({ message, token, user })`; a key
the handler does not send is `none`. -/
structure Response where
  status : Nat
  message : String
  token : Option Claims
  user : Option UserView
  deriving DecidableEq, Repr

/-- The JSON body of the two auth requests; a missing key is `none`. -/
structure Body where
  email : Option String
  password : Option String
  deriving DecidableEq, Repr

/-- JavaScript `!v` for a body field that is a string or missing. -/
def falsy : Option String → Bool
  | none => true
  | some v => v == ""

/-- Mongoose `User.findOne({ email })`: the first document with this email, or `null`. -/
def findOne (users : List User) (email : String) : Option User :=
  users.find? (fun u => u.email == email)

/-- The query projection `.select("-password")`. -/
def selectNoPassword (u : User) : UserView :=
  .record u._id u.email u.isAdmin u.isApproved u.requestDate

/-- Handler of `POST /api/auth/request`.  `newId` is the `_id` that `new User` draws and
`now` the value of `Date.now` for `requestDate`. -/
def postAuthRequest (H : Hasher) (s : Store) (body : Body) (newId : ObjectId) (now : Nat) :
    Response × Store :=
  if falsy body.email || falsy body.password then
    (⟨400, "Email and password are required", none, none⟩, s)
  else
    let email := body.email.getD ""
    let password := body.password.getD ""
    match findOne s.users email with
    | some _ => (⟨400, "User already exists", none, none⟩, s)
    | none =>
      let hashedPassword := H.hash password 12
      let user : User :=
        { _id := newId, email := email, password := hashedPassword, isAdmin := false,
          isApproved := false, requestDate := now }
      (⟨201, "Request submitted successfully. Wait for admin approval.", none,
          some (.requested user.email user.isApproved)⟩,
        { s with users := saveNew s.users user })

/-- Handler of `POST /api/auth/login`; the store is only read. -/
def postAuthLogin (H : Hasher) (s : Store) (body : Body) : Response :=
  if falsy body.email || falsy body.password then
    ⟨400, "Email and password are required", none, none⟩
  else
    let email := body.email.getD ""
    let password := body.password.getD ""
    match findOne s.users email with
    | none => ⟨400, "Invalid credentials", none, none⟩
    | some user =>
      let isMatch := H.compare password user.password
      if !isMatch then ⟨400, "Invalid credentials", none, none⟩
      else if !user.isApproved && !user.isAdmin then
        ⟨403, "Account not approved yet. Please wait for admin approval.", none, none⟩
      else
        ⟨200, "Login successful", some ⟨user._id, user.email, user.isAdmin⟩,
          some (.loggedIn user._id user.email user.isAdmin)⟩

/-- Handler of `PATCH /api/admin/approve/:userId` (after `verifyToken`, `verifyAdmin`). -/
def patchAdminApprove (s : Store) (userId : ObjectId) : Response × Store :=
  let r := findByIdAndUpdate s.users userId (fun u => { u with isApproved := true })
  match r.1 with
  | none => (⟨404, "User not found", none, none⟩, { s with users := r.2 })
  | some user =>
    (⟨200, "User approved successfully", none, some (selectNoPassword user)⟩,
      { s with users := r.2 })

/-- Handler of `DELETE /api/admin/reject/:userId` (after `verifyToken`, `verifyAdmin`). -/
def deleteAdminReject (s : Store) (userId : ObjectId) : Response × Store :=
  let r := findByIdAndDelete s.users userId
  match r.1 with
  | none => (⟨404, "User not found", none, none⟩, { s with users := r.2 })
  | some _ => (⟨200, "User request rejected and removed", none, none⟩, { s with users := r.2 })

/-- The `unique: true` index on `email`: no two accounts share an email. -/
def UniqueEmails (users : List User) : Prop :=
  (users.map User.email).Nodup

instance (users : List User) : Decidable (UniqueEmails users) := by
  unfold UniqueEmails
  exact inferInstance

/-- The middleware `verifyAdmin`: `req.user` is the payload `verifyToken`
decoded. -/
def verifyAdmin (user : Claims) : Gate Claims :=
  if !user.isAdmin then .respond 403 "Access denied. Admin required."
  else .next user

/-- An admin-only route `app.METHOD(path, verifyToken, verifyAdmin, handler)`:
Express runs the three in order and the first response sent ends the request. -/
def adminRoute (jwtVerify : String → Option Claims) (handler : Store → Response × Store)
    (authorization : Option String) (s : Store) : Response × Store :=
  match verifyToken jwtVerify authorization with
  | .respond status message => (⟨status, message, none, none⟩, s)
  | .next user =>
    match verifyAdmin user with
    | .respond status message => (⟨status, message, none, none⟩, s)
    | .next _ => handler s

/-- A toy `jwt.verify` for concrete runs: two tokens verify, nothing else does. -/
def toyVerify (token : String) : Option Claims :=
  if token = "admin-token" then some ⟨1, "root@x.com", true⟩
  else if token = "user-token" then some ⟨2, "a@x.com", false⟩
  else none

/-- The protected admin email of the repository (`backend/server.js`). -/
def protectedEmail : String := "ayush.bhrg@gmail.com"

/-- A toy `bcryptjs` for concrete runs: the hash is the password behind a tag. -/
def tagHasher : Hasher where
  hash := fun p _ => "$2a$" ++ p
  compare := fun p h => h == "$2a$" ++ p

/-- An account with the given `_id`, email and flags whose stored hash is
the `tagHasher` hash of `password`. -/
def sampleAccount (id : ObjectId) (email password : String) (isAdmin isApproved : Bool) :
    User :=
  { _id := id, email := email, password := tagHasher.hash password 12, isAdmin := isAdmin,
    isApproved := isApproved, requestDate := 0 }

/-- Two pending accounts, a@x.com with id 1 and b@x.com with id 2. -/
def pendingStore : Store :=
  ⟨[sampleAccount 1 "a@x.com" "pw123456" false false, sampleAccount 2 "b@x.com" "pw" false false]⟩

/-- The protected admin account with id 9 next to a pending account. -/
def protectedStore : Store :=
  ⟨[sampleAccount 9 protectedEmail "ayushtri" true true,
    sampleAccount 2 "b@x.com" "pw" false false]⟩

end Backend2

/-! ## Web client (`frontend/src/pages/Home.jsx`) -/

namespace Frontend

/-- A movie object of the movie list, as far as `getRecommendedMovies` reads it;
`genre` is `none` when the object has no such key. -/
structure Movie where
  _id : String
  title : String
  genre : Option (List String)
  deriving DecidableEq, Repr

/-- The `user` of the auth context, as far as `getRecommendedMovies` reads it;
`watchlist` is `none` when the object has no such key. -/
structure User where
  watchlist : Option (List String)
  deriving DecidableEq, Repr

/-- The callback of the second filter of `getRecommendedMovies`:
`!user.watchlist.includes(movie._id) && movie.genre?.some((g) =>
watchlistGenres.has(g))`. -/
def recommendable (watchlist watchlistGenres : List String) (movie : Movie) : Bool :=
  !watchlist.contains movie._id &&
    (movie.genre.map (fun gs => gs.any (fun g => watchlistGenres.contains g))).getD false

/-- The function `getRecommendedMovies` of the home page, with the values it
closes over as arguments: `isAuthenticated` and `user` of the auth context
(`user` is `none` for `null`) and the movie list. -/
def getRecommendedMovies (isAuthenticated : Bool) (user : Option User) (movies : List Movie) :
    List Movie :=
  let watchlist := (user.bind (fun u => u.watchlist)).getD []
  if !isAuthenticated || watchlist.length == 0 then movies.take 8
  else
    let watchlistMovies := movies.filter (fun movie => watchlist.contains movie._id)
    if watchlistMovies.length == 0 then movies.take 8
    else
      let watchlistGenres := watchlistMovies.foldl (fun acc movie => acc ++ movie.genre.getD []) []
      let recommended := (movies.filter (recommendable watchlist watchlistGenres)).take 8
      if recommended.length > 0 then recommended else movies.take 8

/-- The watchlist `getRecommendedMovies` reads: `user?.watchlist`, empty when
the user or the key is missing. -/
def watchlistOf (user : Option User) : List String :=
  (user.bind (fun u => u.watchlist)).getD []

/-- The movie is not on the watchlist and shares a genre with a movie of the
list that is on the watchlist. -/
def SharesWatchlistGenre (watchlist : List String) (movies : List Movie) (m : Movie) : Prop :=
  m._id ∉ watchlist ∧
    ∃ g ∈ m.genre.getD [], ∃ w ∈ movies, w._id ∈ watchlist ∧ g ∈ w.genre.getD []

/-- Four movies for concrete runs. -/
def sampleMovies : List Movie :=
  [⟨"m1", "Heat", some ["Crime", "Drama"]⟩, ⟨"m2", "Alien", some ["Horror"]⟩,
   ⟨"m3", "Ronin", some ["Crime"]⟩, ⟨"m4", "Untitled", none⟩]

end Frontend

/-! ## Admin panel (`Admin/src/components/Login.jsx`) -/

namespace AdminPanel

/-- The state `formData` of the login form. -/
structure FormData where
  email : String
  password : String
  deriving DecidableEq, Repr

/-- The user object handed to `onLogin`: the literal `adminUser` or the `user`
of the backend reply (its `username` under `name`). -/
structure SessionUser where
  id : String
  email : String
  name : String
  isAdmin : Bool
  deriving DecidableEq, Repr

/-- The outcome of `adminAuthAPI.login(formData)`: a reply with `data.token` and
`data.user` (`none` when the reply has no `user`), or a rejected promise with
the message of the error response, if there is one. -/
inductive BackendReply where
  | ok (token : String) (user : Option SessionUser)
  | failed (message : Option String)
  deriving DecidableEq, Repr

/-- What one run of `handleSubmit` did: whether the backend was called, the
arguments of the `onLogin` call if it was made, the items written to
`localStorage`, and the toast shown (success or error, with its text). -/
structure Outcome where
  backendCalled : Bool
  onLogin : Option (String × SessionUser)
  stored : Option (String × SessionUser)
  toastSuccess : Bool
  toast : String
  deriving DecidableEq, Repr

/-- The handler `handleSubmit` of the login form; `login` stands for
`adminAuthAPI.login`. -/
def handleSubmit (login : FormData → BackendReply) (formData : FormData) : Outcome :=
  if formData.email = "ayush.bhrg@gmail.com" ∧ formData.password = "ayushtri" then
    let adminUser : SessionUser :=
      { id := "admin-protected", email := "ayush.bhrg@gmail.com", name := "Admin", isAdmin := true }
    { backendCalled := false, onLogin := some ("protected-admin-token", adminUser),
      stored := some ("protected-admin-token", adminUser), toastSuccess := true,
      toast := "Login successful!" }
  else
    match login formData with
    | .ok token (some user) =>
      if user.isAdmin then
        { backendCalled := true, onLogin := some (token, user), stored := none,
          toastSuccess := true, toast := "Login successful!" }
      else
        { backendCalled := true, onLogin := none, stored := none, toastSuccess := false,
          toast := "Access denied. Admin privileges required." }
    | .ok _ none =>
      { backendCalled := true, onLogin := none, stored := none, toastSuccess := false,
        toast := "Network error. Please try again." }
    | .failed message =>
      { backendCalled := true, onLogin := none, stored := none, toastSuccess := false,
        toast := if truthyStr message then message.getD "" else "Network error. Please try again." }

/-- A toy backend for concrete runs: one admin, one regular user, nobody
else. -/
def toyLogin (formData : FormData) : BackendReply :=
  if formData.email = "root@x.com" ∧ formData.password = "rootpw" then
    .ok "t-root" (some ⟨"1", "root@x.com", "root", true⟩)
  else if formData.email = "u@x.com" ∧ formData.password = "userpw" then
    .ok "t-user" (some ⟨"7", "u@x.com", "u", false⟩)
  else .failed (some "Invalid credentials")

end AdminPanel

/-! ## Array lemmas -/

section JsArrayLemmas

variable {α : Type} [DecidableEq α]

theorem indexOf_neg_of_not_mem (xs : List α) (x : α) (h : x ∉ xs) : indexOf xs x = -1 := by
  induction xs with
  | nil => rfl
  | cons y ys ih =>
    have hy : ¬ y = x := fun e => h (by simp [e])
    have hx : x ∉ ys := fun m => h (List.mem_cons_of_mem _ m)
    simp [indexOf, hy, ih hx]

theorem indexOf_nonneg_of_mem (xs : List α) (x : α) (h : x ∈ xs) : 0 ≤ indexOf xs x := by
  induction xs with
  | nil => simp at h
  | cons y ys ih =>
    by_cases hy : y = x
    · simp [indexOf, hy]
    · have hx : x ∈ ys := by
        rcases List.mem_cons.1 h with e | m
        · exact absurd e.symm hy
        · exact m
      have := ih hx
      have h1 : indexOf ys x > -1 := by omega
      simp only [indexOf, hy, if_false, h1, if_true]
      omega

theorem indexOf_gt_iff_mem (xs : List α) (x : α) : indexOf xs x > -1 ↔ x ∈ xs := by
  constructor
  · intro h
    by_contra hx
    rw [indexOf_neg_of_not_mem xs x hx] at h
    omega
  · intro h
    have := indexOf_nonneg_of_mem xs x h
    omega

theorem splice_indexOf_eq_erase (xs : List α) (x : α) (h : x ∈ xs) :
    splice xs (indexOf xs x).toNat 1 = xs.erase x := by
  induction xs with
  | nil => simp at h
  | cons y ys ih =>
    by_cases hy : y = x
    · subst hy
      simp [indexOf, splice]
    · have hx : x ∈ ys := by
        rcases List.mem_cons.1 h with e | m
        · exact absurd e.symm hy
        · exact m
      have h0 := indexOf_nonneg_of_mem ys x hx
      have h1 : indexOf ys x > -1 := by omega
      have h2 : (indexOf ys x + 1).toNat = (indexOf ys x).toNat + 1 := by omega
      have ih2 := ih hx
      simp only [splice] at ih2
      simp only [indexOf, hy, if_false, h1, if_true, splice, h2, List.take_succ_cons,
        List.cons_append]
      rw [List.erase_cons_tail (by simpa using hy)]
      congr 1

end JsArrayLemmas

/-- The block shared by the three toggle handlers, as one function of the list:
remove the first occurrence when `indexOf` finds one, else append. -/
theorem toggle_block_eq {α : Type} [DecidableEq α] (xs : List α) (x : α) :
    (if indexOf xs x > -1 then splice xs (indexOf xs x).toNat 1 else push xs x)
      = if x ∈ xs then xs.erase x else xs ++ [x] := by
  by_cases h : x ∈ xs
  · rw [if_pos ((indexOf_gt_iff_mem xs x).2 h), if_pos h, splice_indexOf_eq_erase xs x h]
  · rw [if_neg (fun c => h ((indexOf_gt_iff_mem xs x).1 c)), if_neg h]
    rfl

/-! ## Collection lemmas -/

section CollectionLemmas

variable {α : Type} [Doc α]

theorem findById_id {docs : List α} {id : ObjectId} {d : α} (h : findById docs id = some d) :
    Doc._id d = id := by
  have := List.find?_some h
  simpa using this

theorem findById_none_iff (docs : List α) (id : ObjectId) :
    findById docs id = none ↔ ∀ d ∈ docs, Doc._id d ≠ id := by
  simp [findById, List.find?_eq_none]

theorem findById_save {docs : List α} {id : ObjectId} {d doc : α}
    (h : findById docs id = some d) (hid : Doc._id doc = id) :
    findById (save docs doc) id = some doc := by
  induction docs with
  | nil => simp [findById] at h
  | cons e es ih =>
    by_cases he : Doc._id e = id
    · simp [save, he, hid, findById]
    · have h2 : findById es id = some d := by
        simpa [findById, List.find?_cons, he] using h
      have he2 : ¬ Doc._id e = Doc._id doc := by rw [hid]; exact he
      simp only [save, he2, if_false]
      have := ih h2
      simpa [findById, List.find?_cons, he] using this

theorem save_same {docs : List α} {id : ObjectId} {d : α}
    (h : findById docs id = some d) : save docs d = docs := by
  induction docs with
  | nil => rfl
  | cons e es ih =>
    by_cases he : Doc._id e = id
    · have hd : e = d := by
        simpa [findById, List.find?_cons, he] using h
      subst hd
      simp [save]
    · have h2 : findById es id = some d := by
        simpa [findById, List.find?_cons, he] using h
      have he2 : ¬ Doc._id e = Doc._id d := by rw [findById_id h2]; exact he
      simp [save, he2, ih h2]

theorem save_save {docs : List α} (d1 d2 : α) (hid : Doc._id d1 = Doc._id d2) :
    save (save docs d1) d2 = save docs d2 := by
  induction docs with
  | nil => rfl
  | cons e es ih =>
    by_cases he : Doc._id e = Doc._id d1
    · simp [save, he, hid]
    · have he2 : ¬ Doc._id e = Doc._id d2 := by rw [← hid]; exact he
      simp [save, he, he2, ih]

theorem findById_save_ne (docs : List α) (doc : α) (id : ObjectId) (hne : id ≠ Doc._id doc) :
    findById (save docs doc) id = findById docs id := by
  induction docs with
  | nil => rfl
  | cons e es ih =>
    by_cases he : Doc._id e = Doc._id doc
    · have he2 : ¬ Doc._id e = id := fun c => hne (c.symm.trans he)
      have hd2 : ¬ Doc._id doc = id := fun c => hne c.symm
      simp [save, he, findById, List.find?_cons, he2, hd2]
    · simp only [save, he, if_false]
      by_cases he3 : Doc._id e = id
      · simp [findById, List.find?_cons, he3]
      · have := ih
        simpa [findById, List.find?_cons, he3] using this

end CollectionLemmas

/-! ## Toggle lemmas -/

section ToggleLemmas

variable {α : Type} [DecidableEq α]

theorem toggled_eq_block (xs : List α) (x : α) :
    (if indexOf xs x > -1 then splice xs (indexOf xs x).toNat 1 else push xs x)
      = toggled xs x :=
  toggle_block_eq xs x

theorem mem_toggled_self (xs : List α) (x : α) (h : xs.count x ≤ 1) :
    x ∈ toggled xs x ↔ x ∉ xs := by
  unfold toggled
  by_cases hm : x ∈ xs
  · have hc : (xs.erase x).count x = 0 := by
      rw [List.count_erase_self]; omega
    have : x ∉ xs.erase x := List.count_eq_zero.1 hc
    simp [hm, this]
  · simp [hm]

theorem count_toggled_self (xs : List α) (x : α) (h : xs.count x ≤ 1) :
    (toggled xs x).count x ≤ 1 := by
  unfold toggled
  by_cases hm : x ∈ xs
  · rw [if_pos hm, List.count_erase_self]; omega
  · rw [if_neg hm, List.count_append, List.count_eq_zero.2 hm]
    simp

theorem length_toggled_of_not_mem (xs : List α) (x : α) (h : x ∉ xs) :
    (toggled xs x).length = xs.length + 1 := by
  simp [toggled, h]

theorem length_toggled_of_mem (xs : List α) (x : α) (h : x ∈ xs) :
    (toggled xs x).length = xs.length - 1 := by
  simp [toggled, h, List.length_erase_of_mem]

theorem toggled_toggled_of_not_mem (xs : List α) (x : α) (h : x ∉ xs) :
    toggled (toggled xs x) x = xs := by
  have h1 : toggled xs x = xs ++ [x] := by simp [toggled, h]
  rw [h1]
  have h2 : x ∈ xs ++ [x] := by simp
  unfold toggled
  rw [if_pos h2, List.erase_append_right _ h]
  simp

theorem toggled_toggled_of_mem (xs : List α) (x : α) (h : x ∈ xs) (hc : xs.count x ≤ 1) :
    toggled (toggled xs x) x = xs.erase x ++ [x] := by
  have h1 : toggled xs x = xs.erase x := by simp [toggled, h]
  have h2 : x ∉ xs.erase x := by
    apply List.count_eq_zero.1
    rw [List.count_erase_self]; omega
  rw [h1]
  simp [toggled, h2]

theorem length_toggled_toggled (xs : List α) (x : α) (hc : xs.count x ≤ 1) :
    (toggled (toggled xs x) x).length = xs.length := by
  by_cases h : x ∈ xs
  · rw [toggled_toggled_of_mem xs x h hc, List.length_append, List.length_erase_of_mem h]
    have : 0 < xs.length := List.length_pos_of_mem h
    simp
    omega
  · rw [toggled_toggled_of_not_mem xs x h]

end ToggleLemmas

namespace Backend

theorem putBlogLike_eq {s : Store} {id : ObjectId} {blog : Blog} (u : ObjectId)
    (h : findById s.blogs id = some blog) :
    putBlogLike s id u =
      (⟨200, "Blog like updated", .likes (toggled blog.likes u).length⟩,
        { s with blogs := save s.blogs { blog with likes := toggled blog.likes u } }) := by
  unfold putBlogLike
  rw [h]
  by_cases hm : u ∈ blog.likes
  · have hi := (indexOf_gt_iff_mem blog.likes u).2 hm
    simp [hi, hm, splice_indexOf_eq_erase _ _ hm, toggled]
  · have hi : ¬ indexOf blog.likes u > -1 := fun c => hm ((indexOf_gt_iff_mem _ _).1 c)
    simp [hi, hm, push, toggled]

theorem putReviewLike_eq {s : Store} {id : ObjectId} {review : Review} (u : ObjectId)
    (h : findById s.reviews id = some review) :
    putReviewLike s id u =
      (⟨200, "Review like updated", .likes (toggled review.likes u).length⟩,
        { s with reviews := save s.reviews { review with likes := toggled review.likes u } }) := by
  unfold putReviewLike
  rw [h]
  by_cases hm : u ∈ review.likes
  · have hi := (indexOf_gt_iff_mem review.likes u).2 hm
    simp [hi, hm, splice_indexOf_eq_erase _ _ hm, toggled]
  · have hi : ¬ indexOf review.likes u > -1 := fun c => hm ((indexOf_gt_iff_mem _ _).1 c)
    simp [hi, hm, push, toggled]

theorem putWatchlist_eq {s : Store} {userId : ObjectId} {user : User} (m : String)
    (h : findById s.users userId = some user) :
    putWatchlist s m userId =
      (⟨200, "Watchlist updated", .watchlist (toggled user.watchlist m)⟩,
        { s with users := save s.users { user with watchlist := toggled user.watchlist m } }) := by
  unfold putWatchlist
  rw [h]
  by_cases hm : m ∈ user.watchlist
  · have hi := (indexOf_gt_iff_mem user.watchlist m).2 hm
    simp [hi, hm, splice_indexOf_eq_erase _ _ hm, toggled]
  · have hi : ¬ indexOf user.watchlist m > -1 := fun c => hm ((indexOf_gt_iff_mem _ _).1 c)
    simp [hi, hm, push, toggled]

theorem putBlogLike_find {s : Store} {id : ObjectId} {blog : Blog} (u : ObjectId)
    (h : findById s.blogs id = some blog) :
    findById (putBlogLike s id u).2.blogs id
      = some { blog with likes := toggled blog.likes u } := by
  rw [putBlogLike_eq u h]
  have hid := findById_id h
  exact findById_save h hid

theorem putReviewLike_find {s : Store} {id : ObjectId} {review : Review} (u : ObjectId)
    (h : findById s.reviews id = some review) :
    findById (putReviewLike s id u).2.reviews id
      = some { review with likes := toggled review.likes u } := by
  rw [putReviewLike_eq u h]
  have hid := findById_id h
  exact findById_save h hid

theorem putWatchlist_find {s : Store} {userId : ObjectId} {user : User} (m : String)
    (h : findById s.users userId = some user) :
    findById (putWatchlist s m userId).2.users userId
      = some { user with watchlist := toggled user.watchlist m } := by
  rw [putWatchlist_eq m h]
  have hid := findById_id h
  exact findById_save h hid

end Backend

/-! ## Claims on the toggle handlers -/

namespace Backend

/-- C1 (amended): for an existing blog (resp. review, resp. user) whose likes
list (resp. watchlist) holds the toggling id at most once, one call of the toggle
handler flips membership: the id is in the saved list afterwards if and only if
it was not in the list before the call. -/
theorem toggle_flips_membership (s : Store) (u : ObjectId) :
    (∀ id blog, findById s.blogs id = some blog → blog.likes.count u ≤ 1 →
      ∃ blog', findById (putBlogLike s id u).2.blogs id = some blog' ∧
        (u ∈ blog'.likes ↔ u ∉ blog.likes)) ∧
    (∀ id review, findById s.reviews id = some review → review.likes.count u ≤ 1 →
      ∃ review', findById (putReviewLike s id u).2.reviews id = some review' ∧
        (u ∈ review'.likes ↔ u ∉ review.likes)) ∧
    (∀ m user, findById s.users u = some user → user.watchlist.count m ≤ 1 →
      ∃ user', findById (putWatchlist s m u).2.users u = some user' ∧
        (m ∈ user'.watchlist ↔ m ∉ user.watchlist)) := by
  refine ⟨?_, ?_, ?_⟩
  · intro id blog h hc
    exact ⟨_, putBlogLike_find u h, mem_toggled_self _ _ hc⟩
  · intro id review h hc
    exact ⟨_, putReviewLike_find u h, mem_toggled_self _ _ hc⟩
  · intro m user h hc
    exact ⟨_, putWatchlist_find m h, mem_toggled_self _ _ hc⟩

/-- Witness of `toggle_flips_membership`: user 7 likes blog 1, liked so far by 3
only. -/
theorem toggle_flips_membership_witness :
    ∃ blog', findById (putBlogLike (sampleStore [] [3] []) 1 7).2.blogs 1 = some blog' ∧
      (7 ∈ blog'.likes ↔ 7 ∉ (sampleBlog 1 [3]).likes) :=
  (toggle_flips_membership (sampleStore [] [3] []) 7).1 1 (sampleBlog 1 [3])
    (by decide) (by decide)

/-- C1 as stated fails: on the likes list `[7, 7]` one like by user 7 removes the
first entry only, so 7 was in the list before and is in the saved list after. -/
theorem toggle_keeps_duplicated_member :
    findById (sampleStore [] [7, 7] []).blogs 1 = some (sampleBlog 1 [7, 7]) ∧
    findById (putBlogLike (sampleStore [] [7, 7] []) 1 7).2.blogs 1 = some (sampleBlog 1 [7]) ∧
    ¬ (7 ∈ (sampleBlog 1 [7]).likes ↔ 7 ∉ (sampleBlog 1 [7, 7]).likes) := by
  decide

end Backend

namespace Backend

theorem putBlogLikeTimes_parity (u id : ObjectId) (n : Nat) :
    ∀ (s : Store) (blog : Blog), findById s.blogs id = some blog → blog.likes.count u ≤ 1 →
      ∃ blog', findById (putBlogLikeTimes s id u n).blogs id = some blog' ∧
        (u ∈ blog'.likes ↔ Xor' (u ∈ blog.likes) (n % 2 = 1)) := by
  induction n with
  | zero =>
    intro s blog h _
    exact ⟨blog, h, by simp [Xor']⟩
  | succ n ih =>
    intro s blog h hc
    obtain ⟨blog', hf, hm⟩ :=
      ih (putBlogLike s id u).2 { blog with likes := toggled blog.likes u }
        (putBlogLike_find u h) (count_toggled_self _ _ hc)
    refine ⟨blog', hf, ?_⟩
    rw [hm]
    have hflip := mem_toggled_self blog.likes u hc
    simp only [hflip, Xor']
    by_cases hu : u ∈ blog.likes <;> by_cases hn : n % 2 = 1 <;>
      simp [hu, hn] <;> omega

/-- C2 (amended): for an existing blog whose likes list holds `u` at most once,
after `n` consecutive like toggles by `u` the saved list contains `u` if and
only if (`u` was a member) XOR (`n` is odd); in particular two toggles restore
the original membership. -/
theorem repeated_toggle_parity (s : Store) (id u : ObjectId) (blog : Blog) (n : Nat)
    (h : findById s.blogs id = some blog) (hc : blog.likes.count u ≤ 1) :
    (∃ blog', findById (putBlogLikeTimes s id u n).blogs id = some blog' ∧
      (u ∈ blog'.likes ↔ Xor' (u ∈ blog.likes) (n % 2 = 1))) ∧
    (∃ blog2, findById (putBlogLikeTimes s id u 2).blogs id = some blog2 ∧
      (u ∈ blog2.likes ↔ u ∈ blog.likes)) := by
  refine ⟨putBlogLikeTimes_parity u id n s blog h hc, ?_⟩
  obtain ⟨blog2, hf, hm⟩ := putBlogLikeTimes_parity u id 2 s blog h hc
  exact ⟨blog2, hf, by simpa [Xor'] using hm⟩

/-- Witness of `repeated_toggle_parity`: three likes by user 7 on a blog liked by
3 and 7. -/
theorem repeated_toggle_parity_witness :
    (∃ blog', findById (putBlogLikeTimes (sampleStore [] [3, 7] []) 1 7 3).blogs 1 = some blog' ∧
      (7 ∈ blog'.likes ↔ Xor' (7 ∈ (sampleBlog 1 [3, 7]).likes) (3 % 2 = 1))) ∧
    (∃ blog2, findById (putBlogLikeTimes (sampleStore [] [3, 7] []) 1 7 2).blogs 1 = some blog2 ∧
      (7 ∈ blog2.likes ↔ 7 ∈ (sampleBlog 1 [3, 7]).likes)) :=
  repeated_toggle_parity (sampleStore [] [3, 7] []) 1 7 (sampleBlog 1 [3, 7]) 3
    (by decide) (by decide)

/-- C2 as stated fails: from the likes list `[7, 7]` two likes by user 7 leave
the empty list, so the original membership is not restored although 2 is even. -/
theorem two_toggles_drop_duplicated_member :
    findById (sampleStore [] [7, 7] []).blogs 1 = some (sampleBlog 1 [7, 7]) ∧
    findById (putBlogLikeTimes (sampleStore [] [7, 7] []) 1 7 2).blogs 1
      = some (sampleBlog 1 []) ∧
    ¬ (7 ∈ (sampleBlog 1 []).likes ↔ Xor' (7 ∈ (sampleBlog 1 [7, 7]).likes) (2 % 2 = 1)) := by
  refine ⟨by decide, by decide, ?_⟩
  simp [Xor', sampleBlog]

/-- C3 (amended): for an existing user whose watchlist `W` holds `m` at most
once, two consecutive watchlist toggles with `m` leave a stored watchlist with
the same entries as `W` (a permutation of `W`): it is `W` itself when `m` was
not in `W`; it is `W` with `m` moved to the end when `m` was in `W`. -/
theorem watchlist_double_toggle (s : Store) (m : String) (u : ObjectId) (user : User)
    (h : findById s.users u = some user) (hc : user.watchlist.count m ≤ 1) :
    ∃ user', findById (putWatchlist (putWatchlist s m u).2 m u).2.users u = some user' ∧
      user'.watchlist.Perm user.watchlist ∧
      (m ∉ user.watchlist → user'.watchlist = user.watchlist) ∧
      (m ∈ user.watchlist → user'.watchlist = user.watchlist.erase m ++ [m]) := by
  have h1 := putWatchlist_find m h
  have h2 := putWatchlist_find m h1
  refine ⟨_, h2, ?_, ?_, ?_⟩
  · by_cases hm : m ∈ user.watchlist
    · show (toggled (toggled user.watchlist m) m).Perm user.watchlist
      rw [toggled_toggled_of_mem _ _ hm hc]
      exact (List.perm_append_comm.trans (List.perm_cons_erase hm).symm)
    · show (toggled (toggled user.watchlist m) m).Perm user.watchlist
      rw [toggled_toggled_of_not_mem _ _ hm]
  · intro hm
    exact toggled_toggled_of_not_mem _ _ hm
  · intro hm
    exact toggled_toggled_of_mem _ _ hm hc

/-- Witness of `watchlist_double_toggle`: user 7 toggles "m1" twice on the
watchlist `["a", "m1", "b"]`. -/
theorem watchlist_double_toggle_witness :
    ∃ user', findById (putWatchlist (putWatchlist (sampleStore ["a", "m1", "b"] [] []) "m1" 7).2
        "m1" 7).2.users 7 = some user' ∧
      user'.watchlist.Perm (sampleUser 7 ["a", "m1", "b"]).watchlist ∧
      ("m1" ∉ (sampleUser 7 ["a", "m1", "b"]).watchlist →
        user'.watchlist = (sampleUser 7 ["a", "m1", "b"]).watchlist) ∧
      ("m1" ∈ (sampleUser 7 ["a", "m1", "b"]).watchlist →
        user'.watchlist = (sampleUser 7 ["a", "m1", "b"]).watchlist.erase "m1" ++ ["m1"]) :=
  watchlist_double_toggle (sampleStore ["a", "m1", "b"] [] []) "m1" 7
    (sampleUser 7 ["a", "m1", "b"]) (by decide) (by decide)

/-- C3 as stated fails: on the watchlist `["m1", "x"]` two toggles of "m1" store
`["x", "m1"]`, which is not the watchlist from before the first toggle. -/
theorem watchlist_double_toggle_reorders :
    findById (sampleStore ["m1", "x"] [] []).users 7 = some (sampleUser 7 ["m1", "x"]) ∧
    findById (putWatchlist (putWatchlist (sampleStore ["m1", "x"] [] []) "m1" 7).2 "m1" 7).2.users 7
      = some (sampleUser 7 ["x", "m1"]) ∧
    (sampleUser 7 ["x", "m1"]).watchlist ≠ (sampleUser 7 ["m1", "x"]).watchlist := by
  decide

end Backend

namespace Backend

/-- C4 (amended): for an existing blog whose likes list `L` holds `u` at most
once, the count returned by the first like of `u` is `|L| + 1` when `u` had not
liked the blog, and the count returned by the second consecutive like of `u` is
`|L|`. -/
theorem like_count_round_trip (s : Store) (id u : ObjectId) (blog : Blog)
    (h : findById s.blogs id = some blog) (hc : blog.likes.count u ≤ 1) :
    (u ∉ blog.likes →
      (putBlogLike s id u).1 = ⟨200, "Blog like updated", .likes (blog.likes.length + 1)⟩) ∧
    (putBlogLike (putBlogLike s id u).2 id u).1
      = ⟨200, "Blog like updated", .likes blog.likes.length⟩ := by
  constructor
  · intro hu
    rw [putBlogLike_eq u h, length_toggled_of_not_mem _ _ hu]
  · rw [putBlogLike_eq u (putBlogLike_find u h)]
    show (⟨200, "Blog like updated", .likes (toggled (toggled blog.likes u) u).length⟩ : Response)
      = _
    rw [length_toggled_toggled _ _ hc]

/-- Witness of `like_count_round_trip`: user 7 likes blog 1 twice, liked so far
by 3 and 4. -/
theorem like_count_round_trip_witness :
    (7 ∉ (sampleBlog 1 [3, 4]).likes →
      (putBlogLike (sampleStore [] [3, 4] []) 1 7).1
        = ⟨200, "Blog like updated", .likes ((sampleBlog 1 [3, 4]).likes.length + 1)⟩) ∧
    (putBlogLike (putBlogLike (sampleStore [] [3, 4] []) 1 7).2 1 7).1
      = ⟨200, "Blog like updated", .likes (sampleBlog 1 [3, 4]).likes.length⟩ :=
  like_count_round_trip (sampleStore [] [3, 4] []) 1 7 (sampleBlog 1 [3, 4])
    (by decide) (by decide)

/-- C4 as stated fails: on the likes list `[7, 7, 3]` (count 3) the second
consecutive like by user 7 returns the count 1, not the original count. -/
theorem second_like_count_off_on_duplicate :
    findById (sampleStore [] [7, 7, 3] []).blogs 1 = some (sampleBlog 1 [7, 7, 3]) ∧
    (putBlogLike (sampleStore [] [7, 7, 3] []) 1 7).1 = ⟨200, "Blog like updated", .likes 2⟩ ∧
    (putBlogLike (putBlogLike (sampleStore [] [7, 7, 3] []) 1 7).2 1 7).1
      = ⟨200, "Blog like updated", .likes 1⟩ ∧
    (putBlogLike (putBlogLike (sampleStore [] [7, 7, 3] []) 1 7).2 1 7).1
      ≠ ⟨200, "Blog like updated", .likes (sampleBlog 1 [7, 7, 3]).likes.length⟩ := by
  decide

theorem putBlogLikeRequest_cast {castObjectId : String → Option ObjectId} {id : String}
    {oid : ObjectId} (s : Store) (u : ObjectId) (h : castObjectId id = some oid) :
    putBlogLikeRequest castObjectId s id u = putBlogLike s oid u := by
  simp [putBlogLikeRequest, h]

theorem putReviewLikeRequest_cast {castObjectId : String → Option ObjectId} {id : String}
    {oid : ObjectId} (s : Store) (u : ObjectId) (h : castObjectId id = some oid) :
    putReviewLikeRequest castObjectId s id u = putReviewLike s oid u := by
  simp [putReviewLikeRequest, h]

/-- C5 (amended): a path id that casts to an ObjectId matching no stored blog
(resp. review) makes the like handler answer 404, and so does the watchlist
handler when the id of the caller matches no stored user; a path id that does
not cast to an ObjectId, which matches no stored document either, makes the
like handlers answer 500.  In every one of these cases the store is the one the
handler was given. -/
theorem toggle_not_found (castObjectId : String → Option ObjectId) (s : Store) (u : ObjectId) :
    (∀ id oid, castObjectId id = some oid → (∀ b ∈ s.blogs, b._id ≠ oid) →
      putBlogLikeRequest castObjectId s id u = (⟨404, "Blog not found", .none⟩, s)) ∧
    (∀ id oid, castObjectId id = some oid → (∀ r ∈ s.reviews, r._id ≠ oid) →
      putReviewLikeRequest castObjectId s id u = (⟨404, "Review not found", .none⟩, s)) ∧
    (∀ m, (∀ v ∈ s.users, v._id ≠ u) →
      putWatchlist s m u = (⟨404, "User not found", .none⟩, s)) ∧
    (∀ id, castObjectId id = none →
      putBlogLikeRequest castObjectId s id u = (⟨500, "Server error", .none⟩, s) ∧
      putReviewLikeRequest castObjectId s id u = (⟨500, "Server error", .none⟩, s)) ∧
    (∀ id, (∀ b ∈ s.blogs, castObjectId id ≠ some b._id) →
      (putBlogLikeRequest castObjectId s id u).2 = s) ∧
    (∀ id, (∀ r ∈ s.reviews, castObjectId id ≠ some r._id) →
      (putReviewLikeRequest castObjectId s id u).2 = s) := by
  have hblog : ∀ oid, (∀ b ∈ s.blogs, b._id ≠ oid) →
      putBlogLike s oid u = (⟨404, "Blog not found", .none⟩, s) := by
    intro oid hid
    have hf : findById s.blogs oid = none := (findById_none_iff _ _).2 hid
    simp [putBlogLike, hf]
  have hreview : ∀ oid, (∀ r ∈ s.reviews, r._id ≠ oid) →
      putReviewLike s oid u = (⟨404, "Review not found", .none⟩, s) := by
    intro oid hid
    have hf : findById s.reviews oid = none := (findById_none_iff _ _).2 hid
    simp [putReviewLike, hf]
  refine ⟨?_, ?_, ?_, ?_, ?_, ?_⟩
  · intro id oid hcast hid
    rw [putBlogLikeRequest_cast s u hcast]
    exact hblog oid hid
  · intro id oid hcast hid
    rw [putReviewLikeRequest_cast s u hcast]
    exact hreview oid hid
  · intro m hid
    have hf : findById s.users u = none := (findById_none_iff _ _).2 hid
    simp [putWatchlist, hf]
  · intro id hcast
    simp [putBlogLikeRequest, putReviewLikeRequest, hcast]
  · intro id hid
    cases hcast : castObjectId id with
    | none => simp [putBlogLikeRequest, hcast]
    | some oid =>
      rw [putBlogLikeRequest_cast s u hcast,
        hblog oid (fun b hb e => hid b hb (by rw [hcast, e]))]
  · intro id hid
    cases hcast : castObjectId id with
    | none => simp [putReviewLikeRequest, hcast]
    | some oid =>
      rw [putReviewLikeRequest_cast s u hcast,
        hreview oid (fun r hr e => hid r hr (by rw [hcast, e]))]

/-- Witness of `toggle_not_found`: the path id of 24 hexadecimal digits casts to
the ObjectId 5, which no stored blog has. -/
theorem toggle_not_found_witness :
    hexObjectId "000000000000000000000005" = some 5 ∧
    putBlogLikeRequest hexObjectId (sampleStore ["m1"] [3] [4]) "000000000000000000000005" 7
      = (⟨404, "Blog not found", .none⟩, sampleStore ["m1"] [3] [4]) :=
  ⟨by decide,
    (toggle_not_found hexObjectId (sampleStore ["m1"] [3] [4]) 7).1
      "000000000000000000000005" 5 (by decide) (by decide)⟩

/-- C5 as stated fails: the path id "abc" is no ObjectId, so it matches no stored
blog and no stored review; `findById` raises CastError on it and the like
handlers answer 500 "Server error", not 404.  The store is left as it was. -/
theorem like_malformed_id_is_500 :
    hexObjectId "abc" = none ∧
    (∀ b ∈ (sampleStore ["m1"] [3] [4]).blogs, hexObjectId "abc" ≠ some b._id) ∧
    (∀ r ∈ (sampleStore ["m1"] [3] [4]).reviews, hexObjectId "abc" ≠ some r._id) ∧
    putBlogLikeRequest hexObjectId (sampleStore ["m1"] [3] [4]) "abc" 7
      = (⟨500, "Server error", .none⟩, sampleStore ["m1"] [3] [4]) ∧
    putReviewLikeRequest hexObjectId (sampleStore ["m1"] [3] [4]) "abc" 7
      = (⟨500, "Server error", .none⟩, sampleStore ["m1"] [3] [4]) ∧
    (putBlogLikeRequest hexObjectId (sampleStore ["m1"] [3] [4]) "abc" 7).1.status ≠ 404 ∧
    (putReviewLikeRequest hexObjectId (sampleStore ["m1"] [3] [4]) "abc" 7).1.status ≠ 404 := by
  decide

end Backend

/-! ## Claims on the approval backend -/

namespace Backend2

theorem falsy_some (v : String) (h : v ≠ "") : falsy (some v) = false := by
  simp [falsy, h]

theorem findOne_some {users : List User} {email : String} {u : User}
    (h : findOne users email = some u) : u ∈ users ∧ u.email = email := by
  refine ⟨List.mem_of_find?_eq_some h, ?_⟩
  have := List.find?_some h
  simpa using this

theorem findOne_none_iff (users : List User) (email : String) :
    findOne users email = none ↔ ∀ u ∈ users, u.email ≠ email := by
  simp [findOne, List.find?_eq_none]

theorem findOne_saveNew {users : List User} {email : String} (u : User)
    (hnew : ∀ v ∈ users, v.email ≠ email) (hu : u.email = email) :
    findOne (saveNew users u) email = some u := by
  have hn : List.find? (fun v => v.email == email) users = none := by
    simpa [findOne] using (findOne_none_iff users email).2 hnew
  simp [findOne, saveNew, List.find?_append, hn, hu]

/-- The login handler on a body with two non-empty strings, by cases on the
lookup. -/
theorem postAuthLogin_eq (H : Hasher) (s : Store) (email password : String)
    (he : email ≠ "") (hp : password ≠ "") :
    postAuthLogin H s ⟨some email, some password⟩ =
      match findOne s.users email with
      | none => ⟨400, "Invalid credentials", none, none⟩
      | some user =>
        if H.compare password user.password = false then ⟨400, "Invalid credentials", none, none⟩
        else if user.isApproved = false ∧ user.isAdmin = false then
          ⟨403, "Account not approved yet. Please wait for admin approval.", none, none⟩
        else
          ⟨200, "Login successful", some ⟨user._id, user.email, user.isAdmin⟩,
            some (.loggedIn user._id user.email user.isAdmin)⟩ := by
  unfold postAuthLogin
  simp only [falsy_some _ he, falsy_some _ hp, Bool.or_self, Bool.false_eq_true, if_false,
    Option.getD_some]
  cases hf : findOne s.users email with
  | none => rfl
  | some user =>
    cases hc : H.compare password user.password <;> cases ha : user.isApproved <;>
      cases hd : user.isAdmin <;> simp

/-- C6: login with non-empty email and password answers 403 exactly when the
lookup by email finds an account, the password matches its hash, and the account
is neither approved nor an admin; a token is issued only for an account that is
approved or an admin (and whose password matched). -/
theorem login_not_approved_iff (H : Hasher) (s : Store) (email password : String)
    (he : email ≠ "") (hp : password ≠ "") :
    ((postAuthLogin H s ⟨some email, some password⟩).status = 403 ↔
      ∃ u ∈ s.users, u.email = email ∧ findOne s.users email = some u ∧
        H.compare password u.password = true ∧ u.isApproved = false ∧ u.isAdmin = false) ∧
    ((postAuthLogin H s ⟨some email, some password⟩).status = 403 →
      postAuthLogin H s ⟨some email, some password⟩
        = ⟨403, "Account not approved yet. Please wait for admin approval.", none, none⟩) ∧
    (∀ c, (postAuthLogin H s ⟨some email, some password⟩).token = some c →
      ∃ u ∈ s.users, u.email = email ∧ findOne s.users email = some u ∧
        H.compare password u.password = true ∧ (u.isApproved = true ∨ u.isAdmin = true) ∧
        c = ⟨u._id, u.email, u.isAdmin⟩) := by
  rw [postAuthLogin_eq H s email password he hp]
  cases hf : findOne s.users email with
  | none => simp
  | some user =>
    obtain ⟨hmem, hem⟩ := findOne_some hf
    have hinj : ∀ u : User, some user = some u → u = user := fun u e => (Option.some.inj e).symm
    by_cases hc : H.compare password user.password = false
    · simp only [hc, if_true]
      refine ⟨⟨fun h => by simp at h, ?_⟩, fun h => by simp at h, fun c h => by simp at h⟩
      rintro ⟨u, _, _, hu, hcu, _⟩
      rw [hinj u hu, hc] at hcu
      cases hcu
    · have hct : H.compare password user.password = true := by
        cases h : H.compare password user.password
        · exact absurd h hc
        · rfl
      by_cases hpend : user.isApproved = false ∧ user.isAdmin = false
      · simp only [hc, if_false, hpend, and_self, if_true]
        refine ⟨⟨fun _ => ⟨user, hmem, hem, rfl, hct, hpend.1, hpend.2⟩, fun _ => rfl⟩,
          fun _ => rfl, fun c h => by simp at h⟩
      · simp only [hc, if_false, hpend, if_false]
        refine ⟨⟨fun h => by simp at h, ?_⟩, fun h => by simp at h, ?_⟩
        · rintro ⟨u, _, _, hu, _, hau, hdu⟩
          rw [hinj u hu] at hau hdu
          exact absurd ⟨hau, hdu⟩ hpend
        · intro c hcl
          refine ⟨user, hmem, hem, rfl, hct, ?_, (Option.some.inj hcl).symm⟩
          cases ha : user.isApproved <;> cases hd : user.isAdmin <;> simp_all

end Backend2

namespace Backend2

/-- Witness of `login_not_approved_iff`: the pending account a@x.com logs in with
its password. -/
theorem login_not_approved_iff_witness :
    "a@x.com" ≠ "" ∧ "pw123456" ≠ "" ∧
    (postAuthLogin tagHasher ⟨[sampleAccount 1 "a@x.com" "pw123456" false false]⟩
        ⟨some "a@x.com", some "pw123456"⟩).status = 403 :=
  ⟨by decide, by decide,
    (login_not_approved_iff tagHasher ⟨[sampleAccount 1 "a@x.com" "pw123456" false false]⟩
      "a@x.com" "pw123456" (by decide) (by decide)).1.2
      ⟨sampleAccount 1 "a@x.com" "pw123456" false false, by decide, by decide, by decide,
        by decide, by decide, by decide⟩⟩

/-- C7: login with non-empty email and password answers 400 "Invalid
credentials" exactly when the lookup by email finds no account or the password
does not match the hash of the account found; the approval state of the account and its
role play no part (a pending account with a wrong password gets this answer,
not 403). -/
theorem login_invalid_credentials_iff (H : Hasher) (s : Store) (email password : String)
    (he : email ≠ "") (hp : password ≠ "") :
    (postAuthLogin H s ⟨some email, some password⟩ = ⟨400, "Invalid credentials", none, none⟩ ↔
      ((∀ u ∈ s.users, u.email ≠ email) ∨
        ∃ u ∈ s.users, u.email = email ∧ findOne s.users email = some u ∧
          H.compare password u.password = false)) ∧
    ((postAuthLogin H s ⟨some email, some password⟩).status = 400 ↔
      postAuthLogin H s ⟨some email, some password⟩ = ⟨400, "Invalid credentials", none, none⟩) ∧
    (∀ u, findOne s.users email = some u → H.compare password u.password = false →
      u.isApproved = false → u.isAdmin = false →
      (postAuthLogin H s ⟨some email, some password⟩).status ≠ 403) := by
  rw [postAuthLogin_eq H s email password he hp]
  cases hf : findOne s.users email with
  | none =>
    have hnone := (findOne_none_iff s.users email).1 hf
    exact ⟨⟨fun _ => Or.inl hnone, fun _ => rfl⟩, ⟨fun _ => rfl, fun _ => rfl⟩,
      fun u hu => by cases hu⟩
  | some user =>
    obtain ⟨hmem, hem⟩ := findOne_some hf
    have hinj : ∀ u : User, some user = some u → u = user := fun u e => (Option.some.inj e).symm
    have hnot : ¬ ∀ u ∈ s.users, u.email ≠ email := fun h => h user hmem hem
    have hright : ((∀ u ∈ s.users, u.email ≠ email) ∨
        ∃ u ∈ s.users, u.email = email ∧ some user = some u ∧
          H.compare password u.password = false) → H.compare password user.password = false := by
      rintro (h | ⟨u, _, _, hu, hcu⟩)
      · exact absurd h hnot
      · rw [hinj u hu] at hcu
        exact hcu
    dsimp only
    by_cases hc : H.compare password user.password = false
    · rw [if_pos hc]
      exact ⟨⟨fun _ => Or.inr ⟨user, hmem, hem, rfl, hc⟩, fun _ => rfl⟩,
        ⟨fun _ => rfl, fun _ => rfl⟩, fun _ _ _ _ _ h => by simp at h⟩
    · rw [if_neg hc]
      by_cases hpend : user.isApproved = false ∧ user.isAdmin = false
      · rw [if_pos hpend]
        exact ⟨⟨fun h => by simp at h, fun h => absurd (hright h) hc⟩,
          ⟨fun h => by simp at h, fun h => by simp at h⟩,
          fun u hu hcu => by rw [hinj u hu] at hcu; exact absurd hcu hc⟩
      · rw [if_neg hpend]
        exact ⟨⟨fun h => by simp at h, fun h => absurd (hright h) hc⟩,
          ⟨fun h => by simp at h, fun h => by simp at h⟩,
          fun u hu hcu => by rw [hinj u hu] at hcu; exact absurd hcu hc⟩

/-- Witness of `login_invalid_credentials_iff`: the pending account a@x.com logs
in with a wrong password. -/
theorem login_invalid_credentials_iff_witness :
    "a@x.com" ≠ "" ∧ "wrong" ≠ "" ∧
    postAuthLogin tagHasher ⟨[sampleAccount 1 "a@x.com" "pw123456" false false]⟩
        ⟨some "a@x.com", some "wrong"⟩ = ⟨400, "Invalid credentials", none, none⟩ :=
  ⟨by decide, by decide,
    (login_invalid_credentials_iff tagHasher ⟨[sampleAccount 1 "a@x.com" "pw123456" false false]⟩
      "a@x.com" "wrong" (by decide) (by decide)).1.2
      (Or.inr ⟨sampleAccount 1 "a@x.com" "pw123456" false false, by decide, by decide,
        by decide, by decide⟩)⟩

end Backend2

namespace Backend2

/-- The request handler on a body with two non-empty strings, by cases on the
lookup. -/
theorem postAuthRequest_eq (H : Hasher) (s : Store) (email password : String)
    (newId : ObjectId) (now : Nat) (he : email ≠ "") (hp : password ≠ "") :
    postAuthRequest H s ⟨some email, some password⟩ newId now =
      match findOne s.users email with
      | some _ => (⟨400, "User already exists", none, none⟩, s)
      | none =>
        (⟨201, "Request submitted successfully. Wait for admin approval.", none,
            some (.requested email false)⟩,
          { s with users := s.users ++ [⟨newId, email, H.hash password 12, false, false, now⟩] }) := by
  unfold postAuthRequest
  simp only [falsy_some _ he, falsy_some _ hp, Bool.or_self, Bool.false_eq_true, if_false,
    Option.getD_some]
  cases findOne s.users email <;> rfl

/-- While the account found by email is neither approved nor an admin, the
login handler issues no token and does not answer 200, whatever the password. -/
theorem postAuthLogin_pending (H : Hasher) (t : Store) (body : Body) (email : String) (u : User)
    (hb : body.email = some email) (hu : findOne t.users email = some u)
    (ha : u.isApproved = false) (hd : u.isAdmin = false) :
    (postAuthLogin H t body).token = none ∧ (postAuthLogin H t body).status ≠ 200 := by
  unfold postAuthLogin
  by_cases hg : (falsy body.email || falsy body.password) = true
  · rw [if_pos hg]
    exact ⟨rfl, by decide⟩
  · rw [if_neg hg]
    simp only [hb, Option.getD_some, hu]
    cases hc : H.compare (body.password.getD "") u.password
    · exact ⟨rfl, by simp⟩
    · exact ⟨by simp [ha, hd], by simp [ha, hd]⟩

/-- C8 (amended): for every non-empty email not previously registered and every
non-empty password whose hash `compare` accepts, the access request is answered
201 and an immediate login with the same credentials fails with 403 (not
approved), without a token; and in every later store where the lookup by this
email still finds an account that is neither approved nor an admin, no login
for this email succeeds or gets a token. -/
theorem request_then_login_not_approved (H : Hasher) (s : Store) (email password : String)
    (newId : ObjectId) (now : Nat) (he : email ≠ "") (hp : password ≠ "")
    (hnew : ∀ u ∈ s.users, u.email ≠ email)
    (hcmp : H.compare password (H.hash password 12) = true) :
    (postAuthRequest H s ⟨some email, some password⟩ newId now).1.status = 201 ∧
    postAuthLogin H (postAuthRequest H s ⟨some email, some password⟩ newId now).2
        ⟨some email, some password⟩
      = ⟨403, "Account not approved yet. Please wait for admin approval.", none, none⟩ ∧
    (∀ (t : Store) (body : Body) (u : User), body.email = some email →
      findOne t.users email = some u → u.isApproved = false → u.isAdmin = false →
      (postAuthLogin H t body).token = none ∧ (postAuthLogin H t body).status ≠ 200) := by
  have hf : findOne s.users email = none := (findOne_none_iff _ _).2 hnew
  rw [postAuthRequest_eq H s email password newId now he hp, hf]
  refine ⟨rfl, ?_, fun t body u hb hu ha hd => postAuthLogin_pending H t body email u hb hu ha hd⟩
  rw [postAuthLogin_eq H _ email password he hp]
  have hfind : findOne (s.users ++ [⟨newId, email, H.hash password 12, false, false, now⟩]) email
      = some ⟨newId, email, H.hash password 12, false, false, now⟩ :=
    findOne_saveNew _ hnew rfl
  dsimp only
  rw [hfind]
  dsimp only
  rw [if_neg (by rw [hcmp]; simp), if_pos ⟨rfl, rfl⟩]

/-- Witness of `request_then_login_not_approved`: a@x.com / pw123456 on the
empty store. -/
theorem request_then_login_not_approved_witness :
    (postAuthRequest tagHasher ⟨[]⟩ ⟨some "a@x.com", some "pw123456"⟩ 1 0).1.status = 201 ∧
    postAuthLogin tagHasher
        (postAuthRequest tagHasher ⟨[]⟩ ⟨some "a@x.com", some "pw123456"⟩ 1 0).2
        ⟨some "a@x.com", some "pw123456"⟩
      = ⟨403, "Account not approved yet. Please wait for admin approval.", none, none⟩ :=
  ⟨(request_then_login_not_approved tagHasher ⟨[]⟩ "a@x.com" "pw123456" 1 0
      (by decide) (by decide) (by decide) (by decide)).1,
    (request_then_login_not_approved tagHasher ⟨[]⟩ "a@x.com" "pw123456" 1 0
      (by decide) (by decide) (by decide) (by decide)).2.1⟩

/-- C8 as stated fails: the empty email is not registered and the password is
non-empty and accepted by `compare`, yet the request is refused with 400, the
store stays empty and the login that follows is answered 400, not 403. -/
theorem request_then_login_empty_email :
    (∀ u ∈ (⟨[]⟩ : Store).users, u.email ≠ "") ∧ "pw123456" ≠ "" ∧
    tagHasher.compare "pw123456" (tagHasher.hash "pw123456" 12) = true ∧
    postAuthRequest tagHasher ⟨[]⟩ ⟨some "", some "pw123456"⟩ 1 0
      = (⟨400, "Email and password are required", none, none⟩, ⟨[]⟩) ∧
    postAuthLogin tagHasher (postAuthRequest tagHasher ⟨[]⟩ ⟨some "", some "pw123456"⟩ 1 0).2
        ⟨some "", some "pw123456"⟩
      = ⟨400, "Email and password are required", none, none⟩ ∧
    (postAuthLogin tagHasher (postAuthRequest tagHasher ⟨[]⟩ ⟨some "", some "pw123456"⟩ 1 0).2
        ⟨some "", some "pw123456"⟩).status ≠ 403 := by
  decide

/-- C9: `POST /api/auth/request` with non-empty email and password.  If an
account with that email is stored, the answer is 400 "User already exists" and
the store is unchanged; otherwise exactly one account is appended, with that
email, the hash of the password, `isApproved = false` and `isAdmin = false`, the
answer is 201 and it carries no token. -/
theorem submit_access_request (H : Hasher) (s : Store) (email password : String)
    (newId : ObjectId) (now : Nat) (he : email ≠ "") (hp : password ≠ "") :
    ((∃ u ∈ s.users, u.email = email) →
      postAuthRequest H s ⟨some email, some password⟩ newId now
        = (⟨400, "User already exists", none, none⟩, s)) ∧
    ((∀ u ∈ s.users, u.email ≠ email) →
      (postAuthRequest H s ⟨some email, some password⟩ newId now).2.users
          = s.users ++ [⟨newId, email, H.hash password 12, false, false, now⟩] ∧
        (postAuthRequest H s ⟨some email, some password⟩ newId now).1.status = 201 ∧
        (postAuthRequest H s ⟨some email, some password⟩ newId now).1.token = none) ∧
    (postAuthRequest H s ⟨some email, some password⟩ newId now).1.token = none := by
  rw [postAuthRequest_eq H s email password newId now he hp]
  cases hf : findOne s.users email with
  | none =>
    have hnone := (findOne_none_iff s.users email).1 hf
    exact ⟨fun ⟨u, hu, hue⟩ => absurd hue (hnone u hu), fun _ => ⟨rfl, rfl, rfl⟩, rfl⟩
  | some user =>
    obtain ⟨hmem, hem⟩ := findOne_some hf
    exact ⟨fun _ => rfl, fun h => absurd hem (h user hmem), rfl⟩

/-- Witness of `submit_access_request`: a second request for a@x.com is refused
and changes nothing. -/
theorem submit_access_request_witness :
    "a@x.com" ≠ "" ∧ "other" ≠ "" ∧
    postAuthRequest tagHasher ⟨[sampleAccount 1 "a@x.com" "pw123456" false false]⟩
        ⟨some "a@x.com", some "other"⟩ 2 5
      = (⟨400, "User already exists", none, none⟩,
          ⟨[sampleAccount 1 "a@x.com" "pw123456" false false]⟩) :=
  ⟨by decide, by decide,
    (submit_access_request tagHasher ⟨[sampleAccount 1 "a@x.com" "pw123456" false false]⟩
      "a@x.com" "other" 2 5 (by decide) (by decide)).1
      ⟨sampleAccount 1 "a@x.com" "pw123456" false false, by decide, by decide⟩⟩

end Backend2

namespace Backend2

theorem patchAdminApprove_eq {s : Store} {userId : ObjectId} {user : User}
    (h : findById s.users userId = some user) :
    patchAdminApprove s userId =
      (⟨200, "User approved successfully", none,
          some (selectNoPassword { user with isApproved := true })⟩,
        { s with users := save s.users { user with isApproved := true } }) := by
  simp [patchAdminApprove, findByIdAndUpdate, h]

/-- C10: approve is idempotent.  For an existing account id, the first call
answers 200 with the stored record, which is the old one with `isApproved = true`
and every other field as before, and leaves every other account as it was; the
second call gives the same answer and the same store as the first. -/
theorem approve_idempotent (s : Store) (userId : ObjectId) (user : User)
    (h : findById s.users userId = some user) :
    patchAdminApprove (patchAdminApprove s userId).2 userId = patchAdminApprove s userId ∧
    (patchAdminApprove s userId).1
      = ⟨200, "User approved successfully", none,
          some (selectNoPassword { user with isApproved := true })⟩ ∧
    findById (patchAdminApprove s userId).2.users userId
      = some { user with isApproved := true } ∧
    (∀ id, id ≠ userId →
      findById (patchAdminApprove s userId).2.users id = findById s.users id) := by
  have hid : user._id = userId := findById_id h
  have h1 : findById (save s.users ({ user with isApproved := true } : User)) userId
      = some { user with isApproved := true } := findById_save h hid
  refine ⟨?_, ?_, ?_, ?_⟩
  · rw [patchAdminApprove_eq h]
    rw [@patchAdminApprove_eq { s with users := save s.users { user with isApproved := true } }
      userId { user with isApproved := true } h1]
    have hs : save (save s.users ({ user with isApproved := true } : User))
        ({ user with isApproved := true } : User)
        = save s.users ({ user with isApproved := true } : User) := save_same h1
    exact Prod.ext rfl (congrArg (fun us => ({ s with users := us } : Store)) hs)
  · rw [patchAdminApprove_eq h]
  · rw [patchAdminApprove_eq h]
    exact h1
  · intro id hne
    rw [patchAdminApprove_eq h]
    exact findById_save_ne s.users _ id (by rw [← hid] at hne; exact hne)

/-- Witness of `approve_idempotent`: the pending account 1 is approved twice. -/
theorem approve_idempotent_witness :
    patchAdminApprove (patchAdminApprove
        ⟨[sampleAccount 1 "a@x.com" "pw123456" false false,
          sampleAccount 2 "b@x.com" "pw" false false]⟩ 1).2 1
      = patchAdminApprove
        ⟨[sampleAccount 1 "a@x.com" "pw123456" false false,
          sampleAccount 2 "b@x.com" "pw" false false]⟩ 1 :=
  (approve_idempotent
    ⟨[sampleAccount 1 "a@x.com" "pw123456" false false,
      sampleAccount 2 "b@x.com" "pw" false false]⟩ 1
    (sampleAccount 1 "a@x.com" "pw123456" false false) (by decide)).1

end Backend2

/-! ## Deleting from a collection -/

section DeleteLemmas

variable {α : Type} [Doc α]

theorem findByIdAndDelete_fst (docs : List α) (id : ObjectId) :
    (findByIdAndDelete docs id).1 = findById docs id := by
  induction docs with
  | nil => rfl
  | cons d ds ih =>
    by_cases hd : Doc._id d = id
    · simp [findByIdAndDelete, findById, hd]
    · simpa [findByIdAndDelete, findById, List.find?_cons, hd] using ih

theorem findByIdAndDelete_snd_of_none {docs : List α} {id : ObjectId}
    (h : findById docs id = none) : (findByIdAndDelete docs id).2 = docs := by
  induction docs with
  | nil => rfl
  | cons d ds ih =>
    have hall := (findById_none_iff (d :: ds) id).1 h
    have hd : ¬ Doc._id d = id := hall d (List.mem_cons_self _ _)
    have hds : findById ds id = none :=
      (findById_none_iff ds id).2 (fun e he => hall e (List.mem_cons_of_mem _ he))
    simp [findByIdAndDelete, hd, ih hds]

theorem findByIdAndDelete_snd_erase [DecidableEq α] {docs : List α} {id : ObjectId} {d : α}
    (h : findById docs id = some d) : (findByIdAndDelete docs id).2 = docs.erase d := by
  induction docs with
  | nil => simp [findById] at h
  | cons e es ih =>
    by_cases he : Doc._id e = id
    · have hed : e = d := by simpa [findById, List.find?_cons, he] using h
      subst hed
      simp [findByIdAndDelete, he]
    · have h2 : findById es id = some d := by
        simpa [findById, List.find?_cons, he] using h
      have hne : e ≠ d := fun c => he (c ▸ findById_id h2)
      have hbeq : (e == d) = false := by simpa using hne
      simp [findByIdAndDelete, he, ih h2, List.erase_cons, hbeq]

theorem findById_after_delete {docs : List α} (id : ObjectId) (hu : UniqueIds docs) :
    findById (findByIdAndDelete docs id).2 id = none := by
  induction docs with
  | nil => rfl
  | cons e es ih =>
    have hu2 : UniqueIds es := by
      unfold UniqueIds at hu ⊢
      exact (List.nodup_cons.1 hu).2
    by_cases he : Doc._id e = id
    · have hnot : Doc._id e ∉ es.map Doc._id := by
        unfold UniqueIds at hu
        exact (List.nodup_cons.1 hu).1
      apply (findById_none_iff _ _).2
      intro d hd hdid
      apply hnot
      have hd2 : d ∈ es := by simpa [findByIdAndDelete, he] using hd
      exact List.mem_map.2 ⟨d, hd2, hdid.trans he.symm⟩
    · have := ih hu2
      simpa [findByIdAndDelete, he, findById, List.find?_cons] using this

theorem findById_after_delete_ne (docs : List α) {id other : ObjectId} (hne : other ≠ id) :
    findById (findByIdAndDelete docs id).2 other = findById docs other := by
  induction docs with
  | nil => rfl
  | cons e es ih =>
    by_cases he : Doc._id e = id
    · have hne2 : ¬ id = other := fun c => hne c.symm
      simp [findByIdAndDelete, he, findById, List.find?_cons, hne2]
    · by_cases he3 : Doc._id e = other
      · simp [findByIdAndDelete, he, findById, List.find?_cons, he3, hne]
      · simpa [findByIdAndDelete, he, findById, List.find?_cons, he3] using ih

theorem uniqueIds_save {docs : List α} (doc : α) (hu : UniqueIds docs) :
    UniqueIds (save docs doc) := by
  have hmap : (save docs doc).map Doc._id = docs.map Doc._id := by
    clear hu
    induction docs with
    | nil => rfl
    | cons e es ih =>
      by_cases he : Doc._id e = Doc._id doc
      · simp [save, he]
      · simp [save, he, ih]
  unfold UniqueIds
  rw [hmap]
  exact hu

end DeleteLemmas

/-! ## Claims on reject -/

namespace Backend2

theorem deleteAdminReject_eq {s : Store} {userId : ObjectId} {user : User}
    (h : findById s.users userId = some user) :
    deleteAdminReject s userId =
      (⟨200, "User request rejected and removed", none, none⟩,
        { s with users := s.users.erase user }) := by
  have h1 := findByIdAndDelete_fst s.users userId
  have h2 := findByIdAndDelete_snd_erase h
  unfold deleteAdminReject
  simp only [h1, h, h2]

theorem deleteAdminReject_none {s : Store} {userId : ObjectId}
    (h : findById s.users userId = none) :
    deleteAdminReject s userId = (⟨404, "User not found", none, none⟩, s) := by
  have h1 := findByIdAndDelete_fst s.users userId
  have h2 := findByIdAndDelete_snd_of_none h
  unfold deleteAdminReject
  simp only [h1, h, h2]

theorem findById_after_reject {s : Store} (userId : ObjectId) (hu : UniqueIds s.users) :
    findById (deleteAdminReject s userId).2.users userId = none := by
  have h := findById_after_delete userId hu
  cases hf : (findByIdAndDelete s.users userId).1 <;> simpa [deleteAdminReject, hf] using h

/-- C11 (amended): on a store with unique ids and for an existing account id, a
reject answers 200 and a second reject of the same id answers 404 and changes
nothing; a reject issued after approve of the same id does not fail: it answers
200 and removes the approved account. -/
theorem reject_after_processing (s : Store) (userId : ObjectId) (user : User)
    (h : findById s.users userId = some user) (hu : UniqueIds s.users) :
    (deleteAdminReject s userId).1 = ⟨200, "User request rejected and removed", none, none⟩ ∧
    deleteAdminReject (deleteAdminReject s userId).2 userId
      = (⟨404, "User not found", none, none⟩, (deleteAdminReject s userId).2) ∧
    (deleteAdminReject (patchAdminApprove s userId).2 userId).1
      = ⟨200, "User request rejected and removed", none, none⟩ ∧
    findById (deleteAdminReject (patchAdminApprove s userId).2 userId).2.users userId = none := by
  have hid : user._id = userId := findById_id h
  have h1 : findById (patchAdminApprove s userId).2.users userId
      = some { user with isApproved := true } := by
    rw [patchAdminApprove_eq h]
    exact findById_save h hid
  have hu1 : UniqueIds (patchAdminApprove s userId).2.users := by
    rw [patchAdminApprove_eq h]
    exact uniqueIds_save _ hu
  refine ⟨?_, ?_, ?_, ?_⟩
  · rw [deleteAdminReject_eq h]
  · exact deleteAdminReject_none (findById_after_reject userId hu)
  · rw [deleteAdminReject_eq h1]
  · exact findById_after_reject userId hu1

/-- Witness of `reject_after_processing`: account 1 of the two pending ones. -/
theorem reject_after_processing_witness :
    deleteAdminReject (deleteAdminReject pendingStore 1).2 1
      = (⟨404, "User not found", none, none⟩, (deleteAdminReject pendingStore 1).2) :=
  (reject_after_processing pendingStore 1 (sampleAccount 1 "a@x.com" "pw123456" false false)
    (by decide) (by decide)).2.1

/-- C11 as stated fails: after account 1 is approved, a reject of the same id
answers 200, not 404, and deletes the approved account. -/
theorem reject_after_approve_succeeds :
    (patchAdminApprove pendingStore 1).1.status = 200 ∧
    deleteAdminReject (patchAdminApprove pendingStore 1).2 1
      = (⟨200, "User request rejected and removed", none, none⟩,
          ⟨[sampleAccount 2 "b@x.com" "pw" false false]⟩) ∧
    (deleteAdminReject (patchAdminApprove pendingStore 1).2 1).1.status ≠ 404 := by
  decide

end Backend2

namespace Backend2

theorem findOne_erase_none {users : List User} {user : User} (hmem : user ∈ users)
    (he : UniqueEmails users) : findOne (users.erase user) user.email = none := by
  apply (findOne_none_iff _ _).2
  intro v hv hve
  have hnd : users.Nodup := List.Nodup.of_map User.email he
  have hv2 := (List.Nodup.mem_erase_iff hnd).1 hv
  exact hv2.1 (List.inj_on_of_nodup_map he hv2.2 hmem hve)

theorem postAuthLogin_no_account (H : Hasher) (t : Store) (body : Body) (email : String)
    (hb : body.email = some email) (hnone : findOne t.users email = none) :
    (postAuthLogin H t body).status = 400 ∧ (postAuthLogin H t body).token = none := by
  unfold postAuthLogin
  by_cases hg : (falsy body.email || falsy body.password) = true
  · rw [if_pos hg]
    exact ⟨rfl, rfl⟩
  · rw [if_neg hg]
    simp [hb, hnone]

/-- C12: when reject succeeds for an account (store with unique ids and unique
emails), the account is no longer in the store, the other accounts are the ones
stored before, unchanged and in the same order, and every later login with the
email of that account is answered 400 without a token: with "Invalid
credentials" for a non-empty email and password. -/
theorem reject_removes_account (H : Hasher) (s : Store) (userId : ObjectId) (user : User)
    (h : findById s.users userId = some user) (hu : UniqueIds s.users)
    (he : UniqueEmails s.users) :
    (deleteAdminReject s userId).1 = ⟨200, "User request rejected and removed", none, none⟩ ∧
    (deleteAdminReject s userId).2.users = s.users.erase user ∧
    user ∉ (deleteAdminReject s userId).2.users ∧
    findById (deleteAdminReject s userId).2.users userId = none ∧
    (∀ v ∈ s.users, v ≠ user → v ∈ (deleteAdminReject s userId).2.users) ∧
    (∀ id, id ≠ userId →
      findById (deleteAdminReject s userId).2.users id = findById s.users id) ∧
    (∀ password, user.email ≠ "" → password ≠ "" →
      postAuthLogin H (deleteAdminReject s userId).2 ⟨some user.email, some password⟩
        = ⟨400, "Invalid credentials", none, none⟩) ∧
    (∀ body, body.email = some user.email →
      (postAuthLogin H (deleteAdminReject s userId).2 body).status = 400 ∧
      (postAuthLogin H (deleteAdminReject s userId).2 body).token = none) := by
  have hmem : user ∈ s.users := List.mem_of_find?_eq_some h
  have hnd : s.users.Nodup := List.Nodup.of_map User.email he
  have hfind : findOne (deleteAdminReject s userId).2.users user.email = none := by
    rw [deleteAdminReject_eq h]
    exact findOne_erase_none hmem he
  refine ⟨?_, ?_, ?_, findById_after_reject userId hu, ?_, ?_, ?_, ?_⟩
  · rw [deleteAdminReject_eq h]
  · rw [deleteAdminReject_eq h]
  · rw [deleteAdminReject_eq h]
    exact fun c => ((List.Nodup.mem_erase_iff hnd).1 c).1 rfl
  · intro v hv hne
    rw [deleteAdminReject_eq h]
    exact (List.Nodup.mem_erase_iff hnd).2 ⟨hne, hv⟩
  · intro id hne
    have := findById_after_delete_ne s.users hne
    cases hf : (findByIdAndDelete s.users userId).1 <;> simpa [deleteAdminReject, hf] using this
  · intro password hem hpw
    rw [postAuthLogin_eq H _ user.email password hem hpw, hfind]
  · intro body hb
    exact postAuthLogin_no_account H _ body user.email hb hfind

/-- Witness of `reject_removes_account`: account 1 of the two pending ones is
rejected and then logs in with its password. -/
theorem reject_removes_account_witness :
    (deleteAdminReject pendingStore 1).2.users = [sampleAccount 2 "b@x.com" "pw" false false] ∧
    postAuthLogin tagHasher (deleteAdminReject pendingStore 1).2 ⟨some "a@x.com", some "pw123456"⟩
      = ⟨400, "Invalid credentials", none, none⟩ :=
  ⟨(reject_removes_account tagHasher pendingStore 1
      (sampleAccount 1 "a@x.com" "pw123456" false false) (by decide) (by decide) (by decide)).2.1,
    (reject_removes_account tagHasher pendingStore 1
      (sampleAccount 1 "a@x.com" "pw123456" false false) (by decide) (by decide)
      (by decide)).2.2.2.2.2.2.1 "pw123456" (by decide) (by decide)⟩

/-- C14 (amended): the account-deleting handler has no exemption for the
protected admin: called with the id of the account whose email is the protected
admin email it answers 200 and removes that account, leaving the other accounts
(store with unique ids). -/
theorem reject_deletes_protected_admin (s : Store) (userId : ObjectId) (user : User)
    (h : findById s.users userId = some user) (_hp : user.email = protectedEmail)
    (hu : UniqueIds s.users) :
    deleteAdminReject s userId
      = (⟨200, "User request rejected and removed", none, none⟩,
          { s with users := s.users.erase user }) ∧
    findById (deleteAdminReject s userId).2.users userId = none ∧
    user ∉ (deleteAdminReject s userId).2.users := by
  have hnd : s.users.Nodup := List.Nodup.of_map Doc._id hu
  refine ⟨deleteAdminReject_eq h, findById_after_reject userId hu, ?_⟩
  rw [deleteAdminReject_eq h]
  exact fun c => ((List.Nodup.mem_erase_iff hnd).1 c).1 rfl

/-- Witness of `reject_deletes_protected_admin`: the protected admin has id 9. -/
theorem reject_deletes_protected_admin_witness :
    deleteAdminReject protectedStore 9
      = (⟨200, "User request rejected and removed", none, none⟩,
          { protectedStore with
            users := protectedStore.users.erase (sampleAccount 9 protectedEmail "ayushtri" true true) }) :=
  (reject_deletes_protected_admin protectedStore 9
    (sampleAccount 9 protectedEmail "ayushtri" true true) (by decide) (by decide) (by decide)).1

/-- C14 as stated fails: a reject of the id of the protected admin account
answers 200, not 403, and the account is gone from the store. -/
theorem reject_protected_admin_not_forbidden :
    findById protectedStore.users 9 = some (sampleAccount 9 protectedEmail "ayushtri" true true) ∧
    (sampleAccount 9 protectedEmail "ayushtri" true true).email = "ayush.bhrg@gmail.com" ∧
    deleteAdminReject protectedStore 9
      = (⟨200, "User request rejected and removed", none, none⟩,
          ⟨[sampleAccount 2 "b@x.com" "pw" false false]⟩) ∧
    (deleteAdminReject protectedStore 9).1.status ≠ 403 ∧
    sampleAccount 9 protectedEmail "ayushtri" true true
      ∉ (deleteAdminReject protectedStore 9).2.users := by
  decide

end Backend2

/-! ## Claims on the gates -/

/-- The outcomes of `verifyToken`, in both backends: it answers 401 when the
token is missing (no Authorization header, or nothing left once "Bearer " is
taken out), answers 400
"Invalid token." when the token is there but does not verify (malformed,
expired, bad signature), and calls the next handler with `req.user` set to the
decoded claims exactly when the token verifies. -/
theorem verifyToken_outcomes {κ : Type} (jwtVerify : String → Option κ)
    (authorization : Option String) :
    (authorization = none →
      verifyToken jwtVerify authorization = .respond 401 "Access denied. No token provided.") ∧
    (∀ h, authorization = some h → jsReplace h "Bearer " "" = "" →
      verifyToken jwtVerify authorization = .respond 401 "Access denied. No token provided.") ∧
    (∀ h, authorization = some h → jsReplace h "Bearer " "" ≠ "" →
      jwtVerify (jsReplace h "Bearer " "") = none →
      verifyToken jwtVerify authorization = .respond 400 "Invalid token.") ∧
    (∀ c, verifyToken jwtVerify authorization = .next c ↔
      ∃ h, authorization = some h ∧ jsReplace h "Bearer " "" ≠ "" ∧
        jwtVerify (jsReplace h "Bearer " "") = some c) := by
  cases authorization with
  | none =>
    refine ⟨fun _ => rfl, fun h e => (nomatch e), fun h e => (nomatch e), fun c => ?_⟩
    constructor
    · intro e
      simp [verifyToken] at e
    · rintro ⟨h, e, _⟩
      cases e
  | some a =>
    refine ⟨fun e => (nomatch e), ?_, ?_, ?_⟩
    · intro h e he
      cases e
      simp [verifyToken, he]
    · intro h e hne hv
      cases e
      simp [verifyToken, hne, hv]
    · intro c
      by_cases hne : jsReplace a "Bearer " "" = ""
      · constructor
        · intro e
          simp [verifyToken, hne] at e
        · rintro ⟨h, e, hne2, _⟩
          cases e
          exact absurd hne hne2
      · cases hv : jwtVerify (jsReplace a "Bearer " "") with
        | none =>
          constructor
          · intro e
            simp [verifyToken, hne, hv] at e
          · rintro ⟨h, e, _, hv2⟩
            cases e
            rw [hv] at hv2
            cases hv2
        | some d =>
          constructor
          · intro e
            have hd : d = c := by simpa [verifyToken, hne, hv] using e
            exact ⟨a, rfl, hne, by rw [hv, hd]⟩
          · rintro ⟨h, e, _, hv2⟩
            cases e
            rw [hv] at hv2
            cases hv2
            simp [verifyToken, hne, hv]

/-- Witness of `verifyToken_outcomes`: a bearer token that does not verify. -/
theorem verifyToken_outcomes_witness :
    verifyToken Backend2.toyVerify (some "Bearer expired-token") = .respond 400 "Invalid token." :=
  (verifyToken_outcomes Backend2.toyVerify (some "Bearer expired-token")).2.2.1
    "Bearer expired-token" rfl (by decide) (by decide)

/-- C16, the failing run: a request with the header `Authorization: Bearer
garbage`, a token that is present but does not verify (as an expired one or one
with a bad signature), is answered 400 "Invalid token.", not 401.  The response
interceptor of the clients, which takes 401 as "Token expired or invalid", ends
the session on 401 and not on this answer. -/
theorem verifyToken_invalid_token_is_400 :
    jsReplace "Bearer garbage" "Bearer " "" = "garbage" ∧
    Backend.toyVerify "garbage" = none ∧
    verifyToken Backend.toyVerify (some "Bearer garbage") = .respond 400 "Invalid token." ∧
    interceptorEndsSession 401 = true ∧ interceptorEndsSession 400 = false ∧
    (∀ message,
      verifyToken Backend.toyVerify (some "Bearer garbage") ≠ .respond 401 message) := by
  refine ⟨by decide, by decide, by decide, by decide, by decide, ?_⟩
  intro message e
  have h : verifyToken Backend.toyVerify (some "Bearer garbage") = .respond 400 "Invalid token." := by
    decide
  rw [h] at e
  cases e

/-- C17: in both backends `verifyAdmin` answers 403 if and only if the decoded
claims do not carry the admin flag, and otherwise calls the next handler without
a response; on an admin-only route a caller whose token verifies to non-admin
claims gets 403 and the store is untouched, whatever the handler behind the
gate is. -/
theorem verifyAdmin_gate :
    (∀ user : Backend2.Claims,
      (Backend2.verifyAdmin user = .respond 403 "Access denied. Admin required." ↔
        user.isAdmin = false) ∧
      (user.isAdmin = true ↔ Backend2.verifyAdmin user = .next user)) ∧
    (∀ user : Backend.Claims,
      (Backend.verifyAdmin user = .respond 403 "Access denied. Admin required." ↔
        user.isAdmin = false) ∧
      (user.isAdmin = true ↔ Backend.verifyAdmin user = .next user)) ∧
    (∀ jwtVerify handler authorization s user,
      verifyToken jwtVerify authorization = .next user → user.isAdmin = false →
      Backend2.adminRoute jwtVerify handler authorization s
        = (⟨403, "Access denied. Admin required.", none, none⟩, s)) ∧
    (∀ jwtVerify handler authorization s user,
      verifyToken jwtVerify authorization = .next user → user.isAdmin = false →
      Backend.adminRoute jwtVerify handler authorization s
        = (⟨403, "Access denied. Admin required.", .none⟩, s)) := by
  refine ⟨?_, ?_, ?_, ?_⟩
  · intro user
    cases h : user.isAdmin <;> simp [Backend2.verifyAdmin, h]
  · intro user
    cases h : user.isAdmin <;> simp [Backend.verifyAdmin, h]
  · intro jwtVerify handler authorization s user hv ha
    simp [Backend2.adminRoute, hv, Backend2.verifyAdmin, ha]
  · intro jwtVerify handler authorization s user hv ha
    simp [Backend.adminRoute, hv, Backend.verifyAdmin, ha]

/-- Witness of `verifyAdmin_gate`: a regular user calls the reject route on the
two pending accounts. -/
theorem verifyAdmin_gate_witness :
    Backend2.adminRoute Backend2.toyVerify (fun s => Backend2.deleteAdminReject s 1)
        (some "Bearer user-token") Backend2.pendingStore
      = (⟨403, "Access denied. Admin required.", none, none⟩, Backend2.pendingStore) :=
  verifyAdmin_gate.2.2.1 Backend2.toyVerify (fun s => Backend2.deleteAdminReject s 1)
    (some "Bearer user-token") Backend2.pendingStore ⟨2, "a@x.com", false⟩ (by decide) rfl

/-! ## Claims on the admin-status handler -/

namespace Backend

/-- The guard of the admin-status handler: a falsy `isAdmin` aimed at the account
with the protected email is answered 403 and nothing is written, whatever the
cast. -/
theorem putAdminUsersAdmin_guard (cast : JsValue → Option (Option Bool)) (s : Store)
    (id : ObjectId)
    (isAdmin : JsValue) (user : User) (h : findById s.users id = some user)
    (hp : user.email = "ayush.bhrg@gmail.com") (hf : isAdmin.truthy = false) :
    putAdminUsersAdmin cast s id isAdmin
      = (⟨403, "Cannot remove admin rights from this user", .none⟩, s) := by
  simp [putAdminUsersAdmin, h, hp, hf]

/-- The admin-status handler on an id that matches no account: the TypeError is
answered 500 and nothing is written. -/
theorem putAdminUsersAdmin_missing (cast : JsValue → Option (Option Bool)) (s : Store)
    (id : ObjectId)
    (isAdmin : JsValue) (h : ∀ u ∈ s.users, u._id ≠ id) :
    putAdminUsersAdmin cast s id isAdmin = (⟨500, "Server error", .none⟩, s) := by
  have hf : findById s.users id = none := (findById_none_iff _ _).2 h
  simp [putAdminUsersAdmin, hf]

/-- The admin-status handler on the regular user 7 with a body that lacks
`isAdmin` or gives `null`: the missing value is left out of the update, so the
user is returned as stored and nothing is written; `null` is stored as it is. -/
theorem putAdminUsersAdmin_nullish :
    putAdminUsersAdmin mongooseCastBoolean adminStore 7 .undefined
      = (⟨200, "User admin status updated", .user (some (selectNoPassword (sampleUser 7 ["m1"])))⟩,
          adminStore) ∧
    findById (putAdminUsersAdmin mongooseCastBoolean adminStore 7 .null).2.users 7
      = some { sampleUser 7 ["m1"] with isAdmin := none } := by
  decide

/-- C13, the failing run: the body `{ "isAdmin": "false" }` aimed at the
protected admin.  The string is truthy, so the guard lets it through; the update
is cast to the schema type Boolean, which turns "false" into `false`: the answer
is 200 and the protected account is stored without the admin flag. -/
theorem protected_admin_loses_role_on_string_false :
    findById adminStore.users 9 = some protectedAdmin ∧
    protectedAdmin.email = "ayush.bhrg@gmail.com" ∧ protectedAdmin.isAdmin = some true ∧
    (JsValue.string "false").truthy = true ∧
    mongooseCastBoolean (.string "false") = some (some false) ∧
    (putAdminUsersAdmin mongooseCastBoolean adminStore 9 (.string "false")).1
      = ⟨200, "User admin status updated",
          .user (some (selectNoPassword { protectedAdmin with isAdmin := some false }))⟩ ∧
    findById (putAdminUsersAdmin mongooseCastBoolean adminStore 9 (.string "false")).2.users 9
      = some { protectedAdmin with isAdmin := some false } := by
  decide

/-- C15, the failing run: id 5 matches no account of the store; the handler
answers 500 "Server error", not 404, and writes nothing. -/
theorem admin_status_missing_id_is_500 :
    findById adminStore.users 5 = none ∧
    putAdminUsersAdmin mongooseCastBoolean adminStore 5 (.bool true)
      = (⟨500, "Server error", .none⟩, adminStore) ∧
    (putAdminUsersAdmin mongooseCastBoolean adminStore 5 (.bool true)).1.status ≠ 404 := by
  decide

end Backend

/-! ## Claims on the creation handlers -/

namespace Backend

theorem postReviews_accepts (s : Store) (user : Claims) (movieId movieTitle content : String)
    (rating : Int) (rest : List (String × JsValue)) (newId : ObjectId) (now : Nat)
    (h1 : movieId ≠ "") (h2 : movieTitle ≠ "") (h3 : content ≠ "") (h4 : 1 ≤ rating)
    (h5 : rating ≤ 10) (h6 : ∀ r ∈ s.reviews, ¬ (r.movieId = movieId ∧ r.user = user.userId)) :
    postReviews s user ⟨some movieId, some movieTitle, some rating, some content, rest⟩ newId now
      = (⟨201, "Review created successfully",
            .review (Review.mk newId movieId movieTitle user.userId rating.toNat content [] true
              now)⟩,
          { s with
            reviews := s.reviews ++
              [Review.mk newId movieId movieTitle user.userId rating.toNat content [] true now] }) := by
  have hg : ¬ (!truthyStr (some movieId) || !truthyStr (some movieTitle)
      || (some rating).getD 0 == 0 || !truthyStr (some content)) = true := by
    have h0 : rating ≠ 0 := by omega
    simp [truthyStr, h1, h2, h3, h0]
  have hfind : s.reviews.find? (fun r => r.movieId == movieId && r.user == user.userId)
      = none := by
    apply List.find?_eq_none.2
    intro r hr
    simpa using h6 r hr
  have hv : ¬ (rating < 1 ∨ rating > 10) := by omega
  unfold postReviews
  rw [if_neg hg]
  dsimp only [Option.getD]
  rw [hfind]
  dsimp only
  rw [if_neg hv]
  rfl

theorem postReviews_created_iff (s : Store) (user : Claims) (body : ReviewBody) (newId : ObjectId)
    (now : Nat) :
    (postReviews s user body newId now).1.status = 201 ↔
      (truthyStr body.movieId = true ∧ truthyStr body.movieTitle = true ∧
        truthyStr body.content = true ∧ 1 ≤ body.rating.getD 0 ∧ body.rating.getD 0 ≤ 10 ∧
        ∀ r ∈ s.reviews, ¬ (r.movieId = body.movieId.getD "" ∧ r.user = user.userId)) := by
  unfold postReviews
  by_cases hg : (!truthyStr body.movieId || !truthyStr body.movieTitle
      || body.rating.getD 0 == 0 || !truthyStr body.content) = true
  · rw [if_pos hg]
    constructor
    · intro h
      simp at h
    · rintro ⟨a, b, c, d, -, -⟩
      exfalso
      simp [a, b, c] at hg
      omega
  · rw [if_neg hg]
    dsimp only
    have hg2 : truthyStr body.movieId = true ∧ truthyStr body.movieTitle = true ∧
        truthyStr body.content = true ∧ body.rating.getD 0 ≠ 0 := by
      simpa [and_assoc, and_comm, and_left_comm] using hg
    cases hfind : s.reviews.find?
        (fun r => r.movieId == body.movieId.getD "" && r.user == user.userId) with
    | some r0 =>
      dsimp only
      constructor
      · intro h
        simp at h
      · rintro ⟨-, -, -, -, -, f⟩
        exfalso
        have hmem := List.mem_of_find?_eq_some hfind
        have hp := List.find?_some hfind
        exact f r0 hmem (by simpa using hp)
    | none =>
      dsimp only
      have hnone := List.find?_eq_none.1 hfind
      by_cases hv : body.rating.getD 0 < 1 ∨ body.rating.getD 0 > 10
      · rw [if_pos hv]
        constructor
        · intro h
          simp at h
        · rintro ⟨-, -, -, d, e, -⟩
          omega
      · rw [if_neg hv]
        constructor
        · intro _
          refine ⟨hg2.1, hg2.2.1, hg2.2.2.1, by omega, by omega, ?_⟩
          intro r hr
          simpa using hnone r hr
        · intro _
          rfl

theorem postBlogs_created_iff (s : Store) (user : Claims) (body : BlogBody) (file : Option String)
    (newId : ObjectId) (now : Nat) :
    (postBlogs s user body file newId now).1.status = 201 ↔
      (truthyStr body.title = true ∧ truthyStr body.content = true ∧
        jsTrim (body.title.getD "") ≠ "" ∧ jsTrim (body.content.getD "") ≠ "") := by
  unfold postBlogs
  by_cases hg : (!truthyStr body.title || !truthyStr body.content) = true
  · rw [if_pos hg]
    constructor
    · intro h
      simp at h
    · rintro ⟨a, b, -, -⟩
      simp [a, b] at hg
  · rw [if_neg hg]
    dsimp only
    have hg2 : truthyStr body.title = true ∧ truthyStr body.content = true := by
      simpa using hg
    by_cases hv : jsTrim (body.title.getD "") = "" ∨ jsTrim (body.content.getD "") = ""
    · rw [if_pos hv]
      constructor
      · intro h
        simp at h
      · rintro ⟨-, -, c, d⟩
        rcases hv with hv | hv
        · exact absurd hv c
        · exact absurd hv d
    · rw [if_neg hv]
      constructor
      · intro _
        exact ⟨hg2.1, hg2.2, fun e => hv (Or.inl e), fun e => hv (Or.inr e)⟩
      · intro _
        rfl

/-- C18: `POST /api/blogs` accepts (201) exactly the bodies whose title and
content are not empty once trimmed, and `POST /api/reviews` exactly the bodies
with a movie id, a movie title, a content, a rating from 1 to 10 and no stored
review of the caller for that movie, storing the review with
`isApproved = true` and no likes.  Whenever one of the two answers 201, the store is the old one with exactly one
document appended, that document is the one in the response, and it has
`isApproved = true` and no likes; the answer and the stored document do not
depend on any other key of the body (`rest`). -/
theorem created_content_is_published (s : Store) (user : Claims) (newId : ObjectId) (now : Nat) :
    (∀ body file,
      (postBlogs s user body file newId now).1.status = 201 ↔
        (truthyStr body.title = true ∧ truthyStr body.content = true ∧
          jsTrim (body.title.getD "") ≠ "" ∧ jsTrim (body.content.getD "") ≠ "")) ∧
    (∀ movieId movieTitle content rating rest, movieId ≠ "" → movieTitle ≠ "" → content ≠ "" →
      1 ≤ rating → rating ≤ 10 →
      (∀ r ∈ s.reviews, ¬ (r.movieId = movieId ∧ r.user = user.userId)) →
      postReviews s user ⟨some movieId, some movieTitle, some rating, some content, rest⟩ newId now
        = (⟨201, "Review created successfully",
              .review (Review.mk newId movieId movieTitle user.userId rating.toNat content [] true
                now)⟩,
            { s with
              reviews := s.reviews ++
                [Review.mk newId movieId movieTitle user.userId rating.toNat content [] true
                  now] })) ∧
    (∀ body,
      (postReviews s user body newId now).1.status = 201 ↔
        (truthyStr body.movieId = true ∧ truthyStr body.movieTitle = true ∧
          truthyStr body.content = true ∧ 1 ≤ body.rating.getD 0 ∧ body.rating.getD 0 ≤ 10 ∧
          ∀ r ∈ s.reviews, ¬ (r.movieId = body.movieId.getD "" ∧ r.user = user.userId))) ∧
    (∀ body file, (postBlogs s user body file newId now).1.status = 201 →
      ∃ blog, (postBlogs s user body file newId now).2 = { s with blogs := s.blogs ++ [blog] } ∧
        (postBlogs s user body file newId now).1.payload = .blog blog ∧
        blog.isApproved = true ∧ blog.likes = [] ∧ blog.comments = [] ∧
        blog._id = newId ∧ blog.author = user.userId) ∧
    (∀ body, (postReviews s user body newId now).1.status = 201 →
      ∃ review,
        (postReviews s user body newId now).2 = { s with reviews := s.reviews ++ [review] } ∧
        (postReviews s user body newId now).1.payload = .review review ∧
        review.isApproved = true ∧ review.likes = [] ∧
        review._id = newId ∧ review.user = user.userId) ∧
    (∀ body file rest,
      postBlogs s user { body with rest := rest } file newId now
        = postBlogs s user body file newId now) ∧
    (∀ body rest,
      postReviews s user { body with rest := rest } newId now
        = postReviews s user body newId now) := by
  refine ⟨fun body file => postBlogs_created_iff s user body file newId now,
    fun movieId movieTitle content rating rest h1 h2 h3 h4 h5 h6 =>
      postReviews_accepts s user movieId movieTitle content rating rest newId now h1 h2 h3 h4 h5 h6,
    fun body => postReviews_created_iff s user body newId now,
    ?_, ?_, fun _ _ _ => rfl, fun _ _ => rfl⟩
  · intro body file h
    unfold postBlogs at h ⊢
    by_cases hg : (!truthyStr body.title || !truthyStr body.content) = true
    · rw [if_pos hg] at h
      simp at h
    · rw [if_neg hg] at h ⊢
      dsimp only at h ⊢
      split at h
      · simp at h
      · rename_i hv
        rw [if_neg hv]
        exact ⟨_, rfl, rfl, rfl, rfl, rfl, rfl, rfl⟩
  · intro body h
    unfold postReviews at h ⊢
    by_cases hg : (!truthyStr body.movieId || !truthyStr body.movieTitle
        || body.rating.getD 0 == 0 || !truthyStr body.content) = true
    · rw [if_pos hg] at h
      simp at h
    · rw [if_neg hg] at h ⊢
      dsimp only at h ⊢
      split at h
      · simp at h
      · split at h
        · simp at h
        · rename_i hv
          rw [if_neg hv]
          exact ⟨_, rfl, rfl, rfl, rfl, rfl, rfl⟩

/-- Witness of `created_content_is_published`: user 7 reviews the movie "m1",
which only user 1 has reviewed, with a body that also carries
`isApproved: false`; and a blog body that also carries `isApproved: false` and
a list of likes. -/
theorem created_content_is_published_witness :
    postReviews (sampleStore [] [3] []) userClaims
        ⟨some "m1", some "M", some 8, some "fine", [("isApproved", .bool false)]⟩ 5 0
      = (⟨201, "Review created successfully",
            .review (Review.mk 5 "m1" "M" 7 8 "fine" [] true 0)⟩,
          { sampleStore [] [3] [] with
            reviews := [sampleReview 2 [], Review.mk 5 "m1" "M" 7 8 "fine" [] true 0] }) ∧
    ∃ blog,
      (postBlogs (sampleStore [] [3] []) userClaims
          ⟨some " T ", some "c", some "a, b,,c ", none,
            [("isApproved", .bool false), ("likes", .string "9")]⟩ none 5 0).2
        = { sampleStore [] [3] [] with blogs := (sampleStore [] [3] []).blogs ++ [blog] } ∧
      (postBlogs (sampleStore [] [3] []) userClaims
          ⟨some " T ", some "c", some "a, b,,c ", none,
            [("isApproved", .bool false), ("likes", .string "9")]⟩ none 5 0).1.payload
        = .blog blog ∧
      blog.isApproved = true ∧ blog.likes = [] ∧ blog.comments = [] ∧
      blog._id = 5 ∧ blog.author = userClaims.userId :=
  ⟨(created_content_is_published (sampleStore [] [3] []) userClaims 5 0).2.1
      "m1" "M" "fine" 8 [("isApproved", .bool false)] (by decide) (by decide) (by decide)
      (by decide) (by decide) (by decide),
    (created_content_is_published (sampleStore [] [3] []) userClaims 5 0).2.2.2.1
      ⟨some " T ", some "c", some "a, b,,c ", none,
        [("isApproved", .bool false), ("likes", .string "9")]⟩ none (by decide)⟩

end Backend

/-! ## Claims on provider failures -/

namespace Backend

/-- C19 (amended): a failure of the movie provider is caught where it occurs and
the request still succeeds.  `GET /api/search` with a non-blank `q` answers 200
with an empty movie list (when the movie search is asked for) and
`GET /api/users/profile/complete` for an existing user answers 200 with an empty
`watchlistMovies`; neither answers 500. -/
theorem provider_failure_gives_empty_success (toLowerCase : String → String)
    (findBlogs : List Blog → String → Option (List Blog)) (s : Store) :
    (∀ q type, truthyStr q = true → jsTrim (q.getD "") ≠ "" →
      ∃ blogs,
        getSearch toLowerCase findBlogs none s q type
          = ⟨200, "",
              .search (if !truthyStr type || type == some "movies" then some [] else none)
                blogs⟩) ∧
    (∀ user doc, findById s.users user.userId = some doc →
      ∃ blogs reviews,
        getUsersProfileComplete none s user
          = ⟨200, "", .profile (selectNoPassword doc) blogs reviews []⟩) := by
  constructor
  · intro q type hq ht
    have hg : ¬ (!truthyStr q || jsTrim (q.getD "") == "") = true := by
      simp [hq, ht]
    unfold getSearch
    rw [if_neg hg]
    dsimp only
    by_cases hm : (!truthyStr type || type == some "movies") = true
    · rw [if_pos hm]
      exact ⟨_, rfl⟩
    · rw [if_neg hm]
      exact ⟨_, rfl⟩
  · intro user doc hf
    unfold getUsersProfileComplete
    rw [hf]
    dsimp only
    by_cases hw : doc.watchlist.length > 0
    · rw [if_pos hw]
      exact ⟨_, _, rfl⟩
    · rw [if_neg hw]
      exact ⟨_, _, rfl⟩

/-- Witness of `provider_failure_gives_empty_success`: a search for "heat" while
the provider is down. -/
theorem provider_failure_gives_empty_success_witness :
    ∃ blogs,
      getSearch id (fun _ _ => some []) none adminStore (some "heat") none
        = ⟨200, "",
            .search (if !truthyStr none || (none : Option String) == some "movies" then some []
              else none) blogs⟩ :=
  (provider_failure_gives_empty_success id (fun _ _ => some []) adminStore).1
    (some "heat") none (by decide) (by decide)

/-- C19 as stated fails: with the provider down, the search for "heat" and the
complete profile of user 7 (watchlist `["m1"]`) both answer 200 with empty movie
lists, not 500. -/
theorem provider_failure_is_swallowed :
    getSearch id (fun _ _ => some []) none adminStore (some "heat") none
      = ⟨200, "", .search (some []) (some [])⟩ ∧
    getUsersProfileComplete none adminStore userClaims
      = ⟨200, "", .profile (selectNoPassword (sampleUser 7 ["m1"])) [] [] []⟩ ∧
    (getSearch id (fun _ _ => some []) none adminStore (some "heat") none).status ≠ 500 ∧
    (getUsersProfileComplete none adminStore userClaims).status ≠ 500 := by
  decide

end Backend

/-! ## Claims on concurrent toggles -/

namespace Backend

theorem toggleChange_applyTo_loaded {α : Type} [DecidableEq α] (xs : List α) (x : α) :
    (toggleChange xs x).applyTo xs = toggled xs x := by
  unfold toggleChange toggled
  by_cases hm : x ∈ xs
  · have hi := (indexOf_gt_iff_mem xs x).2 hm
    simp [hi, hm, ArrayChange.applyTo, splice_indexOf_eq_erase _ _ hm]
  · have hi : ¬ indexOf xs x > -1 := fun c => hm ((indexOf_gt_iff_mem _ _).1 c)
    simp [hi, hm, ArrayChange.applyTo]

theorem toggleChange_of_mem {α : Type} [DecidableEq α] (xs : List α) (x : α) (hm : x ∈ xs) :
    toggleChange xs x = .replaced (xs.erase x) := by
  unfold toggleChange
  have hi := (indexOf_gt_iff_mem xs x).2 hm
  simp [hi, splice_indexOf_eq_erase _ _ hm]

theorem toggleChange_of_not_mem {α : Type} [DecidableEq α] (xs : List α) (x : α)
    (hm : x ∉ xs) : toggleChange xs x = .pushed x := by
  unfold toggleChange
  have hi : ¬ indexOf xs x > -1 := fun c => hm ((indexOf_gt_iff_mem _ _).1 c)
  simp [hi]

theorem likeWrite_eq {s : Store} {id : ObjectId} {stored : Blog} (loaded : Blog) (u : ObjectId)
    (h : findById s.blogs id = some stored) (hid : loaded._id = id) :
    likeWrite s loaded u
      = { s with
          blogs := save s.blogs
            { stored with likes := (toggleChange loaded.likes u).applyTo stored.likes } } := by
  simp [likeWrite, findByIdAndUpdate, hid, h]

theorem likeWrite_loaded {s : Store} {id : ObjectId} {blog : Blog} (u : ObjectId)
    (h : findById s.blogs id = some blog) :
    likeWrite s blog u = (putBlogLike s id u).2 := by
  rw [likeWrite_eq blog u h (findById_id h), putBlogLike_eq u h, toggleChange_applyTo_loaded]

/-- C20 (amended): the like handler is a read (`findById`) followed by a
separate write (`save`), not one atomic update.  For an existing blog whose
likes hold `u` at most once: the handler is the read and the write run back to
back; two like requests by `u` run one after the other restore the membership of
`u`; but when both requests read before either writes, the second write works
from the stale read and one toggle is lost: the final membership of `u` is the
flipped one. -/
theorem like_race_loses_update (s : Store) (id u : ObjectId) (blog : Blog)
    (h : findById s.blogs id = some blog) (hc : blog.likes.count u ≤ 1) :
    likeRead s id = some blog ∧
    likeWrite s blog u = (putBlogLike s id u).2 ∧
    likeTwiceInTurn s id u = (putBlogLike (putBlogLike s id u).2 id u).2 ∧
    (∃ last, findById (likeTwiceInTurn s id u).blogs id = some last ∧
      (u ∈ last.likes ↔ u ∈ blog.likes)) ∧
    (∃ last, findById (likeTwiceInterleaved s id u).blogs id = some last ∧
      (u ∈ last.likes ↔ u ∉ blog.likes)) := by
  have hid : blog._id = id := findById_id h
  have hw1 : likeWrite s blog u = (putBlogLike s id u).2 := by
    rw [likeWrite_eq blog u h hid, putBlogLike_eq u h, toggleChange_applyTo_loaded]
  have hf1 : findById (putBlogLike s id u).2.blogs id
      = some { blog with likes := toggled blog.likes u } := putBlogLike_find u h
  have hturn : likeTwiceInTurn s id u = (putBlogLike (putBlogLike s id u).2 id u).2 := by
    unfold likeTwiceInTurn likeRead
    rw [h]
    dsimp only
    rw [hw1, hf1]
    dsimp only
    have hid2 : ({ blog with likes := toggled blog.likes u } : Blog)._id = id := hid
    rw [likeWrite_eq _ u hf1 hid2, putBlogLike_eq u hf1, toggleChange_applyTo_loaded]
  refine ⟨h, hw1, hturn, ?_, ?_⟩
  · rw [hturn]
    refine ⟨_, putBlogLike_find u hf1, ?_⟩
    show u ∈ toggled (toggled blog.likes u) u ↔ u ∈ blog.likes
    rw [mem_toggled_self _ _ (count_toggled_self _ _ hc), mem_toggled_self _ _ hc]
    exact not_not
  · unfold likeTwiceInterleaved likeRead likeWriteStale
    rw [h]
    dsimp only
    by_cases hm : u ∈ blog.likes
    · rw [toggleChange_of_mem _ _ hm]
      dsimp only
      rw [hw1]
      refine ⟨_, hf1, ?_⟩
      show u ∈ toggled blog.likes u ↔ u ∉ blog.likes
      exact mem_toggled_self _ _ hc
    · rw [toggleChange_of_not_mem _ _ hm]
      dsimp only
      rw [hw1, likeWrite_eq blog u hf1 hid]
      refine ⟨_, findById_save hf1 hid, ?_⟩
      show u ∈ (toggleChange blog.likes u).applyTo (toggled blog.likes u) ↔ u ∉ blog.likes
      rw [toggleChange_of_not_mem _ _ hm]
      simp [ArrayChange.applyTo, hm]

/-- Witness of `like_race_loses_update`: user 7 likes blog 1, liked by 3, twice
at once. -/
theorem like_race_loses_update_witness :
    ∃ last, findById (likeTwiceInterleaved (sampleStore [] [3] []) 1 7).blogs 1 = some last ∧
      (7 ∈ last.likes ↔ 7 ∉ (sampleBlog 1 [3]).likes) :=
  (like_race_loses_update (sampleStore [] [3] []) 1 7 (sampleBlog 1 [3])
    (by decide) (by decide)).2.2.2.2

/-- C20 as stated fails: user 7 likes blog 1 (liked by 3) in two requests that
both read before either writes.  Both push 7, so the stored list is `[3, 7, 7]`
and 7 is a member, while the two toggles applied one after the other (the two
orders coincide) leave `[3]`, without 7. -/
theorem interleaved_likes_lose_a_toggle :
    (likeTwiceInterleaved (sampleStore [] [3] []) 1 7).blogs = [sampleBlog 1 [3, 7, 7]] ∧
    (likeTwiceInTurn (sampleStore [] [3] []) 1 7).blogs = [sampleBlog 1 [3]] ∧
    (putBlogLike (putBlogLike (sampleStore [] [3] []) 1 7).2 1 7).2.blogs = [sampleBlog 1 [3]] ∧
    7 ∈ (sampleBlog 1 [3, 7, 7]).likes ∧ 7 ∉ (sampleBlog 1 [3]).likes := by
  decide

end Backend

/-! ## Frame and invariants of the toggles -/

section ToggleFrame

variable {α : Type} [DecidableEq α]

theorem filter_ne_erase (xs : List α) (x : α) :
    (xs.erase x).filter (fun v => v != x) = xs.filter (fun v => v != x) := by
  induction xs with
  | nil => rfl
  | cons y ys ih =>
    by_cases hy : y = x
    · subst hy
      simp
    · have hb : (y == x) = false := by simpa using hy
      simp [List.erase_cons, hb, hy, ih]

theorem filter_ne_toggled (xs : List α) (x : α) :
    (toggled xs x).filter (fun v => v != x) = xs.filter (fun v => v != x) := by
  unfold toggled
  by_cases hm : x ∈ xs
  · rw [if_pos hm, filter_ne_erase]
  · rw [if_neg hm]
    simp

theorem count_toggled_other (xs : List α) {x v : α} (hv : v ≠ x) :
    (toggled xs x).count v = xs.count v := by
  unfold toggled
  by_cases hm : x ∈ xs
  · rw [if_pos hm, List.count_erase_of_ne hv]
  · rw [if_neg hm, List.count_append]
    have : List.count v [x] = 0 := List.count_eq_zero.2 (by simpa using hv)
    omega

theorem mem_toggled_other (xs : List α) {x v : α} (hv : v ≠ x) :
    v ∈ toggled xs x ↔ v ∈ xs := by
  rw [← List.count_pos_iff, ← List.count_pos_iff, count_toggled_other xs hv]

theorem nodup_toggled (xs : List α) (x : α) (h : xs.Nodup) : (toggled xs x).Nodup := by
  unfold toggled
  by_cases hm : x ∈ xs
  · rw [if_pos hm]
    exact h.erase x
  · rw [if_neg hm]
    exact List.Nodup.append h (List.nodup_singleton x) (by simpa using hm)

end ToggleFrame

theorem mem_save {α : Type} [Doc α] {docs : List α} {doc d : α} (h : d ∈ save docs doc) :
    d ∈ docs ∨ d = doc := by
  induction docs with
  | nil => simp [save] at h
  | cons e es ih =>
    by_cases he : Doc._id e = Doc._id doc
    · simp only [save, he, if_true] at h
      rcases List.mem_cons.1 h with h1 | h1
      · exact Or.inr h1
      · exact Or.inl (List.mem_cons_of_mem _ h1)
    · simp only [save, he, if_false] at h
      rcases List.mem_cons.1 h with h1 | h1
      · exact Or.inl (h1 ▸ List.mem_cons_self _ _)
      · rcases ih h1 with h2 | h2
        · exact Or.inl (List.mem_cons_of_mem _ h2)
        · exact Or.inr h2

namespace Backend

/-- C27: a like toggle by `u` on an existing blog changes only the entry of `u`
in the likes of that blog.  For every other user the membership and the number
of entries are as before, the other entries keep their order, and the title,
content, author, image, tags, comments, approval flag and creation time of the
blog, every other blog, the users and the reviews are unchanged. -/
theorem like_toggle_frame (s : Store) (id u : ObjectId) (blog : Blog)
    (h : findById s.blogs id = some blog) :
    ∃ after, findById (putBlogLike s id u).2.blogs id = some after ∧
      (∀ v, v ≠ u → (v ∈ after.likes ↔ v ∈ blog.likes)) ∧
      (∀ v, v ≠ u → after.likes.count v = blog.likes.count v) ∧
      after.likes.filter (fun v => v != u) = blog.likes.filter (fun v => v != u) ∧
      after._id = blog._id ∧ after.title = blog.title ∧ after.content = blog.content ∧
      after.author = blog.author ∧ after.image = blog.image ∧ after.tags = blog.tags ∧
      after.comments = blog.comments ∧ after.isApproved = blog.isApproved ∧
      after.createdAt = blog.createdAt ∧
      (∀ other, other ≠ id →
        findById (putBlogLike s id u).2.blogs other = findById s.blogs other) ∧
      (putBlogLike s id u).2.users = s.users ∧ (putBlogLike s id u).2.reviews = s.reviews := by
  have hid : blog._id = id := findById_id h
  refine ⟨_, putBlogLike_find u h, fun v hv => mem_toggled_other _ hv,
    fun v hv => count_toggled_other _ hv, filter_ne_toggled _ _, rfl, rfl, rfl, rfl, rfl, rfl,
    rfl, rfl, rfl, ?_, ?_, ?_⟩
  · intro other hne
    rw [putBlogLike_eq u h]
    exact findById_save_ne s.blogs _ other (by rw [← hid] at hne; exact hne)
  · rw [putBlogLike_eq u h]
  · rw [putBlogLike_eq u h]

/-- Witness of `like_toggle_frame`: user 7 unlikes blog 1, liked by 3, 7
and 4. -/
theorem like_toggle_frame_witness :
    (putBlogLike (sampleStore ["m1"] [3, 7, 4] [5]) 1 7).2
      = sampleStore ["m1"] [3, 4] [5] ∧
    ∃ after, findById (putBlogLike (sampleStore ["m1"] [3, 7, 4] [5]) 1 7).2.blogs 1 = some after ∧
      (∀ v, v ≠ 7 → (v ∈ after.likes ↔ v ∈ (sampleBlog 1 [3, 7, 4]).likes)) :=
  ⟨by decide,
    (like_toggle_frame (sampleStore ["m1"] [3, 7, 4] [5]) 1 7 (sampleBlog 1 [3, 7, 4])
      (by decide)).elim (fun after hafter => ⟨after, hafter.1, hafter.2.1⟩)⟩

end Backend

namespace Backend

theorem duplicateFree_putBlogLike (s : Store) (id u : ObjectId) (h : DuplicateFree s) :
    DuplicateFree (putBlogLike s id u).2 := by
  cases hf : findById s.blogs id with
  | none =>
    have : putBlogLike s id u = (⟨404, "Blog not found", .none⟩, s) := by
      simp [putBlogLike, hf]
    rw [this]
    exact h
  | some blog =>
    rw [putBlogLike_eq u hf]
    refine ⟨?_, h.2.1, h.2.2⟩
    intro b hb
    rcases mem_save hb with h1 | h1
    · exact h.1 b h1
    · rw [h1]
      exact nodup_toggled _ _ (h.1 blog (List.mem_of_find?_eq_some hf))

theorem duplicateFree_putReviewLike (s : Store) (id u : ObjectId) (h : DuplicateFree s) :
    DuplicateFree (putReviewLike s id u).2 := by
  cases hf : findById s.reviews id with
  | none =>
    have : putReviewLike s id u = (⟨404, "Review not found", .none⟩, s) := by
      simp [putReviewLike, hf]
    rw [this]
    exact h
  | some review =>
    rw [putReviewLike_eq u hf]
    refine ⟨h.1, ?_, h.2.2⟩
    intro r hr
    rcases mem_save hr with h1 | h1
    · exact h.2.1 r h1
    · rw [h1]
      exact nodup_toggled _ _ (h.2.1 review (List.mem_of_find?_eq_some hf))

theorem duplicateFree_putWatchlist (s : Store) (m : String) (u : ObjectId)
    (h : DuplicateFree s) : DuplicateFree (putWatchlist s m u).2 := by
  cases hf : findById s.users u with
  | none =>
    have : putWatchlist s m u = (⟨404, "User not found", .none⟩, s) := by
      simp [putWatchlist, hf]
    rw [this]
    exact h
  | some user =>
    rw [putWatchlist_eq m hf]
    refine ⟨h.1, h.2.1, ?_⟩
    intro v hv
    rcases mem_save hv with h1 | h1
    · exact h.2.2 v h1
    · rw [h1]
      exact nodup_toggled _ _ (h.2.2 user (List.mem_of_find?_eq_some hf))

theorem duplicateFree_applyToggles (requests : List ToggleRequest) :
    ∀ s : Store, DuplicateFree s → DuplicateFree (applyToggles s requests) := by
  induction requests with
  | nil => exact fun s h => h
  | cons r rs ih =>
    intro s h
    have hstep : DuplicateFree (applyToggle s r) := by
      cases r with
      | blogLike id u => exact duplicateFree_putBlogLike s id u h
      | reviewLike id u => exact duplicateFree_putReviewLike s id u h
      | watchlist m u => exact duplicateFree_putWatchlist s m u h
    exact ih _ hstep

/-- C28 (amended): a toggle keeps a list free of duplicates.  If the likes of
the blog (resp. review, resp. the watchlist of the user) hold no id twice before
the toggle, the saved list holds none twice after it; the like handler is its
load followed at once by its save; and from a store whose likes lists and
watchlists are duplicate-free (in particular all empty), every store reached by
toggle requests served one after the other has only duplicate-free lists, each
as long as its number of distinct members. -/
theorem toggle_preserves_duplicate_freeness (s : Store) :
    (∀ id u blog, findById s.blogs id = some blog →
      likeRead s id = some blog ∧ likeWrite s blog u = (putBlogLike s id u).2) ∧
    (∀ id u blog, findById s.blogs id = some blog → blog.likes.Nodup →
      ∃ after, findById (putBlogLike s id u).2.blogs id = some after ∧ after.likes.Nodup) ∧
    (∀ id u review, findById s.reviews id = some review → review.likes.Nodup →
      ∃ after, findById (putReviewLike s id u).2.reviews id = some after ∧ after.likes.Nodup) ∧
    (∀ m u user, findById s.users u = some user → user.watchlist.Nodup →
      ∃ after, findById (putWatchlist s m u).2.users u = some after ∧ after.watchlist.Nodup) ∧
    (∀ requests, DuplicateFree s →
      DuplicateFree (applyToggles s requests) ∧
      (∀ b ∈ (applyToggles s requests).blogs, b.likes.length = b.likes.toFinset.card) ∧
      (∀ r ∈ (applyToggles s requests).reviews, r.likes.length = r.likes.toFinset.card) ∧
      (∀ v ∈ (applyToggles s requests).users,
        v.watchlist.length = v.watchlist.toFinset.card)) := by
  refine ⟨fun id u blog h => ⟨h, likeWrite_loaded u h⟩, ?_, ?_, ?_, ?_⟩
  · intro id u blog h hn
    exact ⟨_, putBlogLike_find u h, nodup_toggled _ _ hn⟩
  · intro id u review h hn
    exact ⟨_, putReviewLike_find u h, nodup_toggled _ _ hn⟩
  · intro m u user h hn
    exact ⟨_, putWatchlist_find m h, nodup_toggled _ _ hn⟩
  · intro requests h
    have hd := duplicateFree_applyToggles requests s h
    exact ⟨hd, fun b hb => (List.toFinset_card_of_nodup (hd.1 b hb)).symm,
      fun r hr => (List.toFinset_card_of_nodup (hd.2.1 r hr)).symm,
      fun v hv => (List.toFinset_card_of_nodup (hd.2.2 v hv)).symm⟩

/-- Witness of `toggle_preserves_duplicate_freeness`: six toggle requests on a
store whose lists are empty. -/
theorem toggle_preserves_duplicate_freeness_witness :
    DuplicateFree (applyToggles (sampleStore [] [] [])
      [.blogLike 1 7, .blogLike 1 3, .blogLike 1 7, .watchlist "m1" 7, .reviewLike 2 7,
        .blogLike 1 7]) ∧
    (applyToggles (sampleStore [] [] [])
      [.blogLike 1 7, .blogLike 1 3, .blogLike 1 7, .watchlist "m1" 7, .reviewLike 2 7,
        .blogLike 1 7]) = sampleStore ["m1"] [3, 7] [7] :=
  ⟨((toggle_preserves_duplicate_freeness (sampleStore [] [] [])).2.2.2.2
      [.blogLike 1 7, .blogLike 1 3, .blogLike 1 7, .watchlist "m1" 7, .reviewLike 2 7,
        .blogLike 1 7]
      ⟨by decide, by decide, by decide⟩).1,
    by decide⟩

/-- C28 as stated fails: blog 1 has the empty likes list and user 7 likes it in
two requests that both load the blog before either saves.  Both find 7 absent
and push it, and a pushed element is saved whatever was saved in between: the
stored list `[7, 7]`, reached from the empty list by toggles alone, holds 7
twice, and its length 2 is not its number of distinct members, 1. -/
theorem interleaved_toggles_store_a_duplicate :
    DuplicateFree (sampleStore [] [] []) ∧
    likeRead (sampleStore [] [] []) 1 = some (sampleBlog 1 []) ∧
    toggleChange (sampleBlog 1 []).likes 7 = .pushed 7 ∧
    likeTwiceInterleaved (sampleStore [] [] []) 1 7 = sampleStore [] [7, 7] [] ∧
    ¬ (sampleBlog 1 [7, 7]).likes.Nodup ∧
    ¬ DuplicateFree (likeTwiceInterleaved (sampleStore [] [] []) 1 7) ∧
    (sampleBlog 1 [7, 7]).likes.length = 2 ∧
    (sampleBlog 1 [7, 7]).likes.toFinset.card = 1 := by
  refine ⟨⟨by decide, by decide, by decide⟩, by decide, by decide, by decide, by decide, ?_,
    by decide, by decide⟩
  intro h
  exact absurd (h.1 (sampleBlog 1 [7, 7]) (by decide)) (by decide)

end Backend

/-! ## Claims on comments -/

namespace Backend

/-- The comment-deletion handler answers 200 or 400, never 404. -/
theorem deleteAdminComments_status (s : Store) (commentId : ObjectId) (type : Option String)
    (parentId : ObjectId) :
    (deleteAdminComments s commentId type parentId).1.status = 200 ∨
      (deleteAdminComments s commentId type parentId).1.status = 400 := by
  unfold deleteAdminComments
  by_cases h1 : type = some "blog"
  · rw [if_pos h1]
    exact Or.inl rfl
  · rw [if_neg h1]
    by_cases h2 : type = some "review"
    · rw [if_pos h2]
      exact Or.inl rfl
    · rw [if_neg h2]
      exact Or.inr rfl

/-- C21, the failing runs: deleting comment 11 under the parent id 5, which
matches no blog, deleting comment 99, which blog 1 does not have, and deleting
comment 11 under a review all answer 200 "Comment deleted successfully" and
leave the store as it was; none answers 404. -/
theorem comment_delete_succeeds_on_absent_target :
    findById commentedStore.blogs 5 = none ∧
    deleteAdminComments commentedStore 11 (some "blog") 5
      = (⟨200, "Comment deleted successfully", .none⟩, commentedStore) ∧
    deleteAdminComments commentedStore 99 (some "blog") 1
      = (⟨200, "Comment deleted successfully", .none⟩, commentedStore) ∧
    deleteAdminComments commentedStore 11 (some "review") 2
      = (⟨200, "Comment deleted successfully", .none⟩, commentedStore) ∧
    (deleteAdminComments commentedStore 11 (some "blog") 5).1.status ≠ 404 := by
  decide

theorem postBlogComments_eq {s : Store} {id : ObjectId} {blog : Blog} (user : Claims)
    (text : String) (newId : ObjectId) (now : Nat) (ht : text ≠ "")
    (h : findById s.blogs id = some blog) :
    postBlogComments s user id (some text) newId now =
      (⟨201, "Comment added successfully", .comment (some (Comment.mk newId user.userId text now))⟩,
        { s with
          blogs := save s.blogs
            { blog with comments := blog.comments ++ [Comment.mk newId user.userId text now] } }) := by
  have hg : (!truthyStr (some text)) = false := by simp [truthyStr, ht]
  unfold postBlogComments
  rw [hg, h]
  simp [push]

theorem postBlogCommentsRequest_cast {castObjectId : String → Option ObjectId} {id : String}
    {oid : ObjectId} (s : Store) (user : Claims) (text : String) (newId : ObjectId) (now : Nat)
    (ht : text ≠ "") (h : castObjectId id = some oid) :
    postBlogCommentsRequest castObjectId s user id (some text) newId now
      = postBlogComments s user oid (some text) newId now := by
  have hg : (!truthyStr (some text)) = false := by simp [truthyStr, ht]
  unfold postBlogCommentsRequest
  rw [hg, h]
  simp

/-- C22 (amended): a comment with non-empty text on an existing blog is appended
at the end of the comment list of that blog, authored by the caller; the earlier
comments stay as they were and where they were, the new comment is the one in
the 201 response, and nothing else of the store changes.  A missing or empty
text is answered 400; with a text, a path id that casts to an ObjectId matching
no blog is answered 404 and a path id that does not cast to an ObjectId is
answered 500; in these three cases the store is unchanged. -/
theorem add_comment_appends (castObjectId : String → Option ObjectId) (s : Store) (user : Claims)
    (id : String) (newId : ObjectId) (now : Nat) :
    (∀ oid text blog, castObjectId id = some oid → text ≠ "" →
      findById s.blogs oid = some blog →
      (postBlogCommentsRequest castObjectId s user id (some text) newId now).1
        = ⟨201, "Comment added successfully", .comment (some (Comment.mk newId user.userId text now))⟩ ∧
      findById (postBlogCommentsRequest castObjectId s user id (some text) newId now).2.blogs oid
        = some { blog with comments := blog.comments ++ [Comment.mk newId user.userId text now] } ∧
      (blog.comments ++ [Comment.mk newId user.userId text now]).take blog.comments.length
        = blog.comments ∧
      (∀ other, other ≠ oid →
        findById (postBlogCommentsRequest castObjectId s user id (some text) newId now).2.blogs
            other
          = findById s.blogs other) ∧
      (postBlogCommentsRequest castObjectId s user id (some text) newId now).2.users = s.users ∧
      (postBlogCommentsRequest castObjectId s user id (some text) newId now).2.reviews
        = s.reviews) ∧
    (∀ text, truthyStr text = false →
      postBlogCommentsRequest castObjectId s user id text newId now
        = (⟨400, "Comment text is required", .none⟩, s)) ∧
    (∀ oid text, castObjectId id = some oid → text ≠ "" → (∀ b ∈ s.blogs, b._id ≠ oid) →
      postBlogCommentsRequest castObjectId s user id (some text) newId now
        = (⟨404, "Blog not found", .none⟩, s)) ∧
    (∀ text, castObjectId id = none → text ≠ "" →
      postBlogCommentsRequest castObjectId s user id (some text) newId now
        = (⟨500, "Server error", .none⟩, s)) := by
  refine ⟨?_, ?_, ?_, ?_⟩
  · intro oid text blog hcast ht h
    have hid : blog._id = oid := findById_id h
    rw [postBlogCommentsRequest_cast s user text newId now ht hcast,
      postBlogComments_eq user text newId now ht h]
    refine ⟨rfl, findById_save h hid, by simp, ?_, rfl, rfl⟩
    intro other hne
    exact findById_save_ne s.blogs _ other (by rw [← hid] at hne; exact hne)
  · intro text ht
    simp [postBlogCommentsRequest, ht]
  · intro oid text hcast ht hall
    have hf : findById s.blogs oid = none := (findById_none_iff _ _).2 hall
    have hg : (!truthyStr (some text)) = false := by simp [truthyStr, ht]
    rw [postBlogCommentsRequest_cast s user text newId now ht hcast]
    unfold postBlogComments
    rw [hg, hf]
    simp
  · intro text hcast ht
    have hg : (!truthyStr (some text)) = false := by simp [truthyStr, ht]
    unfold postBlogCommentsRequest
    rw [hg, hcast]
    simp

/-- Witness of `add_comment_appends`: user 7 adds a second comment to blog 1,
whose path id is the one of 24 hexadecimal digits that casts to 1. -/
theorem add_comment_appends_witness :
    hexObjectId "000000000000000000000001" = some 1 ∧
    (postBlogCommentsRequest hexObjectId commentedStore userClaims "000000000000000000000001"
        (some "second") 12 5).1
      = ⟨201, "Comment added successfully", .comment (some ⟨12, userClaims.userId, "second", 5⟩)⟩ ∧
    findById (postBlogCommentsRequest hexObjectId commentedStore userClaims
        "000000000000000000000001" (some "second") 12 5).2.blogs 1
      = some { sampleBlog 1 [] with comments := [⟨11, 7, "first", 0⟩, ⟨12, 7, "second", 5⟩] } :=
  ⟨by decide,
    ((add_comment_appends hexObjectId commentedStore userClaims "000000000000000000000001" 12
      5).1 1 "second" { sampleBlog 1 [] with comments := [⟨11, 7, "first", 0⟩] } (by decide)
      (by decide) (by decide)).1,
    ((add_comment_appends hexObjectId commentedStore userClaims "000000000000000000000001" 12
      5).1 1 "second" { sampleBlog 1 [] with comments := [⟨11, 7, "first", 0⟩] } (by decide)
      (by decide) (by decide)).2.1⟩

/-- C22 as stated fails: a comment with the text "hello" on the path id "abc",
which is no ObjectId and so matches no blog, is answered 500 "Server error", not
404: `findById` raises CastError on the id.  The store is left as it was. -/
theorem comment_on_malformed_id_is_500 :
    hexObjectId "abc" = none ∧
    (∀ b ∈ commentedStore.blogs, hexObjectId "abc" ≠ some b._id) ∧
    postBlogCommentsRequest hexObjectId commentedStore userClaims "abc" (some "hello") 12 5
      = (⟨500, "Server error", .none⟩, commentedStore) ∧
    (postBlogCommentsRequest hexObjectId commentedStore userClaims "abc" (some "hello") 12
      5).1.status ≠ 404 := by
  decide

/-- The comment-deletion route on path and body ids of 24 hexadecimal digits is
the handler on the ObjectIds they cast to: deleting comment 11 under the parent
id 5, which matches no blog, is answered 200 with the store as it was.  An id
that is no ObjectId is answered 500, and an unknown type 400 before any cast. -/
theorem deleteAdminCommentsRequest_runs :
    deleteAdminCommentsRequest hexObjectId commentedStore "00000000000000000000000b"
        (some "blog") "000000000000000000000005"
      = deleteAdminComments commentedStore 11 (some "blog") 5 ∧
    deleteAdminCommentsRequest hexObjectId commentedStore "00000000000000000000000b"
        (some "blog") "000000000000000000000005"
      = (⟨200, "Comment deleted successfully", .none⟩, commentedStore) ∧
    deleteAdminCommentsRequest hexObjectId commentedStore "abc" (some "blog")
        "000000000000000000000001"
      = (⟨500, "Server error", .none⟩, commentedStore) ∧
    deleteAdminCommentsRequest hexObjectId commentedStore "abc" (some "review")
        "000000000000000000000002"
      = (⟨200, "Comment deleted successfully", .none⟩, commentedStore) ∧
    deleteAdminCommentsRequest hexObjectId commentedStore "abc" (some "post") "xyz"
      = (⟨400, "Invalid comment type", .none⟩, commentedStore) := by
  decide

/-- The comment-deletion route answers 200, 400 or 500, never 404, whatever the
ids and the cast. -/
theorem deleteAdminCommentsRequest_status (castObjectId : String → Option ObjectId) (s : Store)
    (commentId : String) (type : Option String) (parentId : String) :
    (deleteAdminCommentsRequest castObjectId s commentId type parentId).1.status = 200 ∨
      (deleteAdminCommentsRequest castObjectId s commentId type parentId).1.status = 400 ∨
      (deleteAdminCommentsRequest castObjectId s commentId type parentId).1.status = 500 := by
  unfold deleteAdminCommentsRequest
  by_cases h1 : type = some "blog"
  · rw [if_pos h1]
    cases hp : castObjectId parentId with
    | none => exact Or.inr (Or.inr rfl)
    | some pid =>
      cases hc : castObjectId commentId with
      | none => exact Or.inr (Or.inr rfl)
      | some cid =>
        dsimp only
        rcases deleteAdminComments_status s cid type pid with h | h
        · exact Or.inl h
        · exact Or.inr (Or.inl h)
  · rw [if_neg h1]
    by_cases h2 : type = some "review"
    · rw [if_pos h2]
      cases hp : castObjectId parentId with
      | none => exact Or.inr (Or.inr rfl)
      | some pid => exact Or.inl rfl
    · rw [if_neg h2]
      exact Or.inr (Or.inl rfl)

end Backend

/-! ## Claims on reviews, routing and listing -/

namespace Backend

/-- The review handler either leaves the store as it is or appends one review
whose (movieId, user) pair no stored review has. -/
theorem postReviews_store (s : Store) (user : Claims) (body : ReviewBody) (newId : ObjectId)
    (now : Nat) :
    (postReviews s user body newId now).2 = s ∨
    ∃ review, (postReviews s user body newId now).2 = { s with reviews := s.reviews ++ [review] } ∧
      (review.movieId, review.user) ∉ reviewPairs s := by
  unfold postReviews
  split
  · exact Or.inl rfl
  · dsimp only
    split
    · exact Or.inl rfl
    · rename_i hfind
      split
      · exact Or.inl rfl
      · refine Or.inr ⟨_, rfl, ?_⟩
        intro hmem
        obtain ⟨r, hr, hpair⟩ := List.mem_map.1 hmem
        have hnone := List.find?_eq_none.1 hfind r hr
        apply hnone
        have h1 : r.movieId = body.movieId.getD "" := congrArg Prod.fst hpair
        have h2 : r.user = user.userId := congrArg Prod.snd hpair
        simp [h1, h2]

theorem reviewPairs_nodup_postReviews (s : Store) (user : Claims) (body : ReviewBody)
    (newId : ObjectId) (now : Nat) (h : (reviewPairs s).Nodup) :
    (reviewPairs (postReviews s user body newId now).2).Nodup := by
  rcases postReviews_store s user body newId now with h1 | ⟨review, h1, hnew⟩
  · rw [h1]
    exact h
  · rw [h1]
    unfold reviewPairs at h hnew ⊢
    rw [List.map_append]
    exact List.Nodup.append h (List.nodup_singleton _) (by simpa using hnew)

theorem reviewPairs_nodup_postReviewsAll (requests : List ReviewRequest) :
    ∀ s : Store, (reviewPairs s).Nodup → (reviewPairs (postReviewsAll s requests)).Nodup := by
  induction requests with
  | nil => exact fun s h => h
  | cons r rs ih =>
    intro s h
    exact ih _ (reviewPairs_nodup_postReviews s r.user r.body r.newId r.now h)

/-- The handler of `POST /api/reviews` is its check followed at once by its
save. -/
theorem postReviews_check_save (s : Store) (user : Claims) (body : ReviewBody)
    (newId : ObjectId) (now : Nat) :
    postReviews s user body newId now
      = match reviewCheck s user body with
        | some response => (response, s)
        | none => reviewSave s user body newId now := by
  unfold postReviews reviewCheck
  split
  · rfl
  · dsimp only
    split <;> rfl

/-- C23 (amended): `POST /api/reviews` by user `u` for movie `m` is answered 400
and changes nothing when a review with that movie id and that user is stored;
the handler is its check (`findOne`) followed by its save; and from a store with
at most one review per (movieId, user) pair every store reached through requests
to this handler served one after the other has at most one review per pair. -/
theorem no_second_review (s : Store) (user : Claims) (body : ReviewBody) (newId : ObjectId)
    (now : Nat) :
    (∀ m, body.movieId = some m → (∃ r ∈ s.reviews, r.movieId = m ∧ r.user = user.userId) →
      (postReviews s user body newId now).1.status = 400 ∧
      (postReviews s user body newId now).2 = s) ∧
    (postReviews s user body newId now
      = match reviewCheck s user body with
        | some response => (response, s)
        | none => reviewSave s user body newId now) ∧
    ((reviewPairs s).Nodup → (reviewPairs (postReviews s user body newId now).2).Nodup) ∧
    (∀ requests, (reviewPairs s).Nodup → (reviewPairs (postReviewsAll s requests)).Nodup) := by
  refine ⟨?_, postReviews_check_save s user body newId now,
    reviewPairs_nodup_postReviews s user body newId now,
    fun requests h => reviewPairs_nodup_postReviewsAll requests s h⟩
  rintro m hm ⟨r, hr, hrm, hru⟩
  unfold postReviews
  split
  · exact ⟨rfl, rfl⟩
  · dsimp only
    split
    · exact ⟨rfl, rfl⟩
    · rename_i hfind
      exfalso
      have hnone := List.find?_eq_none.1 hfind r hr
      apply hnone
      simp [hm, hrm, hru]

/-- Witness of `no_second_review`: user 1 has reviewed movie "m1" and posts a
second review of it. -/
theorem no_second_review_witness :
    (postReviews (sampleStore [] [] []) adminClaims ⟨some "m1", some "M", some 9, some "again", []⟩
        8 3).1.status = 400 ∧
    (postReviews (sampleStore [] [] []) adminClaims ⟨some "m1", some "M", some 9, some "again", []⟩
        8 3).2 = sampleStore [] [] [] :=
  (no_second_review (sampleStore [] [] []) adminClaims
    ⟨some "m1", some "M", some 9, some "again", []⟩ 8 3).1 "m1" rfl
    ⟨sampleReview 2 [], by decide, by decide, by decide⟩

/-- C23 as stated fails: user 7 posts two reviews of the movie "m2" in two
requests that overlap, both running `Review.findOne` before either saves.
Neither check finds a review of that pair, both requests save, and the store,
which held one review per pair, now holds two reviews of the pair ("m2", 7).
Served one after the other, the second request is answered 400 and one review is
stored. -/
theorem overlapping_reviews_store_a_pair_twice :
    (reviewPairs (sampleStore [] [] [])).Nodup ∧
    reviewCheck (sampleStore [] [] []) userClaims ⟨some "m2", some "N", some 8, some "a", []⟩
      = none ∧
    reviewCheck (sampleStore [] [] []) userClaims ⟨some "m2", some "N", some 3, some "b", []⟩
      = none ∧
    (postReviewsOverlapped (sampleStore [] [] [])
        ⟨userClaims, ⟨some "m2", some "N", some 8, some "a", []⟩, 8, 3⟩
        ⟨userClaims, ⟨some "m2", some "N", some 3, some "b", []⟩, 9, 4⟩).reviews
      = [sampleReview 2 [], Review.mk 8 "m2" "N" 7 8 "a" [] true 3,
          Review.mk 9 "m2" "N" 7 3 "b" [] true 4] ∧
    reviewPairs (postReviewsOverlapped (sampleStore [] [] [])
        ⟨userClaims, ⟨some "m2", some "N", some 8, some "a", []⟩, 8, 3⟩
        ⟨userClaims, ⟨some "m2", some "N", some 3, some "b", []⟩, 9, 4⟩)
      = [("m1", 1), ("m2", 7), ("m2", 7)] ∧
    ¬ (reviewPairs (postReviewsOverlapped (sampleStore [] [] [])
        ⟨userClaims, ⟨some "m2", some "N", some 8, some "a", []⟩, 8, 3⟩
        ⟨userClaims, ⟨some "m2", some "N", some 3, some "b", []⟩, 9, 4⟩)).Nodup ∧
    (postReviewsAll (sampleStore [] [] [])
        [⟨userClaims, ⟨some "m2", some "N", some 8, some "a", []⟩, 8, 3⟩,
          ⟨userClaims, ⟨some "m2", some "N", some 3, some "b", []⟩, 9, 4⟩]).reviews
      = [sampleReview 2 [], Review.mk 8 "m2" "N" 7 8 "a" [] true 3] := by
  decide

/-- The request `GET /api/blogs/user` goes to the route `/api/blogs/:id`, declared
before `/api/blogs/user`; a cast that refuses "user" makes the answer 400,
whatever the store and the token. -/
theorem serveBlogsGet_user (castObjectId : String → Option ObjectId)
    (jwtVerify : String → Option Claims) (s : Store) (authorization approved : Option String)
    (hcast : castObjectId "user" = none) :
    serveBlogsGet castObjectId jwtVerify s authorization approved "/api/blogs/user"
      = some ⟨400, "Invalid blog ID", .none⟩ := by
  have hroute : firstMatch routeTable "GET" "/api/blogs/user" = some ("GET", "/api/blogs/:id") := by
    decide
  have hparam : routeParam "/api/blogs/:id" "/api/blogs/user" "id" = some "user" := by decide
  unfold serveBlogsGet
  rw [hroute]
  simp [hparam, getBlogsById, hcast]

/-- C24, the failing run: `GET /api/blogs/user` with the valid token of user 7,
who has written blogs 2 and 3.  Express takes the first declared route that
matches, `/api/blogs/:id` with `id = "user"`; the id does not cast to an
ObjectId and the answer is 400 "Invalid blog ID".  The handler of
`/api/blogs/user`, which would return the two blogs, is not reached. -/
theorem user_blogs_route_is_shadowed :
    firstMatch routeTable "GET" "/api/blogs/user" = some ("GET", "/api/blogs/:id") ∧
    routeParam "/api/blogs/:id" "/api/blogs/user" "id" = some "user" ∧
    hexObjectId "user" = none ∧
    verifyToken toyVerify (some "Bearer user-token") = .next userClaims ∧
    serveBlogsGet hexObjectId toyVerify authoredStore (some "Bearer user-token") none
        "/api/blogs/user"
      = some ⟨400, "Invalid blog ID", .none⟩ ∧
    getBlogsUser authoredStore userClaims
      = ⟨200, "",
          .blogs [{ sampleBlog 2 [] with author := 7 },
            { sampleBlog 3 [] with author := 7, isApproved := false }]⟩ := by
  decide

/-- C25, the failing run: the store holds blog 3 with `isApproved = false`.
`GET /api/blogs` without the `approved` parameter filters on
`isApproved: true` and returns blogs 1 and 2 only; blog 3 is returned only for
`approved=false`. -/
theorem blog_listing_default_hides_unapproved :
    ({ sampleBlog 3 [] with author := 7, isApproved := false } : Blog) ∈ authoredStore.blogs ∧
    getBlogs authoredStore none
      = ⟨200, "", .blogs [sampleBlog 1 [], { sampleBlog 2 [] with author := 7 }]⟩ ∧
    getBlogs authoredStore (some "true") = getBlogs authoredStore none ∧
    getBlogs authoredStore (some "false")
      = ⟨200, "", .blogs [{ sampleBlog 3 [] with author := 7, isApproved := false }]⟩ := by
  decide

/-- Without the `approved` parameter the listing holds approved blogs only. -/
theorem getBlogs_default_only_approved (s : Store) (blogs : List Blog)
    (h : getBlogs s none = ⟨200, "", .blogs blogs⟩) : ∀ b ∈ blogs, b.isApproved = true := by
  intro b hb
  have hb2 : b ∈ sortNewestFirst Blog.createdAt (s.blogs.filter (fun b => b.isApproved == true)) := by
    have hp : Payload.blogs (sortNewestFirst Blog.createdAt
        (s.blogs.filter (fun b => b.isApproved == true))) = Payload.blogs blogs := by
      have := congrArg Response.payload h
      simpa [getBlogs] using this
    rw [Payload.blogs.inj hp]
    exact hb
  have hb3 : b ∈ s.blogs.filter (fun b => b.isApproved == true) :=
    (List.perm_insertionSort _ _).mem_iff.1 hb2
  simpa using (List.mem_filter.1 hb3).2

end Backend

/-! ## Claims on the admin panel login -/

namespace AdminPanel

/-- C26: `handleSubmit` calls `onLogin` if and only if the form holds the
literal protected-admin email and password or the backend login succeeds with a
user whose `isAdmin` is true.  With the literal pair no backend call is made and
the session user has `isAdmin = true`, whatever the backend would answer; with
any other form the backend is called, an admin reply is handed to `onLogin` and
a non-admin reply is not. -/
theorem admin_login_grants_session (login : FormData → BackendReply) (formData : FormData) :
    ((handleSubmit login formData).onLogin.isSome = true ↔
      (formData.email = "ayush.bhrg@gmail.com" ∧ formData.password = "ayushtri") ∨
        ∃ token user, login formData = .ok token (some user) ∧ user.isAdmin = true) ∧
    (formData.email = "ayush.bhrg@gmail.com" ∧ formData.password = "ayushtri" →
      (handleSubmit login formData).backendCalled = false ∧
      (handleSubmit login formData).onLogin
        = some ("protected-admin-token",
            ⟨"admin-protected", "ayush.bhrg@gmail.com", "Admin", true⟩)) ∧
    (¬ (formData.email = "ayush.bhrg@gmail.com" ∧ formData.password = "ayushtri") →
      (handleSubmit login formData).backendCalled = true ∧
      (∀ token user, login formData = .ok token (some user) → user.isAdmin = true →
        (handleSubmit login formData).onLogin = some (token, user)) ∧
      (∀ token user, login formData = .ok token (some user) → user.isAdmin = false →
        (handleSubmit login formData).onLogin = none)) ∧
    ((handleSubmit login formData).backendCalled = true →
      ∀ token user, login formData = .ok token (some user) → user.isAdmin = false →
        (handleSubmit login formData).onLogin = none) := by
  unfold handleSubmit
  by_cases hlit : formData.email = "ayush.bhrg@gmail.com" ∧ formData.password = "ayushtri"
  · rw [if_pos hlit]
    refine ⟨⟨fun _ => Or.inl hlit, fun _ => rfl⟩, fun _ => ⟨rfl, rfl⟩, fun hn => absurd hlit hn,
      fun hb => ?_⟩
    simp at hb
  · rw [if_neg hlit]
    cases hrep : login formData with
    | failed message =>
      refine ⟨⟨fun h => by simp at h, ?_⟩, fun hl => absurd hl hlit,
        fun _ => ⟨rfl, fun _ _ e => (nomatch e), fun _ _ e => (nomatch e)⟩,
        fun _ _ _ e => (nomatch e)⟩
      rintro (h | ⟨_, _, h, _⟩)
      · exact absurd h hlit
      · cases h
    | ok token user =>
      cases user with
      | none =>
        refine ⟨⟨fun h => by simp at h, ?_⟩, fun hl => absurd hl hlit,
          fun _ => ⟨rfl, fun _ _ e => (nomatch e), fun _ _ e => (nomatch e)⟩,
          fun _ _ _ e => (nomatch e)⟩
        rintro (h | ⟨_, _, h, _⟩)
        · exact absurd h hlit
        · cases h
      | some u =>
        cases hadm : u.isAdmin with
        | true =>
          dsimp only
          rw [hadm]
          refine ⟨⟨fun _ => Or.inr ⟨token, u, rfl, hadm⟩, fun _ => rfl⟩,
            fun hl => absurd hl hlit, fun _ => ⟨rfl, ?_, ?_⟩, ?_⟩
          · intro t v e _
            cases e
            rfl
          · intro t v e hv
            cases e
            rw [hadm] at hv
            cases hv
          · intro _ t v e hv
            cases e
            rw [hadm] at hv
            cases hv
        | false =>
          dsimp only
          rw [hadm]
          refine ⟨⟨fun h => by simp at h, ?_⟩, fun hl => absurd hl hlit,
            fun _ => ⟨rfl, ?_, fun _ _ _ _ => rfl⟩, fun _ _ _ _ _ => rfl⟩
          · rintro (h | ⟨t, v, e, hv⟩)
            · exact absurd h hlit
            · cases e
              rw [hadm] at hv
              cases hv
          · intro t v e hv
            cases e
            rw [hadm] at hv
            cases hv

/-- Witness of `admin_login_grants_session`: the literal pair, on a backend that
does not know it. -/
theorem admin_login_grants_session_witness :
    toyLogin ⟨"ayush.bhrg@gmail.com", "ayushtri"⟩ = .failed (some "Invalid credentials") ∧
    (handleSubmit toyLogin ⟨"ayush.bhrg@gmail.com", "ayushtri"⟩).backendCalled = false ∧
    (handleSubmit toyLogin ⟨"ayush.bhrg@gmail.com", "ayushtri"⟩).onLogin
      = some ("protected-admin-token",
          ⟨"admin-protected", "ayush.bhrg@gmail.com", "Admin", true⟩) :=
  ⟨by decide,
    (admin_login_grants_session toyLogin ⟨"ayush.bhrg@gmail.com", "ayushtri"⟩).2.1
      ⟨rfl, rfl⟩⟩

end AdminPanel

/-! ## Claims on the home page recommendations -/

namespace Frontend

theorem mem_foldl_genres (ms : List Movie) (g : String) :
    ∀ init : List String,
      g ∈ ms.foldl (fun acc movie => acc ++ movie.genre.getD []) init ↔
        g ∈ init ∨ ∃ w ∈ ms, g ∈ w.genre.getD [] := by
  induction ms with
  | nil => intro init; simp
  | cons m rest ih =>
    intro init
    rw [List.foldl_cons, ih]
    constructor
    · rintro (h | ⟨w, hw, hg⟩)
      · rcases List.mem_append.1 h with h1 | h1
        · exact Or.inl h1
        · exact Or.inr ⟨m, List.mem_cons_self _ _, h1⟩
      · exact Or.inr ⟨w, List.mem_cons_of_mem _ hw, hg⟩
    · rintro (h | ⟨w, hw, hg⟩)
      · exact Or.inl (List.mem_append_left _ h)
      · rcases List.mem_cons.1 hw with h1 | h1
        · exact Or.inl (List.mem_append_right _ (h1 ▸ hg))
        · exact Or.inr ⟨w, h1, hg⟩

theorem recommendable_iff (watchlist : List String) (movies : List Movie) (m : Movie) :
    recommendable watchlist
        ((movies.filter (fun movie => watchlist.contains movie._id)).foldl
          (fun acc movie => acc ++ movie.genre.getD []) []) m = true ↔
      SharesWatchlistGenre watchlist movies m := by
  unfold recommendable SharesWatchlistGenre
  have hgen : ∀ g, g ∈ (movies.filter (fun movie => watchlist.contains movie._id)).foldl
      (fun acc movie => acc ++ movie.genre.getD []) [] ↔
      ∃ w ∈ movies, w._id ∈ watchlist ∧ g ∈ w.genre.getD [] := by
    intro g
    rw [mem_foldl_genres]
    constructor
    · rintro (h | ⟨w, hw, hg⟩)
      · cases h
      · have hw2 := List.mem_filter.1 hw
        exact ⟨w, hw2.1, by simpa using hw2.2, hg⟩
    · rintro ⟨w, hw, hwl, hg⟩
      exact Or.inr ⟨w, List.mem_filter.2 ⟨hw, by simpa using hwl⟩, hg⟩
  cases hgenre : m.genre with
  | none => simp
  | some gs =>
    simp only [Option.map_some', Option.getD_some, Bool.and_eq_true, Bool.not_eq_true',
      List.any_eq_true]
    constructor
    · rintro ⟨h1, g, hg, hmem⟩
      exact ⟨by simpa using h1, g, hg, (hgen g).1 (by simpa using hmem)⟩
    · rintro ⟨h1, g, hg, hex⟩
      exact ⟨by simpa using h1, g, hg, by simpa using (hgen g).2 hex⟩

/-- C30: `getRecommendedMovies` returns at most 8 movies, a sublist of the movie
list (same movies, same order).  When the user is authenticated and some movie
outside the watchlist shares a genre with a movie of the list that is on the
watchlist, every returned movie is outside the watchlist and shares a genre with
a watchlisted movie; in every other case the result is the first 8 movies. -/
theorem recommended_movies (isAuthenticated : Bool) (user : Option User) (movies : List Movie) :
    (getRecommendedMovies isAuthenticated user movies).length ≤ 8 ∧
    (getRecommendedMovies isAuthenticated user movies).Sublist movies ∧
    ((isAuthenticated = true ∧ ∃ m ∈ movies, SharesWatchlistGenre (watchlistOf user) movies m) →
      ∀ r ∈ getRecommendedMovies isAuthenticated user movies,
        SharesWatchlistGenre (watchlistOf user) movies r) ∧
    (¬ (isAuthenticated = true ∧ ∃ m ∈ movies, SharesWatchlistGenre (watchlistOf user) movies m) →
      getRecommendedMovies isAuthenticated user movies = movies.take 8) := by
  have htake : (movies.take 8).length ≤ 8 := List.length_take_le 8 movies
  have hsub : (movies.take 8).Sublist movies := List.take_sublist 8 movies
  unfold getRecommendedMovies
  show (if (!isAuthenticated || (watchlistOf user).length == 0) = true then movies.take 8
      else _).length ≤ 8 ∧ _
  by_cases hg : (!isAuthenticated || (watchlistOf user).length == 0) = true
  · simp only [watchlistOf] at hg ⊢
    rw [if_pos hg]
    refine ⟨htake, hsub, ?_, fun _ => rfl⟩
    rintro ⟨ha, m, _, _, g, _, w, _, hw, _⟩
    exfalso
    have hne : ((user.bind (fun u => u.watchlist)).getD []).length ≠ 0 := by
      intro h0
      rw [List.length_eq_zero] at h0
      rw [h0] at hw
      cases hw
    simp [ha, hne] at hg
  · have hauth : isAuthenticated = true := by
      cases isAuthenticated
      · simp at hg
      · rfl
    simp only [watchlistOf] at hg ⊢
    rw [if_neg hg]
    by_cases hw0 : ((movies.filter
        (fun movie => ((user.bind (fun u => u.watchlist)).getD []).contains movie._id)).length
          == 0) = true
    · rw [if_pos hw0]
      refine ⟨htake, hsub, ?_, fun _ => rfl⟩
      rintro ⟨_, m, _, _, g, _, w, hwm, hw, _⟩
      exfalso
      have hmem : w ∈ movies.filter
          (fun movie => ((user.bind (fun u => u.watchlist)).getD []).contains movie._id) :=
        List.mem_filter.2 ⟨hwm, by simpa using hw⟩
      have hlen := List.length_pos_of_mem hmem
      have h0 : (movies.filter
          (fun movie => ((user.bind (fun u => u.watchlist)).getD []).contains movie._id)).length
            = 0 := by
        simpa using hw0
      omega
    · rw [if_neg hw0]
      have hrec := recommendable_iff ((user.bind (fun u => u.watchlist)).getD []) movies
      by_cases hpos : ((movies.filter (recommendable ((user.bind (fun u => u.watchlist)).getD [])
          ((movies.filter (fun movie =>
            ((user.bind (fun u => u.watchlist)).getD []).contains movie._id)).foldl
            (fun acc movie => acc ++ movie.genre.getD []) []))).take 8).length > 0
      · rw [if_pos hpos]
        refine ⟨List.length_take_le 8 _,
          (List.take_sublist 8 _).trans (List.filter_sublist _), ?_, ?_⟩
        · intro _ r hr
          have hr2 := List.mem_of_mem_take hr
          exact (hrec r).1 (List.mem_filter.1 hr2).2
        · intro hn
          exfalso
          apply hn
          obtain ⟨r, hr⟩ := List.exists_mem_of_length_pos hpos
          have hr2 := List.mem_of_mem_take hr
          exact ⟨hauth, r, (List.mem_filter.1 hr2).1, (hrec r).1 (List.mem_filter.1 hr2).2⟩
      · rw [if_neg hpos]
        refine ⟨htake, hsub, ?_, fun _ => rfl⟩
        rintro ⟨_, m, hm, hshare⟩
        exfalso
        apply hpos
        have hmf := List.mem_filter.2 ⟨hm, (hrec m).2 hshare⟩
        have hlen := List.length_pos_of_mem hmf
        rw [List.length_take]
        omega

/-- Witness of `recommended_movies`: with "Heat" on the watchlist, "Ronin" shares
the genre "Crime" and is the one recommendation. -/
theorem recommended_movies_witness :
    getRecommendedMovies true (some ⟨some ["m1"]⟩) sampleMovies = [⟨"m3", "Ronin", some ["Crime"]⟩] ∧
    ∀ r ∈ getRecommendedMovies true (some ⟨some ["m1"]⟩) sampleMovies,
      SharesWatchlistGenre (watchlistOf (some ⟨some ["m1"]⟩)) sampleMovies r :=
  ⟨by decide,
    (recommended_movies true (some ⟨some ["m1"]⟩) sampleMovies).2.2.1
      ⟨rfl, ⟨"m3", "Ronin", some ["Crime"]⟩, by decide, by decide, "Crime", by decide,
        ⟨"m1", "Heat", some ["Crime", "Drama"]⟩, by decide, by decide, by decide⟩⟩

end Frontend

/-! ## String lemmas -/

section StringLemmas

theorem splitChars_ne_nil (sep : Char) (cs : List Char) : splitChars sep cs ≠ [] := by
  cases cs with
  | nil => simp [splitChars]
  | cons c rest =>
    by_cases hc : c = sep
    · simp [splitChars, hc]
    · cases hr : splitChars sep rest <;> simp [splitChars, hc, hr]

theorem sep_not_mem_splitChars (sep : Char) (cs : List Char) :
    ∀ piece ∈ splitChars sep cs, sep ∉ piece := by
  induction cs with
  | nil => simp [splitChars]
  | cons c rest ih =>
    by_cases hc : c = sep
    · intro piece hp
      simp only [splitChars, hc, if_true] at hp
      rcases List.mem_cons.1 hp with h1 | h1
      · rw [h1]
        simp
      · exact ih piece h1
    · cases hr : splitChars sep rest with
      | nil => exact absurd hr (splitChars_ne_nil sep rest)
      | cons q qs =>
        rw [hr] at ih
        intro piece hp
        simp only [splitChars, hc, if_false, hr] at hp
        rcases List.mem_cons.1 hp with h1 | h1
        · rw [h1]
          intro hmem
          rcases List.mem_cons.1 hmem with h2 | h2
          · exact hc h2.symm
          · exact ih q (List.mem_cons_self _ _) h2
        · exact ih piece (List.mem_cons_of_mem _ h1)

theorem intercalate_splitChars (sep : Char) (cs : List Char) :
    [sep].intercalate (splitChars sep cs) = cs := by
  induction cs with
  | nil => simp [splitChars, List.intercalate]
  | cons c rest ih =>
    cases hr : splitChars sep rest with
    | nil => exact absurd hr (splitChars_ne_nil sep rest)
    | cons q qs =>
      rw [hr] at ih
      by_cases hc : c = sep
      · simp only [splitChars, hc, if_true, hr]
        simp only [List.intercalate, List.intersperse_cons_cons, List.flatten_cons,
          List.nil_append, List.singleton_append] at ih ⊢
        rw [ih, ← hc]
      · simp only [splitChars, hc, if_false, hr]
        cases qs with
        | nil =>
          simp only [List.intercalate, List.intersperse_single, List.flatten_cons,
            List.flatten_nil, List.append_nil] at ih ⊢
          rw [ih]
        | cons q2 qs2 =>
          simp only [List.intercalate, List.intersperse_cons_cons, List.flatten_cons,
            List.cons_append] at ih ⊢
          rw [ih]

theorem head?_dropWhile_false (p : Char → Bool) (l : List Char) (c : Char)
    (h : (l.dropWhile p).head? = some c) : p c = false := by
  have := List.head?_dropWhile_not p l
  rw [h] at this
  exact this

theorem getLast?_dropWhile (p : Char → Bool) (l : List Char) (h : l.dropWhile p ≠ []) :
    (l.dropWhile p).getLast? = l.getLast? := by
  obtain ⟨t, ht⟩ := @List.dropWhile_suffix _ l p
  have hl : l.getLast? = (t ++ l.dropWhile p).getLast? := by rw [ht]
  rw [hl, List.getLast?_append]
  cases hd : (l.dropWhile p).getLast? with
  | none => exact absurd (List.getLast?_eq_none_iff.1 hd) h
  | some x => rfl

theorem trimChars_head (cs : List Char) (c : Char) (h : (trimChars cs).head? = some c) :
    isJsWhitespace c = false := by
  unfold trimChars at h
  rw [List.head?_reverse] at h
  have hne : (cs.dropWhile isJsWhitespace).reverse.dropWhile isJsWhitespace ≠ [] := by
    intro h0
    rw [h0] at h
    cases h
  rw [getLast?_dropWhile _ _ hne, List.getLast?_reverse] at h
  exact head?_dropWhile_false _ _ _ h

theorem trimChars_getLast (cs : List Char) (c : Char) (h : (trimChars cs).getLast? = some c) :
    isJsWhitespace c = false := by
  unfold trimChars at h
  rw [List.getLast?_reverse] at h
  exact head?_dropWhile_false _ _ _ h

theorem mem_of_mem_trimChars (cs : List Char) (c : Char) (h : c ∈ trimChars cs) : c ∈ cs := by
  unfold trimChars at h
  have h1 := List.mem_reverse.1 h
  have h2 := (List.dropWhile_sublist isJsWhitespace).subset h1
  have h3 := List.mem_reverse.1 h2
  exact (List.dropWhile_sublist isJsWhitespace).subset h3

theorem dropWhile_eq_self_of_head (p : Char → Bool) (l : List Char)
    (h : ∀ c, l.head? = some c → p c = false) : l.dropWhile p = l := by
  cases l with
  | nil => rfl
  | cons x xs =>
    have hx : p x = false := h x rfl
    simp [List.dropWhile_cons, hx]

theorem trimChars_eq_self (l : List Char) (hh : ∀ c, l.head? = some c → isJsWhitespace c = false)
    (hl : ∀ c, l.getLast? = some c → isJsWhitespace c = false) : trimChars l = l := by
  unfold trimChars
  rw [dropWhile_eq_self_of_head _ l hh,
    dropWhile_eq_self_of_head _ l.reverse (by rw [List.head?_reverse]; exact hl),
    List.reverse_reverse]

theorem trimChars_idem (cs : List Char) : trimChars (trimChars cs) = trimChars cs :=
  trimChars_eq_self _ (trimChars_head cs) (trimChars_getLast cs)

theorem jsTrim_data (t : String) : (jsTrim t).data = trimChars t.data := rfl

theorem jsTrim_idem (t : String) : jsTrim (jsTrim t) = jsTrim t := by
  unfold jsTrim
  rw [trimChars_idem]

end StringLemmas

/-! ## Claims on tag parsing -/

namespace Backend

theorem parsed_tag_properties (t tag : String)
    (h : tag ∈ ((jsSplitComma t).map jsTrim).filter (fun tag => tag != "")) :
    tag ≠ "" ∧ jsTrim tag = tag ∧
      (∀ c, tag.data.head? = some c → isJsWhitespace c = false) ∧
      (∀ c, tag.data.getLast? = some c → isJsWhitespace c = false) ∧ ',' ∉ tag.data := by
  obtain ⟨hmem, hne⟩ := List.mem_filter.1 h
  obtain ⟨piece, hpiece, hpt⟩ := List.mem_map.1 hmem
  obtain ⟨chars, hchars, hpc⟩ := List.mem_map.1 hpiece
  subst hpt
  subst hpc
  refine ⟨by simpa using hne, jsTrim_idem _, ?_, ?_, ?_⟩
  · intro c hc
    exact trimChars_head _ c hc
  · intro c hc
    exact trimChars_getLast _ c hc
  · intro hcomma
    exact sep_not_mem_splitChars ',' t.data chars hchars (mem_of_mem_trimChars _ _ hcomma)

theorem postBlogs_tags (s : Store) (user : Claims) (body : BlogBody) (file : Option String)
    (newId : ObjectId) (now : Nat) (blog : Blog)
    (h : (postBlogs s user body file newId now).1.payload = .blog blog) :
    blog.tags =
      match body.tags with
      | some t => ((jsSplitComma t).map jsTrim).filter (fun tag => tag != "")
      | none => [] := by
  unfold postBlogs at h
  split at h
  · cases h
  · dsimp only at h
    split at h
    · cases h
    · have hb := Payload.blog.inj h
      rw [← hb]
      cases ht : body.tags with
      | none => simp [truthyStr]
      | some t =>
        by_cases he : t = ""
        · subst he
          simp [truthyStr]
          decide
        · simp [truthyStr, he]

/-- C29: the tags stored by `POST /api/blogs` are the pieces of the tags string
between its commas, in their order, each trimmed, without the empty ones: the
pieces joined by commas give the string back and no piece holds a comma; so no
stored tag is empty, none starts or ends with whitespace (trimming it again
changes nothing), none holds a comma, and a missing or empty tags value stores
the empty list. -/
theorem blog_tags_parsing (s : Store) (user : Claims) (body : BlogBody) (file : Option String)
    (newId : ObjectId) (now : Nat) (blog : Blog)
    (h : (postBlogs s user body file newId now).1.payload = .blog blog) :
    (blog.tags =
      match body.tags with
      | some t => ((jsSplitComma t).map jsTrim).filter (fun tag => tag != "")
      | none => []) ∧
    (∀ t, body.tags = some t →
      [','].intercalate ((jsSplitComma t).map String.data) = t.data ∧
      ∀ piece ∈ jsSplitComma t, ',' ∉ piece.data) ∧
    (∀ tag ∈ blog.tags,
      tag ≠ "" ∧ jsTrim tag = tag ∧
      (∀ c, tag.data.head? = some c → isJsWhitespace c = false) ∧
      (∀ c, tag.data.getLast? = some c → isJsWhitespace c = false) ∧ ',' ∉ tag.data) ∧
    (body.tags = none ∨ body.tags = some "" → blog.tags = []) := by
  have htags := postBlogs_tags s user body file newId now blog h
  refine ⟨htags, ?_, ?_, ?_⟩
  · intro t _
    constructor
    · have hmap : (jsSplitComma t).map String.data = splitChars ',' t.data := by
        unfold jsSplitComma
        rw [List.map_map]
        exact List.map_id _
      rw [hmap]
      exact intercalate_splitChars ',' t.data
    · intro piece hp
      obtain ⟨chars, hchars, hpc⟩ := List.mem_map.1 hp
      subst hpc
      exact sep_not_mem_splitChars ',' t.data chars hchars
  · intro tag htag
    rw [htags] at htag
    cases ht : body.tags with
    | none =>
      rw [ht] at htag
      cases htag
    | some t =>
      rw [ht] at htag
      exact parsed_tag_properties t tag htag
  · rintro (hn | he)
    · rw [htags, hn]
    · rw [htags, he]
      decide

/-- Witness of `blog_tags_parsing`: the tags string " sci-fi , ,drama,,  noir ". -/
theorem blog_tags_parsing_witness :
    (postBlogs (sampleStore [] [] []) userClaims
        ⟨some "T", some "c", some " sci-fi , ,drama,,  noir ", none, []⟩ none 5 0).1.payload
      = .blog { sampleBlog 5 [] with
          title := "T", author := 7, tags := ["sci-fi", "drama", "noir"] } ∧
    ∀ tag ∈ ["sci-fi", "drama", "noir"],
      tag ≠ "" ∧ jsTrim tag = tag ∧
      (∀ c, tag.data.head? = some c → isJsWhitespace c = false) ∧
      (∀ c, tag.data.getLast? = some c → isJsWhitespace c = false) ∧ ',' ∉ tag.data :=
  ⟨by decide,
    (blog_tags_parsing (sampleStore [] [] []) userClaims
      ⟨some "T", some "c", some " sci-fi , ,drama,,  noir ", none, []⟩ none 5 0
      { sampleBlog 5 [] with title := "T", author := 7, tags := ["sci-fi", "drama", "noir"] }
      (by decide)).2.2.1⟩

end Backend

end AdminMobile
